import Mathlib

/-!
# Mock market-making venue: market state store and order matching

A shallow embedding of `OrderBook.h`, of `StrategyEngine::onNewOrderSingle` and
`StrategyEngine::manageQuotes` (`StrategyEngine.cpp`), of the loop of
`MockMarketDataSource::startGeneratingData` (`MockMarketDataSource.h`) and of
`MockTradeClient::sendNewOrderSingle` (`MockTradeClient.cpp`).

Conventions of the embedding

* prices are C++ `double`s; they are embedded as rationals with exact arithmetic, and
  the quote cycle is embedded a second time with every operation rounded to a
  `double` (`toDouble`, `manageQuotesDouble`), for the claims on the rounding of the
  prices, which the rounding of the operations decides;
* `std::map<std::string, MarketData>` is an association list searched from the
  front, `find` and `operator[]` being the only accesses the code makes;
* member functions of `OrderBook` take the book and return it next to their
  result, so that a change of the book by a call is visible in its result;
* a FIX message is the record of its optional fields, `message.get` on an
  absent field raises `FieldNotFound`;
* quantities are FIX doubles that the code converts with `static_cast<int>`; the
  conversion is truncation into the range of the 32-bit `int`;
* writes to `std::cout` and `std::cerr` and the time stamp of a report are left out,
  but for the quote line of `manageQuotes`, which is the quote it emits;
* a draw of a random distribution is an argument of the function that draws;
* another thread is a list of its `updateMarketData` calls, placed between the locked
  reads of the call they interleave with.
-/

namespace HFT

/-! ## OrderBook.h -/

/-- The per-symbol record `OrderBook::MarketData`. -/
structure MarketData where
  bid : ℚ
  ask : ℚ
  mid : ℚ
deriving DecidableEq, Repr

/-- The constructor `MarketData() : bid(0.0), ask(0.0), mid(0.0)`. -/
def MarketData.default : MarketData := { bid := 0, ask := 0, mid := 0 }

/-- The container `std::map<std::string, MarketData>`. -/
abbrev SymbolMap := List (String × MarketData)

/-- The lookup `std::map::find`: the value stored under `symbol`, when there is one. -/
def SymbolMap.find : SymbolMap → String → Option MarketData
  | [], _ => none
  | (k, v) :: rest, symbol => if k = symbol then some v else SymbolMap.find rest symbol

/-- The store through the reference `m_symbolData[symbol]`: the entry of `symbol`
becomes `data`; an entry is created when the key is absent. -/
def SymbolMap.assign : SymbolMap → String → MarketData → SymbolMap
  | [], symbol, data => [(symbol, data)]
  | (k, v) :: rest, symbol, data =>
    if k = symbol then (k, data) :: rest else (k, v) :: SymbolMap.assign rest symbol data

/-- The class `OrderBook`; its mutex carries no data. -/
structure OrderBook where
  m_symbolData : SymbolMap
deriving DecidableEq, Repr

/-- The constructor `OrderBook() {}`: the map is empty. -/
def OrderBook.empty : OrderBook := { m_symbolData := [] }

/-- The member `OrderBook::updateMarketData`. `m_symbolData[symbol]` yields the stored
entry or a default-constructed one, then its three fields are written. -/
def OrderBook.updateMarketData (ob : OrderBook) (symbol : String) (bid ask : ℚ) : OrderBook :=
  let data := (ob.m_symbolData.find symbol).getD MarketData.default
  let data := { data with bid := bid }
  let data := { data with ask := ask }
  let data := if bid > 0 ∧ ask > 0 then { data with mid := (bid + ask) / 2 } else { data with mid := 0 }
  { m_symbolData := ob.m_symbolData.assign symbol data }

/-- The member `OrderBook::getMarketData`: a copy of the entry found, or the default
record; the book is returned as the call leaves it. -/
def OrderBook.getMarketData (ob : OrderBook) (symbol : String) : MarketData × OrderBook :=
  match ob.m_symbolData.find symbol with
  | some data => (data, ob)
  | none => (MarketData.default, ob)

/-- The member `OrderBook::getBestBid`. -/
def OrderBook.getBestBid (ob : OrderBook) (symbol : String) : ℚ × OrderBook :=
  ((ob.getMarketData symbol).1.bid, (ob.getMarketData symbol).2)

/-- The member `OrderBook::getBestAsk`. -/
def OrderBook.getBestAsk (ob : OrderBook) (symbol : String) : ℚ × OrderBook :=
  ((ob.getMarketData symbol).1.ask, (ob.getMarketData symbol).2)

/-- The member `OrderBook::getMidPrice`. -/
def OrderBook.getMidPrice (ob : OrderBook) (symbol : String) : ℚ × OrderBook :=
  ((ob.getMarketData symbol).1.mid, (ob.getMarketData symbol).2)

/-- One call `updateMarketData(symbol, bid, ask)`. -/
structure Update where
  symbol : String
  bid : ℚ
  ask : ℚ
deriving DecidableEq, Repr

/-- The book after the calls `us`, made in order on the book `ob`. -/
def OrderBook.applyUpdates (ob : OrderBook) (us : List Update) : OrderBook :=
  us.foldl (fun b u => b.updateMarketData u.symbol u.bid u.ask) ob

/-- The states of the store: what a finite sequence of `updateMarketData` calls makes of
the empty book. The map is private, no other member writes it. -/
def OrderBook.Reachable (ob : OrderBook) : Prop :=
  ∃ us : List Update, OrderBook.empty.applyUpdates us = ob

/-- The invariant of the data model on one record: `mid` is the mean of `bid` and `ask`
when both are positive, and zero otherwise. -/
def MarketData.Consistent (d : MarketData) : Prop :=
  d.mid = if d.bid > 0 ∧ d.ask > 0 then (d.bid + d.ask) / 2 else 0

/-! ## Values of the FIX 4.2 protocol that the engine compares with and writes -/

/-- Side `1`: buy. -/
abbrev Side_BUY : Char := '1'
/-- Side `2`: sell. -/
abbrev Side_SELL : Char := '2'
/-- Order type `1`: market. -/
abbrev OrdType_MARKET : Char := '1'
/-- Order type `2`: limit. -/
abbrev OrdType_LIMIT : Char := '2'
/-- Order type `3`: stop. -/
abbrev OrdType_STOP : Char := '3'
/-- Execution type `2`: fill. -/
abbrev ExecType_FILL : Char := '2'
/-- Execution type `8`: rejected. -/
abbrev ExecType_REJECTED : Char := '8'
/-- Order status `2`: filled. -/
abbrev OrdStatus_FILLED : Char := '2'
/-- Order status `8`: rejected. -/
abbrev OrdStatus_REJECTED : Char := '8'
/-- Execution transaction type `0`: new. -/
abbrev ExecTransType_NEW : Char := '0'

/-- Tag of the field ClOrdID. -/
abbrev FIELD_ClOrdID : Nat := 11
/-- Tag of the field OrderQty. -/
abbrev FIELD_OrderQty : Nat := 38
/-- Tag of the field OrdType. -/
abbrev FIELD_OrdType : Nat := 40
/-- Tag of the field Price. -/
abbrev FIELD_Price : Nat := 44
/-- Tag of the field Side. -/
abbrev FIELD_Side : Nat := 54
/-- Tag of the field Symbol. -/
abbrev FIELD_Symbol : Nat := 55

/-- The exception `FIX::FieldNotFound`, with the tag of the absent field. -/
structure FieldNotFound where
  field : Nat
deriving DecidableEq, Repr

/-- The fields of a `FIX42::NewOrderSingle` that the engine reads; a field that the
message does not carry is `none`. Quantity and price are FIX doubles. -/
structure NewOrderSingle where
  clOrdID : Option String
  symbol : Option String
  side : Option Char
  orderQty : Option ℚ
  ordType : Option Char
  price : Option ℚ
deriving DecidableEq, Repr

/-- The read `message.get(field)`: the value of a field, `FieldNotFound` when absent. -/
def NewOrderSingle.get {α : Type} (value : Option α) (tag : Nat) : Except FieldNotFound α :=
  match value with
  | some v => .ok v
  | none => .error { field := tag }

/-- The fields of the `FIX42::ExecutionReport` that the engine builds, but for
TransactTime, which is the time of the call. The three quantities are the `int`s
the code passes. -/
structure ExecutionReport where
  orderID : String
  execID : String
  execTransType : Char
  execType : Char
  ordStatus : Char
  symbol : String
  side : Char
  leavesQty : Int
  cumQty : Int
  avgPx : ℚ
  clOrdID : String
  lastQty : Int
  lastPx : ℚ
  text : Option String
deriving DecidableEq, Repr

/-- Least value of the 32-bit C++ `int`. -/
abbrev INT_MIN : Int := -2147483648
/-- Greatest value of the 32-bit C++ `int`. -/
abbrev INT_MAX : Int := 2147483647

/-- The conversion `static_cast<int>` of a double to the 32-bit `int`: the fraction is
dropped (rounding toward zero). C++ leaves the conversion undefined when the truncated
value is outside the range of `int`; the embedding yields `INT_MIN` there, which is what
the conversion instruction of x86-64 gives. -/
def staticCastInt (x : ℚ) : Int :=
  if INT_MIN ≤ x.num.tdiv x.den ∧ x.num.tdiv x.den ≤ INT_MAX then x.num.tdiv x.den
  else INT_MIN

/-! ## StrategyEngine.cpp -/

/-- The local variables `execType`, `ordStatus`, `rejectReason` and `fillPrice` of
`StrategyEngine::onNewOrderSingle`. -/
structure Decision where
  execType : Char
  ordStatus : Char
  rejectReason : String
  fillPrice : ℚ
deriving DecidableEq, Repr

/-- The member `StrategyEngine::onNewOrderSingle` on the book `m_orderBook`: the
execution report it builds, or the exception that leaves it, and the book after the
call. The report is then passed to `m_mmApp->sendExecutionReportToClient` when
`m_mmApp` is set, which `main` does before orders are accepted. -/
def StrategyEngine.onNewOrderSingle (m_orderBook : OrderBook) (message : NewOrderSingle) :
    Except FieldNotFound ExecutionReport × OrderBook :=
  let fields : Except FieldNotFound (String × String × Char × ℚ × Char) := do
    let clOrdID ← NewOrderSingle.get message.clOrdID FIELD_ClOrdID
    let symbol ← NewOrderSingle.get message.symbol FIELD_Symbol
    let side ← NewOrderSingle.get message.side FIELD_Side
    let orderQty ← NewOrderSingle.get message.orderQty FIELD_OrderQty
    let ordType ← NewOrderSingle.get message.ordType FIELD_OrdType
    pure (clOrdID, symbol, side, orderQty, ordType)
  match fields with
  | .error e => (.error e, m_orderBook)
  | .ok (clOrdID, symbol, side, orderQty, ordType) =>
    let r1 := m_orderBook.getBestBid symbol
    let bestBid := r1.1
    let r2 := r1.2.getBestAsk symbol
    let bestAsk := r2.1
    let r3 := r2.2.getMidPrice symbol
    let midPrice := r3.1
    let book := r3.2
    let start : Decision :=
      { execType := ExecType_FILL, ordStatus := OrdStatus_FILLED, rejectReason := "", fillPrice := 0 }
    let decision : Except FieldNotFound Decision :=
      if midPrice = 0 ∨ bestBid = 0 ∨ bestAsk = 0 then
        .ok { start with
              execType := ExecType_REJECTED, ordStatus := OrdStatus_REJECTED,
              rejectReason := "No valid market data available for matching." }
      else if ordType = OrdType_MARKET then
        if side = Side_BUY then .ok { start with fillPrice := bestAsk }
        else .ok { start with fillPrice := bestBid }
      else if ordType = OrdType_LIMIT then
        match NewOrderSingle.get message.price FIELD_Price with
        | .error e => .error e
        | .ok price =>
          let (fillPrice, matched) :=
            if side = Side_BUY ∧ price ≥ bestAsk ∧ bestAsk ≠ 0 then (bestAsk, true)
            else if side = Side_SELL ∧ price ≤ bestBid ∧ bestBid ≠ 0 then (bestBid, true)
            else (start.fillPrice, false)
          if matched then .ok { start with fillPrice := fillPrice }
          else
            .ok { start with
                  fillPrice := fillPrice,
                  execType := ExecType_REJECTED, ordStatus := OrdStatus_REJECTED,
                  rejectReason := "Limit order not immediately marketable against current book." }
      else .ok start
    match decision with
    | .error e => (.error e, book)
    | .ok d =>
      (.ok
        { orderID := "MM-ORD-" ++ clOrdID,
          execID := "MM-EXEC-" ++ clOrdID,
          execTransType := ExecTransType_NEW,
          execType := d.execType,
          ordStatus := d.ordStatus,
          symbol := symbol,
          side := side,
          leavesQty := if d.ordStatus = OrdStatus_FILLED then 0 else staticCastInt orderQty,
          cumQty := if d.ordStatus = OrdStatus_FILLED then staticCastInt orderQty else 0,
          avgPx := d.fillPrice,
          clOrdID := clOrdID,
          lastQty := if d.ordStatus = OrdStatus_FILLED then staticCastInt orderQty else 0,
          lastPx := if d.ordStatus = OrdStatus_FILLED then d.fillPrice else 0,
          text := if d.rejectReason = "" then none else some d.rejectReason },
       book)

/-- The two reject reasons of `StrategyEngine::onNewOrderSingle`. -/
abbrev noMarketDataReason : String := "No valid market data available for matching."
/-- The reason given to a limit order that does not cross the touch. -/
abbrev notMarketableReason : String :=
  "Limit order not immediately marketable against current book."

/-- The snapshot `read(symbol)` of the specification: the record that
`getMarketData` returns. -/
abbrev OrderBook.read (ob : OrderBook) (symbol : String) : MarketData :=
  (ob.getMarketData symbol).1

/-- A new-order message that carries the five fields the engine always reads. -/
abbrev order (clOrdID symbol : String) (side : Char) (orderQty : ℚ) (ordType : Char)
    (price : Option ℚ) : NewOrderSingle :=
  { clOrdID := some clOrdID, symbol := some symbol, side := some side,
    orderQty := some orderQty, ordType := some ordType, price := price }

/-- The outcome of a call that rejects for absent market data: a report is produced,
its status and execution type are Rejected, so it is not Filled, nothing is filled and
no price is given, and its text is the reason for absent market data. -/
def IsNoMarketReject (res : Except FieldNotFound ExecutionReport) : Prop :=
  ∃ r : ExecutionReport, res = .ok r ∧
    r.ordStatus = OrdStatus_REJECTED ∧ r.ordStatus ≠ OrdStatus_FILLED ∧
    r.execType = ExecType_REJECTED ∧ r.cumQty = 0 ∧ r.lastQty = 0 ∧ r.avgPx = 0 ∧
    r.text = some noMarketDataReason

/-- The record that one call `updateMarketData(u.symbol, u.bid, u.ask)` writes. -/
def Update.written (u : Update) : MarketData :=
  { bid := u.bid, ask := u.ask, mid := if u.bid > 0 ∧ u.ask > 0 then (u.bid + u.ask) / 2 else 0 }

/-- The member `StrategyEngine::onNewOrderSingle` while another thread calls
`updateMarketData` on the same book. `getBestBid`, `getBestAsk` and `getMidPrice` each
hold the mutex of the book for their read and release it, so the calls of the other
thread fall between them: `between1` are the updates made after the read of the bid and
before the read of the ask, `between2` those made after the read of the ask and before
the read of the mid. Updates made before the first read or after the last one change
the book the call starts from or the book it leaves, not the call. -/
def StrategyEngine.onNewOrderSingleInterleaved (m_orderBook : OrderBook)
    (between1 between2 : List Update) (message : NewOrderSingle) :
    Except FieldNotFound ExecutionReport × OrderBook :=
  let fields : Except FieldNotFound (String × String × Char × ℚ × Char) := do
    let clOrdID ← NewOrderSingle.get message.clOrdID FIELD_ClOrdID
    let symbol ← NewOrderSingle.get message.symbol FIELD_Symbol
    let side ← NewOrderSingle.get message.side FIELD_Side
    let orderQty ← NewOrderSingle.get message.orderQty FIELD_OrderQty
    let ordType ← NewOrderSingle.get message.ordType FIELD_OrdType
    pure (clOrdID, symbol, side, orderQty, ordType)
  match fields with
  | .error e => (.error e, m_orderBook)
  | .ok (clOrdID, symbol, side, orderQty, ordType) =>
    let r1 := m_orderBook.getBestBid symbol
    let bestBid := r1.1
    let r2 := (r1.2.applyUpdates between1).getBestAsk symbol
    let bestAsk := r2.1
    let r3 := (r2.2.applyUpdates between2).getMidPrice symbol
    let midPrice := r3.1
    let book := r3.2
    let start : Decision :=
      { execType := ExecType_FILL, ordStatus := OrdStatus_FILLED, rejectReason := "", fillPrice := 0 }
    let decision : Except FieldNotFound Decision :=
      if midPrice = 0 ∨ bestBid = 0 ∨ bestAsk = 0 then
        .ok { start with
              execType := ExecType_REJECTED, ordStatus := OrdStatus_REJECTED,
              rejectReason := "No valid market data available for matching." }
      else if ordType = OrdType_MARKET then
        if side = Side_BUY then .ok { start with fillPrice := bestAsk }
        else .ok { start with fillPrice := bestBid }
      else if ordType = OrdType_LIMIT then
        match NewOrderSingle.get message.price FIELD_Price with
        | .error e => .error e
        | .ok price =>
          let (fillPrice, matched) :=
            if side = Side_BUY ∧ price ≥ bestAsk ∧ bestAsk ≠ 0 then (bestAsk, true)
            else if side = Side_SELL ∧ price ≤ bestBid ∧ bestBid ≠ 0 then (bestBid, true)
            else (start.fillPrice, false)
          if matched then .ok { start with fillPrice := fillPrice }
          else
            .ok { start with
                  fillPrice := fillPrice,
                  execType := ExecType_REJECTED, ordStatus := OrdStatus_REJECTED,
                  rejectReason := "Limit order not immediately marketable against current book." }
      else .ok start
    match decision with
    | .error e => (.error e, book)
    | .ok d =>
      (.ok
        { orderID := "MM-ORD-" ++ clOrdID,
          execID := "MM-EXEC-" ++ clOrdID,
          execTransType := ExecTransType_NEW,
          execType := d.execType,
          ordStatus := d.ordStatus,
          symbol := symbol,
          side := side,
          leavesQty := if d.ordStatus = OrdStatus_FILLED then 0 else staticCastInt orderQty,
          cumQty := if d.ordStatus = OrdStatus_FILLED then staticCastInt orderQty else 0,
          avgPx := d.fillPrice,
          clOrdID := clOrdID,
          lastQty := if d.ordStatus = OrdStatus_FILLED then staticCastInt orderQty else 0,
          lastPx := if d.ordStatus = OrdStatus_FILLED then d.fillPrice else 0,
          text := if d.rejectReason = "" then none else some d.rejectReason },
       book)

/-- The report that `onNewOrderSingle` builds when it leaves `ordStatus` Filled, with
`fillPrice` the price it has set. -/
def ExecutionReport.filled (clOrdID symbol : String) (side : Char) (orderQty fillPrice : ℚ) :
    ExecutionReport :=
  { orderID := "MM-ORD-" ++ clOrdID, execID := "MM-EXEC-" ++ clOrdID,
    execTransType := ExecTransType_NEW, execType := ExecType_FILL,
    ordStatus := OrdStatus_FILLED, symbol := symbol, side := side,
    leavesQty := 0, cumQty := staticCastInt orderQty, avgPx := fillPrice,
    clOrdID := clOrdID, lastQty := staticCastInt orderQty, lastPx := fillPrice, text := none }

/-- The report that `onNewOrderSingle` builds when it rejects with the text `reason`. -/
def ExecutionReport.rejected (clOrdID symbol : String) (side : Char) (orderQty : ℚ)
    (reason : String) : ExecutionReport :=
  { orderID := "MM-ORD-" ++ clOrdID, execID := "MM-EXEC-" ++ clOrdID,
    execTransType := ExecTransType_NEW, execType := ExecType_REJECTED,
    ordStatus := OrdStatus_REJECTED, symbol := symbol, side := side,
    leavesQty := staticCastInt orderQty, cumQty := 0, avgPx := 0,
    clOrdID := clOrdID, lastQty := 0, lastPx := 0, text := some reason }

/-- The test of the first branch of `onNewOrderSingle`: the symbol has no usable market
on the book. -/
def OrderBook.NoMarket (ob : OrderBook) (symbol : String) : Prop :=
  (ob.read symbol).mid = 0 ∨ (ob.read symbol).bid = 0 ∨ (ob.read symbol).ask = 0

/-- The touch test of the specification for a limit order at `limitPrice`: a Buy at or
above the ask, or a Sell at or below the bid. -/
def OrderBook.Marketable (ob : OrderBook) (symbol : String) (side : Char) (limitPrice : ℚ) :
    Prop :=
  (side = Side_BUY ∧ limitPrice ≥ (ob.read symbol).ask) ∨
    (side = Side_SELL ∧ limitPrice ≤ (ob.read symbol).bid)

/-- The book that holds the record `d` for `symbol` and nothing else. -/
def OrderBook.holding (symbol : String) (d : MarketData) : OrderBook :=
  { m_symbolData := [(symbol, d)] }

/-- The three values that `onNewOrderSingleInterleaved` reads for `symbol`, put in one
record: the bid of the book it starts on, the ask of the book after `between1`, the mid
of the book after `between2`. -/
def StrategyEngine.valuesRead (ob : OrderBook) (between1 between2 : List Update)
    (symbol : String) : MarketData :=
  { bid := (ob.read symbol).bid,
    ask := ((ob.applyUpdates between1).read symbol).ask,
    mid := (((ob.applyUpdates between1).applyUpdates between2).read symbol).mid }

/-! ## StrategyEngine::manageQuotes -/

/-- The function `std::round` on a double: the nearest integer, a half rounded away
from zero. -/
def stdRound (x : ℚ) : ℚ :=
  if 0 ≤ x then ((⌊x + 1 / 2⌋ : Int) : ℚ) else ((⌈x - 1 / 2⌉ : Int) : ℚ)

/-- The quote that `StrategyEngine::manageQuotes` writes to `std::cout`: the symbol, the
two prices and the size that the line shows for both sides. -/
structure DesiredQuote where
  symbol : String
  bidPrice : ℚ
  askPrice : ℚ
  size : Int
deriving DecidableEq, Repr

/-- The member `StrategyEngine::manageQuotes`, one quote cycle on the book
`m_orderBook`: the quotes it writes and the book after the call. `draw` is the value
of `m_qtyDist(m_randGen)`, a draw from 100 to 500. -/
def StrategyEngine.manageQuotes (m_orderBook : OrderBook) (draw : Int) :
    List DesiredQuote × OrderBook :=
  let r := m_orderBook.getMidPrice "AAPL"
  let midPrice := r.1
  if midPrice = 0 then ([], r.2)
  else
    let spread : ℚ := 4 / 100
    let bidPrice := midPrice - spread / 2
    let askPrice := midPrice + spread / 2
    let quoteQuantity := draw
    let bidPrice := stdRound (bidPrice * 100) / 100
    let askPrice := stdRound (askPrice * 100) / 100
    ([{ symbol := "AAPL", bidPrice := bidPrice, askPrice := askPrice, size := quoteQuantity }],
     r.2)

/-- Rounding to a whole number with a half rounded up, toward plus infinity: one of the
two tie rules that the specification of the quote generator names. -/
def roundHalfUp (x : ℚ) : ℚ := ((⌊x + 1 / 2⌋ : Int) : ℚ)

/-- Rounding to a whole number with a half rounded to the even neighbour: the other tie
rule that the specification of the quote generator names. -/
def roundHalfEven (x : ℚ) : ℚ :=
  if x - ((⌊x⌋ : Int) : ℚ) = 1 / 2 then
    (if ⌊x⌋ % 2 = 0 then ((⌊x⌋ : Int) : ℚ) else ((⌊x⌋ + 1 : Int) : ℚ))
  else ((⌊x + 1 / 2⌋ : Int) : ℚ)

/-- A rounding rule to whole numbers, applied at 2 decimals. -/
def atTwoDecimals (R : ℚ → ℚ) (x : ℚ) : ℚ := R (x * 100) / 100

/-! ## The arithmetic of `double` -/

/-- The `double` nearest to the rational `x`, the value that an arithmetic operation on
`double`s gives when its exact result is `x`: IEEE 754 binary64 rounding to nearest, a
tie to the even significand. A significand has 53 bits, so in the binade of `x`, from
`2 ^ e` to `2 ^ (e + 1)`, the doubles are the multiples of `2 ^ (e - 52)`; below
`2 ^ (-1022)` they keep the spacing of that binade. Overflow, from `2 ^ 1024` on, is
left out. -/
def toDouble (x : ℚ) : ℚ :=
  roundHalfEven (x / 2 ^ (max (Int.log 2 |x|) (-1022) - 52)) *
    2 ^ (max (Int.log 2 |x|) (-1022) - 52)

/-- The member `OrderBook::updateMarketData` in the arithmetic of `double`: the
parameters `bid` and `ask` are the doubles nearest to the values written in the call,
and the sum and the division of `(bid + ask) / 2.0` are each rounded. -/
def OrderBook.updateMarketDataDouble (ob : OrderBook) (symbol : String) (bid ask : ℚ) :
    OrderBook :=
  let bid := toDouble bid
  let ask := toDouble ask
  let data := (ob.m_symbolData.find symbol).getD MarketData.default
  let data := { data with bid := bid }
  let data := { data with ask := ask }
  let data :=
    if bid > 0 ∧ ask > 0 then { data with mid := toDouble (toDouble (bid + ask) / 2) }
    else { data with mid := 0 }
  { m_symbolData := ob.m_symbolData.assign symbol data }

/-- What `std::fixed << std::setprecision(2)` writes for a `double`: its exact value at 2
decimals, rounded to nearest, a tie to the even digit. -/
def fixedTwo (x : ℚ) : ℚ := atTwoDecimals roundHalfEven x

/-- The member `StrategyEngine::manageQuotes` in the arithmetic of `double`: the literal
`0.04` is the double nearest to it, each of the operations of lines 61 to 67 is rounded,
and the quote holds the two prices as the line written to `std::cout` shows them. -/
def StrategyEngine.manageQuotesDouble (m_orderBook : OrderBook) (draw : Int) :
    List DesiredQuote × OrderBook :=
  let r := m_orderBook.getMidPrice "AAPL"
  let midPrice := r.1
  if midPrice = 0 then ([], r.2)
  else
    let spread : ℚ := toDouble (4 / 100)
    let bidPrice := toDouble (midPrice - toDouble (spread / 2))
    let askPrice := toDouble (midPrice + toDouble (spread / 2))
    let quoteQuantity := draw
    let bidPrice := toDouble (stdRound (toDouble (bidPrice * 100)) / 100)
    let askPrice := toDouble (stdRound (toDouble (askPrice * 100)) / 100)
    ([{ symbol := "AAPL", bidPrice := fixedTwo bidPrice, askPrice := fixedTwo askPrice,
        size := quoteQuantity }],
     r.2)

/-! ## MockMarketDataSource.h -/

/-- The symbols and base prices that the constructor of `MockMarketDataSource` puts in
`m_symbols`. -/
def MockMarketDataSource.m_symbols : List (String × ℚ) :=
  [("AAPL", 170), ("MSFT", 420), ("GOOG", 180), ("AMZN", 185), ("NVDA", 1000),
   ("TSLA", 175), ("META", 490), ("NFLX", 650), ("ADBE", 520), ("CRM", 240)]

/-- The bid and ask that the loop of `startGeneratingData` computes for one symbol from
two draws `d1` and `d2` of its distribution. -/
def MockMarketDataSource.bidAsk (d1 d2 : ℚ) : ℚ × ℚ :=
  let bid := d1
  let ask := bid + 1 / 100 + d2 * (5 / 1000)
  let ask := if ask ≤ bid then bid + 1 / 100 else ask
  (bid, ask)

/-- One turn of the loop of `startGeneratingData` for `symbol`, on the book that
`m_orderBook` points to (`main` passes the address of its book). -/
def MockMarketDataSource.generate (m_orderBook : OrderBook) (symbol : String) (d1 d2 : ℚ) :
    OrderBook :=
  m_orderBook.updateMarketData symbol (MockMarketDataSource.bidAsk d1 d2).1
    (MockMarketDataSource.bidAsk d1 d2).2

/-! ## MockTradeClient.cpp and main_mock_client.cpp -/

/-- The members of a `MockTradeClient` that `sendNewOrderSingle` reads and writes: the
book that `m_orderBook` points to, the counter `m_clOrdID` and the vector
`m_tradeSymbols`. -/
structure MockTradeClient where
  m_orderBook : OrderBook
  m_clOrdID : Int
  m_tradeSymbols : List String
deriving DecidableEq, Repr

/-- The constructor `MockTradeClient(OrderBook* orderBook)`. -/
def MockTradeClient.create (orderBook : OrderBook) : MockTradeClient :=
  { m_orderBook := orderBook,
    m_clOrdID := 0,
    m_tradeSymbols :=
      ["AAPL", "MSFT", "GOOG", "AMZN", "NVDA", "TSLA", "META", "NFLX", "ADBE", "CRM"] }

/-- The draws that one call of `sendNewOrderSingle` makes from `m_symbolIndexDist`,
`m_sideDist`, `m_qtyDist`, `m_ordTypeDist` and `m_priceFluctuationDist`. -/
structure OrderDraws where
  symbolIndex : Nat
  side : Int
  qty : Int
  ordType : Int
  priceFluctuation : ℚ
deriving DecidableEq, Repr

/-- The member `MockTradeClient::sendNewOrderSingle`: the messages it passes to
`FIX::Session::sendToTarget` and the client after the call. `loggedOn` says whether the
session `m_sessionID` exists and is logged on. The distribution of the symbol index
draws inside the vector; for an index outside it the embedding sends nothing. HandlInst
and TransactTime, which the engine does not read, are not in the message. -/
def MockTradeClient.sendNewOrderSingle (c : MockTradeClient) (loggedOn : Bool)
    (d : OrderDraws) : List NewOrderSingle × MockTradeClient :=
  if loggedOn = false then ([], c)
  else if c.m_tradeSymbols = [] then ([], c)
  else
    match c.m_tradeSymbols[d.symbolIndex]? with
    | none => ([], c)
    | some selectedSymbol =>
      let c1 := { c with m_clOrdID := c.m_clOrdID + 1 }
      let clOrdID := "CLIENT-ORDER-" ++ toString c1.m_clOrdID
      let side := if d.side = 0 then Side_BUY else Side_SELL
      let ordType := if d.ordType = 0 then OrdType_MARKET else OrdType_LIMIT
      let newOrderSingle : NewOrderSingle :=
        { clOrdID := some clOrdID, symbol := some selectedSymbol, side := some side,
          orderQty := some (d.qty : ℚ), ordType := some ordType, price := none }
      if ordType = OrdType_LIMIT then
        let r := c1.m_orderBook.getMidPrice selectedSymbol
        let currentMidPrice := r.1
        let c2 := { c1 with m_orderBook := r.2 }
        if currentMidPrice ≤ 0 then ([], c2)
        else
          let price := currentMidPrice + d.priceFluctuation
          let price := stdRound (price * 100) / 100
          ([{ newOrderSingle with price := some price }], c2)
      else ([newOrderSingle], c1)

/-- The loop of `MockTradeClient::startSendingOrders`: one call of `sendNewOrderSingle`
for each turn, with the state of the session and the draws of that turn; the messages
sent, in order, and the client after the last turn. -/
def MockTradeClient.sendOrders (c : MockTradeClient) :
    List (Bool × OrderDraws) → List NewOrderSingle × MockTradeClient
  | [] => ([], c)
  | (loggedOn, d) :: rest =>
    ((c.sendNewOrderSingle loggedOn d).1 ++
        (MockTradeClient.sendOrders (c.sendNewOrderSingle loggedOn d).2 rest).1,
      (MockTradeClient.sendOrders (c.sendNewOrderSingle loggedOn d).2 rest).2)

/-- The client of `main` in `main_mock_client.cpp`: built on a book of its own, new and
empty, that nothing in the program updates. -/
def mockClientApp : MockTradeClient := MockTradeClient.create OrderBook.empty

/-! ## Lemmas on the embedding -/

theorem staticCastInt_intCast (q : Int) (hlo : INT_MIN ≤ q) (hhi : q ≤ INT_MAX) :
    staticCastInt (q : ℚ) = q := by
  simp [staticCastInt, hlo, hhi]

theorem staticCastInt_outside (q : Int) (h : q < INT_MIN ∨ INT_MAX < q) :
    staticCastInt (q : ℚ) = INT_MIN := by
  have hn : ¬ (INT_MIN ≤ q ∧ q ≤ INT_MAX) := by
    rintro ⟨h1, h2⟩
    rcases h with h | h <;> omega
  simp [staticCastInt, hn]

theorem getMarketData_snd (ob : OrderBook) (symbol : String) :
    (ob.getMarketData symbol).2 = ob := by
  unfold OrderBook.getMarketData
  cases ob.m_symbolData.find symbol <;> rfl

theorem onNewOrderSingle_snd (ob : OrderBook) (message : NewOrderSingle) :
    (StrategyEngine.onNewOrderSingle ob message).2 = ob := by
  unfold StrategyEngine.onNewOrderSingle
  simp only [OrderBook.getBestBid, OrderBook.getBestAsk, OrderBook.getMidPrice, getMarketData_snd]
  split
  · rfl
  · split <;> rfl

theorem find_assign_same (m : SymbolMap) (symbol : String) (data : MarketData) :
    (m.assign symbol data).find symbol = some data := by
  induction m with
  | nil => simp [SymbolMap.assign, SymbolMap.find]
  | cons e rest ih =>
    obtain ⟨k, v⟩ := e
    by_cases h : k = symbol
    · simp [SymbolMap.assign, SymbolMap.find, h]
    · simp [SymbolMap.assign, SymbolMap.find, h, ih]

theorem find_assign_other (m : SymbolMap) (s t : String) (data : MarketData) (h : s ≠ t) :
    (m.assign s data).find t = m.find t := by
  induction m with
  | nil => simp [SymbolMap.assign, SymbolMap.find, h]
  | cons e rest ih =>
    obtain ⟨k, v⟩ := e
    by_cases hk : k = s
    · subst hk
      simp [SymbolMap.assign, SymbolMap.find, h]
    · by_cases ht : k = t
      · subst ht
        simp [SymbolMap.assign, SymbolMap.find, hk]
      · simp [SymbolMap.assign, SymbolMap.find, hk, ht, ih]

theorem read_update_same (ob : OrderBook) (s : String) (bid ask : ℚ) :
    (ob.updateMarketData s bid ask).read s =
      { bid := bid, ask := ask, mid := if bid > 0 ∧ ask > 0 then (bid + ask) / 2 else 0 } := by
  simp only [OrderBook.read, OrderBook.getMarketData, OrderBook.updateMarketData, find_assign_same]
  split <;> rfl

theorem read_update_other (ob : OrderBook) (s t : String) (bid ask : ℚ) (h : s ≠ t) :
    (ob.updateMarketData s bid ask).read t = ob.read t := by
  simp only [OrderBook.read, OrderBook.getMarketData, OrderBook.updateMarketData,
    find_assign_other _ _ _ _ h]
  cases ob.m_symbolData.find t <;> rfl

theorem read_empty (t : String) : OrderBook.empty.read t = MarketData.default := by
  simp [OrderBook.read, OrderBook.getMarketData, OrderBook.empty, SymbolMap.find]

theorem read_applyUpdates_other (us : List Update) (ob : OrderBook) (t : String)
    (h : ∀ u ∈ us, u.symbol ≠ t) : (ob.applyUpdates us).read t = ob.read t := by
  induction us generalizing ob with
  | nil => rfl
  | cons u rest ih =>
    have hu : u.symbol ≠ t := h u (List.mem_cons_self _ _)
    have hrest : ∀ v ∈ rest, v.symbol ≠ t := fun v hv => h v (List.mem_cons_of_mem _ hv)
    have step : ob.applyUpdates (u :: rest) =
        (ob.updateMarketData u.symbol u.bid u.ask).applyUpdates rest := rfl
    rw [step, ih _ hrest, read_update_other _ _ _ _ _ hu]

theorem consistent_default : MarketData.default.Consistent := by
  simp [MarketData.Consistent, MarketData.default]

theorem consistent_update (ob : OrderBook) (s t : String) (bid ask : ℚ)
    (h : (ob.read t).Consistent) : ((ob.updateMarketData s bid ask).read t).Consistent := by
  by_cases hst : s = t
  · subst hst
    rw [read_update_same]
    simp [MarketData.Consistent]
  · rw [read_update_other _ _ _ _ _ hst]
    exact h

theorem consistent_applyUpdates (us : List Update) (ob : OrderBook) (t : String)
    (h : (ob.read t).Consistent) : ((ob.applyUpdates us).read t).Consistent := by
  induction us generalizing ob with
  | nil => exact h
  | cons u rest ih => exact ih _ (consistent_update ob u.symbol t u.bid u.ask h)

theorem consistent_of_reachable (ob : OrderBook) (hob : ob.Reachable) (t : String) :
    (ob.read t).Consistent := by
  obtain ⟨us, rfl⟩ := hob
  exact consistent_applyUpdates us _ t (by rw [read_empty]; exact consistent_default)

theorem mid_pos_of_reachable (ob : OrderBook) (hob : ob.Reachable) (t : String)
    (hbid : 0 < (ob.read t).bid) (hask : 0 < (ob.read t).ask) : 0 < (ob.read t).mid := by
  have h := consistent_of_reachable ob hob t
  unfold MarketData.Consistent at h
  rw [h, if_pos ⟨hbid, hask⟩]
  linarith

/-! ## The matching engine -/

theorem fixValues :
    Side_BUY ≠ Side_SELL ∧ Side_SELL ≠ Side_BUY ∧ OrdType_LIMIT ≠ OrdType_MARKET ∧
      OrdStatus_REJECTED ≠ OrdStatus_FILLED ∧ OrdStatus_FILLED ≠ OrdStatus_REJECTED := by
  decide

theorem reasons_ne :
    "Limit order not immediately marketable against current book." ≠ noMarketDataReason := by
  decide

theorem noMarket_reject (ob : OrderBook) (clOrdID symbol : String) (side : Char)
    (orderQty : ℚ) (ordType : Char) (price : Option ℚ)
    (h : (ob.read symbol).mid = 0 ∨ (ob.read symbol).bid = 0 ∨ (ob.read symbol).ask = 0) :
    IsNoMarketReject
      (StrategyEngine.onNewOrderSingle ob
        (order clOrdID symbol side orderQty ordType price)).1 := by
  simp only [OrderBook.read] at h
  simp only [IsNoMarketReject, StrategyEngine.onNewOrderSingle, order, NewOrderSingle.get,
    OrderBook.getBestBid, OrderBook.getBestAsk, OrderBook.getMidPrice, bind, Except.bind, pure,
    Except.pure, getMarketData_snd]
  simp [h, fixValues]

theorem written_mid_zero (u : Update) (h : u.bid ≤ 0 ∨ u.ask ≤ 0) : u.written.mid = 0 := by
  have hn : ¬ (u.bid > 0 ∧ u.ask > 0) := by
    rintro ⟨h1, h2⟩
    rcases h with h | h <;> linarith
  simp [Update.written, hn]

/-- C4. No-market rejection: on every book, an order of any kind and side character, any
quantity and any limit price or none, whose symbol reads `mid = 0` or `bid = 0` or
`ask = 0`, is rejected with the reason for absent market data and is not Filled. This
covers a symbol that no update of a run from the empty book names, and a symbol whose
last update had a non-positive bid or ask. -/
theorem no_market_rejection :
    (∀ (ob : OrderBook) (clOrdID symbol : String) (side : Char) (orderQty : ℚ)
        (ordType : Char) (price : Option ℚ),
        ((ob.read symbol).mid = 0 ∨ (ob.read symbol).bid = 0 ∨ (ob.read symbol).ask = 0) →
        IsNoMarketReject
          (StrategyEngine.onNewOrderSingle ob
            (order clOrdID symbol side orderQty ordType price)).1) ∧
    (∀ (us : List Update) (clOrdID symbol : String) (side : Char) (orderQty : ℚ)
        (ordType : Char) (price : Option ℚ),
        (∀ u ∈ us, u.symbol ≠ symbol) →
        IsNoMarketReject
          (StrategyEngine.onNewOrderSingle (OrderBook.empty.applyUpdates us)
            (order clOrdID symbol side orderQty ordType price)).1) ∧
    (∀ (ob : OrderBook) (bid ask : ℚ) (us : List Update) (clOrdID symbol : String)
        (side : Char) (orderQty : ℚ) (ordType : Char) (price : Option ℚ),
        (bid ≤ 0 ∨ ask ≤ 0) → (∀ u ∈ us, u.symbol ≠ symbol) →
        IsNoMarketReject
          (StrategyEngine.onNewOrderSingle
            ((ob.updateMarketData symbol bid ask).applyUpdates us)
            (order clOrdID symbol side orderQty ordType price)).1) := by
  refine ⟨noMarket_reject, ?_, ?_⟩
  · intro us clOrdID symbol side orderQty ordType price hus
    apply noMarket_reject
    rw [read_applyUpdates_other us _ symbol hus, read_empty]
    exact Or.inl rfl
  · intro ob bid ask us clOrdID symbol side orderQty ordType price hneg hus
    apply noMarket_reject
    rw [read_applyUpdates_other us _ symbol hus, read_update_same]
    exact Or.inl (written_mid_zero { symbol := symbol, bid := bid, ask := ask } hneg)

/-- Scenario C of the specification, with C4 applied to it: a market buy of 10 of
"MSFT" on a book that only "AAPL" was written to is rejected for absent market data. -/
theorem no_market_rejection_witness :
    IsNoMarketReject
      (StrategyEngine.onNewOrderSingle
        (OrderBook.empty.applyUpdates [{ symbol := "AAPL", bid := 170, ask := 17002 / 100 }])
        (order "CLIENT-ORDER-4" "MSFT" Side_BUY 10 OrdType_MARKET none)).1 :=
  no_market_rejection.2.1 [{ symbol := "AAPL", bid := 170, ask := 17002 / 100 }]
    "CLIENT-ORDER-4" "MSFT" Side_BUY 10 OrdType_MARKET none (by decide)

/-! ## The market state store -/

theorem read_applyUpdates_cases (us : List Update) (ob : OrderBook) (t : String) :
    (ob.applyUpdates us).read t = ob.read t ∨
      ∃ u ∈ us, u.symbol = t ∧ (ob.applyUpdates us).read t = u.written := by
  induction us generalizing ob with
  | nil => exact Or.inl rfl
  | cons u rest ih =>
    have step : ob.applyUpdates (u :: rest) =
        (ob.updateMarketData u.symbol u.bid u.ask).applyUpdates rest := rfl
    rw [step]
    rcases ih (ob.updateMarketData u.symbol u.bid u.ask) with h | ⟨v, hv, hvt, hread⟩
    · by_cases hu : u.symbol = t
      · refine Or.inr ⟨u, List.mem_cons_self _ _, hu, ?_⟩
        rw [h, ← hu, read_update_same]
        rfl
      · exact Or.inl (by rw [h, read_update_other _ _ _ _ _ hu])
    · exact Or.inr ⟨v, List.mem_cons_of_mem _ hv, hvt, hread⟩

/-- C5. Read-after-update: on every book `ob`, whatever it holds for `s`, after
`updateMarketData(s, bid, ask)` the read of `s` returns the bid and the ask just
written, with `mid = (bid + ask) / 2` when `bid > 0` and `ask > 0` and `mid = 0`
otherwise, so `mid = 0` when the bid or the ask is not positive; `getBestBid`,
`getBestAsk` and `getMidPrice` return these three values. -/
theorem read_after_update (ob : OrderBook) (s : String) (bid ask : ℚ) :
    (ob.updateMarketData s bid ask).read s =
        { bid := bid, ask := ask, mid := if bid > 0 ∧ ask > 0 then (bid + ask) / 2 else 0 } ∧
      ((ob.updateMarketData s bid ask).getBestBid s).1 = bid ∧
      ((ob.updateMarketData s bid ask).getBestAsk s).1 = ask ∧
      ((ob.updateMarketData s bid ask).getMidPrice s).1 =
        ((ob.updateMarketData s bid ask).read s).mid ∧
      (bid > 0 ∧ ask > 0 → ((ob.updateMarketData s bid ask).read s).mid = (bid + ask) / 2) ∧
      (¬ (bid > 0 ∧ ask > 0) → ((ob.updateMarketData s bid ask).read s).mid = 0) ∧
      (bid ≤ 0 ∨ ask ≤ 0 → ((ob.updateMarketData s bid ask).read s).mid = 0) := by
  have h := read_update_same ob s bid ask
  have hb : ((ob.updateMarketData s bid ask).getBestBid s).1 =
      ((ob.updateMarketData s bid ask).read s).bid := rfl
  have ha : ((ob.updateMarketData s bid ask).getBestAsk s).1 =
      ((ob.updateMarketData s bid ask).read s).ask := rfl
  refine ⟨h, by rw [hb, h], by rw [ha, h], rfl, ?_, ?_, ?_⟩
  · intro hpos
    rw [h]
    simp [hpos]
  · intro hneg
    rw [h]
    simp only [if_neg hneg]
  · intro hneg
    rw [h]
    exact written_mid_zero { symbol := s, bid := bid, ask := ask } hneg

/-- C6. Zero state: for every run of updates from the empty book and every symbol that
no update of the run names (every symbol, when the run is empty), the read returns the
record with bid 0, ask 0 and mid 0, and `getBestBid`, `getBestAsk` and `getMidPrice`
each return 0. -/
theorem zero_state (us : List Update) (symbol : String)
    (hnever : ∀ u ∈ us, u.symbol ≠ symbol) :
    (OrderBook.empty.applyUpdates us).read symbol = { bid := 0, ask := 0, mid := 0 } ∧
      ((OrderBook.empty.applyUpdates us).getBestBid symbol).1 = 0 ∧
      ((OrderBook.empty.applyUpdates us).getBestAsk symbol).1 = 0 ∧
      ((OrderBook.empty.applyUpdates us).getMidPrice symbol).1 = 0 := by
  have h : (OrderBook.empty.applyUpdates us).read symbol = MarketData.default := by
    rw [read_applyUpdates_other us _ symbol hnever, read_empty]
  have hb : ((OrderBook.empty.applyUpdates us).getBestBid symbol).1 =
      ((OrderBook.empty.applyUpdates us).read symbol).bid := rfl
  have ha : ((OrderBook.empty.applyUpdates us).getBestAsk symbol).1 =
      ((OrderBook.empty.applyUpdates us).read symbol).ask := rfl
  have hm : ((OrderBook.empty.applyUpdates us).getMidPrice symbol).1 =
      ((OrderBook.empty.applyUpdates us).read symbol).mid := rfl
  refine ⟨h, ?_, ?_, ?_⟩
  · rw [hb, h]; rfl
  · rw [ha, h]; rfl
  · rw [hm, h]; rfl

/-- C6 at concrete books: "MSFT" reads all zero on the empty book and on a book that
was only written for "AAPL" and "GOOG". -/
theorem zero_state_witness :
    (OrderBook.empty.applyUpdates []).read "MSFT" = { bid := 0, ask := 0, mid := 0 } ∧
    (OrderBook.empty.applyUpdates
      [{ symbol := "AAPL", bid := 170, ask := 17002 / 100 },
       { symbol := "GOOG", bid := 180, ask := 181 }]).read "MSFT" =
        { bid := 0, ask := 0, mid := 0 } :=
  ⟨(zero_state [] "MSFT" (by decide)).1,
   (zero_state [{ symbol := "AAPL", bid := 170, ask := 17002 / 100 },
      { symbol := "GOOG", bid := 180, ask := 181 }] "MSFT" (by decide)).1⟩

/-- C7. Snapshot consistency is an invariant of the store: after every finite run of
updates from the empty book (any symbols, any bid and ask), the record `d` read for any
symbol has `d.mid = (d.bid + d.ask) / 2` when `d.bid > 0` and `d.ask > 0`, and
`d.mid = 0` otherwise; and `d` is the all-zero record or, whole, the record written by
one update of the run for that symbol, so no field comes from another write. -/
theorem snapshot_consistency (us : List Update) (symbol : String) :
    (((OrderBook.empty.applyUpdates us).read symbol).bid > 0 ∧
        ((OrderBook.empty.applyUpdates us).read symbol).ask > 0 →
      ((OrderBook.empty.applyUpdates us).read symbol).mid =
        (((OrderBook.empty.applyUpdates us).read symbol).bid +
          ((OrderBook.empty.applyUpdates us).read symbol).ask) / 2) ∧
    (¬ (((OrderBook.empty.applyUpdates us).read symbol).bid > 0 ∧
        ((OrderBook.empty.applyUpdates us).read symbol).ask > 0) →
      ((OrderBook.empty.applyUpdates us).read symbol).mid = 0) ∧
    ((OrderBook.empty.applyUpdates us).read symbol = MarketData.default ∨
      ∃ u ∈ us, u.symbol = symbol ∧
        (OrderBook.empty.applyUpdates us).read symbol = u.written) := by
  have h := consistent_of_reachable (OrderBook.empty.applyUpdates us) ⟨us, rfl⟩ symbol
  unfold MarketData.Consistent at h
  refine ⟨fun hpos => ?_, fun hneg => ?_, ?_⟩
  · rw [h, if_pos hpos]
  · rw [h, if_neg hneg]
  · rcases read_applyUpdates_cases us OrderBook.empty symbol with h1 | h2
    · exact Or.inl (by rw [h1, read_empty])
    · exact Or.inr h2

/-! ## One report for each order -/

/-- C8. Exactly one result, never a raise: on every book, for every order message that
carries its five fields (any side character, any order type, any quantity) and a price
when its type is Limit, the call raises nothing and yields one execution report, whose
ClOrdID is the one of the order. -/
theorem exactly_one_result (ob : OrderBook) (clOrdID symbol : String) (side : Char)
    (orderQty : ℚ) (ordType : Char) (price : Option ℚ)
    (hprice : ordType = OrdType_LIMIT → price ≠ none) :
    ∃! r : ExecutionReport,
      (StrategyEngine.onNewOrderSingle ob
        (order clOrdID symbol side orderQty ordType price)).1 = .ok r ∧
      r.clOrdID = clOrdID := by
  have hex : ∃ r : ExecutionReport,
      (StrategyEngine.onNewOrderSingle ob
        (order clOrdID symbol side orderQty ordType price)).1 = .ok r ∧
      r.clOrdID = clOrdID := by
    simp only [StrategyEngine.onNewOrderSingle, order, NewOrderSingle.get, OrderBook.getBestBid,
      OrderBook.getBestAsk, OrderBook.getMidPrice, bind, Except.bind, pure, Except.pure,
      getMarketData_snd]
    by_cases hno : (ob.getMarketData symbol).1.mid = 0 ∨ (ob.getMarketData symbol).1.bid = 0 ∨
        (ob.getMarketData symbol).1.ask = 0
    · simp [hno]
    · by_cases hm : ordType = OrdType_MARKET
      · by_cases hs : side = Side_BUY <;> simp [hno, hm, hs]
      · by_cases hl : ordType = OrdType_LIMIT
        · obtain ⟨p, hp⟩ := Option.ne_none_iff_exists'.mp (hprice hl)
          subst hp
          by_cases c1 : side = Side_BUY ∧ p ≥ (ob.getMarketData symbol).1.ask ∧
              (ob.getMarketData symbol).1.ask ≠ 0
          · simp only [if_neg hno, if_neg hm, if_pos hl, if_pos c1, if_true]
            exact ⟨_, rfl, rfl⟩
          · by_cases c2 : side = Side_SELL ∧ p ≤ (ob.getMarketData symbol).1.bid ∧
                (ob.getMarketData symbol).1.bid ≠ 0
            · simp only [if_neg hno, if_neg hm, if_pos hl, if_neg c1, if_pos c2, if_true]
              exact ⟨_, rfl, rfl⟩
            · simp only [if_neg hno, if_neg hm, if_pos hl, if_neg c1, if_neg c2]
              exact ⟨_, rfl, rfl⟩
        · simp [hno, hm, hl]
  obtain ⟨r, hr, hid⟩ := hex
  refine ⟨r, ⟨hr, hid⟩, ?_⟩
  rintro r' ⟨hr', _⟩
  rw [hr] at hr'
  exact (Except.ok.inj hr').symm

/-- C8 at a concrete order: the sell limit of scenario B yields one report, for the
ClOrdID of the order. -/
theorem exactly_one_result_witness :
    ∃! r : ExecutionReport,
      (StrategyEngine.onNewOrderSingle (OrderBook.empty.updateMarketData "AAPL" 170 (17002 / 100))
        (order "CLIENT-ORDER-2" "AAPL" Side_SELL 30 OrdType_LIMIT (some (16990 / 100)))).1 =
          .ok r ∧
      r.clOrdID = "CLIENT-ORDER-2" :=
  exactly_one_result (OrderBook.empty.updateMarketData "AAPL" 170 (17002 / 100))
    "CLIENT-ORDER-2" "AAPL" Side_SELL 30 OrdType_LIMIT (some (16990 / 100)) (by simp)

/-- The three outcomes of a call on a message that carries the five fields: a Filled
report for the whole quantity, a Rejected report for none of it, or `FieldNotFound`
for the price of a limit order on a usable market. -/
theorem report_cases (ob : OrderBook) (clOrdID symbol : String) (side : Char)
    (orderQty : ℚ) (ordType : Char) (price : Option ℚ) :
    (∃ r : ExecutionReport,
      (StrategyEngine.onNewOrderSingle ob
        (order clOrdID symbol side orderQty ordType price)).1 = .ok r ∧
      r.ordStatus = OrdStatus_FILLED ∧ r.cumQty = staticCastInt orderQty ∧
      r.lastQty = staticCastInt orderQty ∧ r.leavesQty = 0 ∧ r.text = none) ∨
    (∃ r : ExecutionReport,
      (StrategyEngine.onNewOrderSingle ob
        (order clOrdID symbol side orderQty ordType price)).1 = .ok r ∧
      r.ordStatus = OrdStatus_REJECTED ∧ r.cumQty = 0 ∧ r.lastQty = 0 ∧
      r.leavesQty = staticCastInt orderQty ∧ r.avgPx = 0 ∧ r.text ≠ none) ∨
    ((StrategyEngine.onNewOrderSingle ob
        (order clOrdID symbol side orderQty ordType price)).1 = .error { field := FIELD_Price } ∧
      ordType = OrdType_LIMIT ∧ price = none ∧
      (ob.read symbol).mid ≠ 0 ∧ (ob.read symbol).bid ≠ 0 ∧ (ob.read symbol).ask ≠ 0) := by
  simp only [OrderBook.read, StrategyEngine.onNewOrderSingle, order, NewOrderSingle.get,
    OrderBook.getBestBid, OrderBook.getBestAsk, OrderBook.getMidPrice, bind, Except.bind, pure,
    Except.pure, getMarketData_snd]
  by_cases hno : (ob.getMarketData symbol).1.mid = 0 ∨ (ob.getMarketData symbol).1.bid = 0 ∨
      (ob.getMarketData symbol).1.ask = 0
  · simp only [if_pos hno]
    refine Or.inr (Or.inl ⟨_, rfl, rfl, rfl, rfl, rfl, rfl, ?_⟩)
    simp
  · simp only [if_neg hno]
    by_cases hm : ordType = OrdType_MARKET
    · simp only [if_pos hm]
      by_cases hs : side = Side_BUY
      · simp only [if_pos hs]
        exact Or.inl ⟨_, rfl, rfl, rfl, rfl, rfl, rfl⟩
      · simp only [if_neg hs]
        exact Or.inl ⟨_, rfl, rfl, rfl, rfl, rfl, rfl⟩
    · simp only [if_neg hm]
      by_cases hl : ordType = OrdType_LIMIT
      · simp only [if_pos hl]
        cases price with
        | none =>
          refine Or.inr (Or.inr ⟨rfl, hl, rfl, ?_, ?_, ?_⟩)
          · exact fun h => hno (Or.inl h)
          · exact fun h => hno (Or.inr (Or.inl h))
          · exact fun h => hno (Or.inr (Or.inr h))
        | some p =>
          by_cases c1 : side = Side_BUY ∧ p ≥ (ob.getMarketData symbol).1.ask ∧
              (ob.getMarketData symbol).1.ask ≠ 0
          · simp only [if_pos c1, if_true]
            exact Or.inl ⟨_, rfl, rfl, rfl, rfl, rfl, rfl⟩
          · by_cases c2 : side = Side_SELL ∧ p ≤ (ob.getMarketData symbol).1.bid ∧
                (ob.getMarketData symbol).1.bid ≠ 0
            · simp only [if_neg c1, if_pos c2, if_true]
              exact Or.inl ⟨_, rfl, rfl, rfl, rfl, rfl, rfl⟩
            · simp only [if_neg c1, if_neg c2]
              refine Or.inr (Or.inl ⟨_, rfl, rfl, rfl, rfl, rfl, rfl, ?_⟩)
              simp
      · simp only [if_neg hl]
        exact Or.inl ⟨_, rfl, rfl, rfl, rfl, rfl, rfl⟩

/-- Scenario A of the specification, evaluated: after `update("AAPL", 170.00, 170.02)`
a market buy of 50 gets this report. -/
theorem scenarioA_report :
    (StrategyEngine.onNewOrderSingle (OrderBook.empty.updateMarketData "AAPL" 170 (17002 / 100))
      (order "CLIENT-ORDER-1" "AAPL" Side_BUY ((50 : Int) : ℚ) OrdType_MARKET none)).1 =
      .ok { orderID := "MM-ORD-CLIENT-ORDER-1", execID := "MM-EXEC-CLIENT-ORDER-1",
            execTransType := ExecTransType_NEW, execType := ExecType_FILL,
            ordStatus := OrdStatus_FILLED, symbol := "AAPL", side := Side_BUY,
            leavesQty := 0, cumQty := 50, avgPx := 17002 / 100,
            clOrdID := "CLIENT-ORDER-1", lastQty := 50, lastPx := 17002 / 100, text := none } := by
  simp [StrategyEngine.onNewOrderSingle, order, NewOrderSingle.get, OrderBook.getBestBid,
    OrderBook.getBestAsk, OrderBook.getMidPrice, bind, Except.bind, pure, Except.pure,
    OrderBook.getMarketData, OrderBook.updateMarketData, OrderBook.empty, SymbolMap.find,
    SymbolMap.assign, staticCastInt]
  norm_num

/-- A limit order away from the touch, evaluated: on the book of scenario A a buy limit
of 30 at 169.90 gets this report. -/
theorem limitAway_report :
    (StrategyEngine.onNewOrderSingle (OrderBook.empty.updateMarketData "AAPL" 170 (17002 / 100))
      (order "CLIENT-ORDER-3" "AAPL" Side_BUY ((30 : Int) : ℚ) OrdType_LIMIT
        (some (16990 / 100)))).1 =
      .ok { orderID := "MM-ORD-CLIENT-ORDER-3", execID := "MM-EXEC-CLIENT-ORDER-3",
            execTransType := ExecTransType_NEW, execType := ExecType_REJECTED,
            ordStatus := OrdStatus_REJECTED, symbol := "AAPL", side := Side_BUY,
            leavesQty := 30, cumQty := 0, avgPx := 0,
            clOrdID := "CLIENT-ORDER-3", lastQty := 0, lastPx := 0,
            text := some "Limit order not immediately marketable against current book." } := by
  simp [StrategyEngine.onNewOrderSingle, order, NewOrderSingle.get, OrderBook.getBestBid,
    OrderBook.getBestAsk, OrderBook.getMidPrice, bind, Except.bind, pure, Except.pure,
    OrderBook.getMarketData, OrderBook.updateMarketData, OrderBook.empty, SymbolMap.find,
    SymbolMap.assign, staticCastInt]
  norm_num
  simp [fixValues]

/-- C10. The call does not change the store: on every book and for every message (all
fields optional, so any order, known or unknown symbol, report or exception), the book
after the call is the book before it; so every symbol reads the same record, and a
symbol without an entry before the call has none after it. -/
theorem match_leaves_store (ob : OrderBook) (message : NewOrderSingle) :
    (StrategyEngine.onNewOrderSingle ob message).2 = ob ∧
    (∀ t : String, (StrategyEngine.onNewOrderSingle ob message).2.read t = ob.read t) ∧
    (∀ t : String, ob.m_symbolData.find t = none →
      (StrategyEngine.onNewOrderSingle ob message).2.m_symbolData.find t = none) ∧
    (StrategyEngine.onNewOrderSingle ob message).2.m_symbolData.length =
      ob.m_symbolData.length := by
  have h := onNewOrderSingle_snd ob message
  refine ⟨h, fun t => by rw [h], fun t ht => by rw [h]; exact ht, by rw [h]⟩

/-! ## The branches of `onNewOrderSingle` -/

theorem eval_noMarket (ob : OrderBook) (clOrdID symbol : String) (side : Char)
    (orderQty : ℚ) (ordType : Char) (price : Option ℚ) (h : ob.NoMarket symbol) :
    (StrategyEngine.onNewOrderSingle ob
      (order clOrdID symbol side orderQty ordType price)).1 =
      .ok (ExecutionReport.rejected clOrdID symbol side orderQty noMarketDataReason) := by
  simp only [OrderBook.NoMarket, OrderBook.read] at h
  simp only [StrategyEngine.onNewOrderSingle, order, NewOrderSingle.get, OrderBook.getBestBid,
    OrderBook.getBestAsk, OrderBook.getMidPrice, bind, Except.bind, pure, Except.pure,
    getMarketData_snd, if_pos h]
  rfl

theorem eval_market (ob : OrderBook) (clOrdID symbol : String) (side : Char)
    (orderQty : ℚ) (price : Option ℚ) (h : ¬ ob.NoMarket symbol) :
    (StrategyEngine.onNewOrderSingle ob
      (order clOrdID symbol side orderQty OrdType_MARKET price)).1 =
      .ok (ExecutionReport.filled clOrdID symbol side orderQty
        (if side = Side_BUY then (ob.read symbol).ask else (ob.read symbol).bid)) := by
  simp only [OrderBook.NoMarket, OrderBook.read] at h
  simp only [StrategyEngine.onNewOrderSingle, order, NewOrderSingle.get, OrderBook.getBestBid,
    OrderBook.getBestAsk, OrderBook.getMidPrice, bind, Except.bind, pure, Except.pure,
    getMarketData_snd, if_neg h, if_true]
  by_cases hs : side = Side_BUY
  · simp only [if_pos hs]
    rfl
  · simp only [if_neg hs]
    rfl

theorem eval_limit_none (ob : OrderBook) (clOrdID symbol : String) (side : Char)
    (orderQty : ℚ) (h : ¬ ob.NoMarket symbol) :
    (StrategyEngine.onNewOrderSingle ob
      (order clOrdID symbol side orderQty OrdType_LIMIT none)).1 =
      .error { field := FIELD_Price } := by
  simp only [OrderBook.NoMarket, OrderBook.read] at h
  simp only [StrategyEngine.onNewOrderSingle, order, NewOrderSingle.get, OrderBook.getBestBid,
    OrderBook.getBestAsk, OrderBook.getMidPrice, bind, Except.bind, pure, Except.pure,
    getMarketData_snd, if_neg h]
  rfl

theorem eval_limit_fill (ob : OrderBook) (clOrdID symbol : String) (side : Char)
    (orderQty limitPrice : ℚ) (h : ¬ ob.NoMarket symbol)
    (hm : ob.Marketable symbol side limitPrice) :
    (StrategyEngine.onNewOrderSingle ob
      (order clOrdID symbol side orderQty OrdType_LIMIT (some limitPrice))).1 =
      .ok (ExecutionReport.filled clOrdID symbol side orderQty
        (if side = Side_BUY then (ob.read symbol).ask else (ob.read symbol).bid)) := by
  simp only [OrderBook.NoMarket, OrderBook.Marketable, OrderBook.read] at h hm
  simp only [StrategyEngine.onNewOrderSingle, order, NewOrderSingle.get, OrderBook.getBestBid,
    OrderBook.getBestAsk, OrderBook.getMidPrice, bind, Except.bind, pure, Except.pure,
    getMarketData_snd, if_neg h]
  have hask : (ob.getMarketData symbol).1.ask ≠ 0 := fun e => h (Or.inr (Or.inr e))
  have hbid : (ob.getMarketData symbol).1.bid ≠ 0 := fun e => h (Or.inr (Or.inl e))
  rcases hm with ⟨hs, hp⟩ | ⟨hs, hp⟩
  · have c1 : side = Side_BUY ∧ limitPrice ≥ (ob.getMarketData symbol).1.ask ∧
        (ob.getMarketData symbol).1.ask ≠ 0 := ⟨hs, hp, hask⟩
    simp only [if_pos c1, if_pos hs, if_true]
    rfl
  · have hne : ¬ side = Side_BUY := by rw [hs]; decide
    have c1 : ¬ (side = Side_BUY ∧ limitPrice ≥ (ob.getMarketData symbol).1.ask ∧
        (ob.getMarketData symbol).1.ask ≠ 0) := fun c => hne c.1
    have c2 : side = Side_SELL ∧ limitPrice ≤ (ob.getMarketData symbol).1.bid ∧
        (ob.getMarketData symbol).1.bid ≠ 0 := ⟨hs, hp, hbid⟩
    simp only [if_neg c1, if_pos c2, if_neg hne, if_true]
    rfl

theorem eval_limit_reject (ob : OrderBook) (clOrdID symbol : String) (side : Char)
    (orderQty limitPrice : ℚ) (h : ¬ ob.NoMarket symbol)
    (hm : ¬ ob.Marketable symbol side limitPrice) :
    (StrategyEngine.onNewOrderSingle ob
      (order clOrdID symbol side orderQty OrdType_LIMIT (some limitPrice))).1 =
      .ok (ExecutionReport.rejected clOrdID symbol side orderQty notMarketableReason) := by
  simp only [OrderBook.NoMarket, OrderBook.Marketable, OrderBook.read] at h hm
  simp only [StrategyEngine.onNewOrderSingle, order, NewOrderSingle.get, OrderBook.getBestBid,
    OrderBook.getBestAsk, OrderBook.getMidPrice, bind, Except.bind, pure, Except.pure,
    getMarketData_snd, if_neg h]
  have c1 : ¬ (side = Side_BUY ∧ limitPrice ≥ (ob.getMarketData symbol).1.ask ∧
      (ob.getMarketData symbol).1.ask ≠ 0) := fun c => hm (Or.inl ⟨c.1, c.2.1⟩)
  have c2 : ¬ (side = Side_SELL ∧ limitPrice ≤ (ob.getMarketData symbol).1.bid ∧
      (ob.getMarketData symbol).1.bid ≠ 0) := fun c => hm (Or.inr ⟨c.1, c.2.1⟩)
  simp only [if_neg c1, if_neg c2]
  rfl

theorem eval_other (ob : OrderBook) (clOrdID symbol : String) (side : Char)
    (orderQty : ℚ) (ordType : Char) (price : Option ℚ) (h : ¬ ob.NoMarket symbol)
    (hmk : ordType ≠ OrdType_MARKET) (hl : ordType ≠ OrdType_LIMIT) :
    (StrategyEngine.onNewOrderSingle ob
      (order clOrdID symbol side orderQty ordType price)).1 =
      .ok (ExecutionReport.filled clOrdID symbol side orderQty 0) := by
  simp only [OrderBook.NoMarket, OrderBook.read] at h
  simp only [StrategyEngine.onNewOrderSingle, order, NewOrderSingle.get, OrderBook.getBestBid,
    OrderBook.getBestAsk, OrderBook.getMidPrice, bind, Except.bind, pure, Except.pure,
    getMarketData_snd, if_neg h, if_neg hmk, if_neg hl]
  rfl

/-- The four forms of the outcome of a call on a message that carries the five fields. -/
theorem report_forms (ob : OrderBook) (clOrdID symbol : String) (side : Char)
    (orderQty : ℚ) (ordType : Char) (price : Option ℚ) :
    (∃ fillPrice : ℚ,
      (StrategyEngine.onNewOrderSingle ob
        (order clOrdID symbol side orderQty ordType price)).1 =
        .ok (ExecutionReport.filled clOrdID symbol side orderQty fillPrice)) ∨
    (StrategyEngine.onNewOrderSingle ob
        (order clOrdID symbol side orderQty ordType price)).1 =
        .ok (ExecutionReport.rejected clOrdID symbol side orderQty noMarketDataReason) ∨
    (StrategyEngine.onNewOrderSingle ob
        (order clOrdID symbol side orderQty ordType price)).1 =
        .ok (ExecutionReport.rejected clOrdID symbol side orderQty notMarketableReason) ∨
    ((StrategyEngine.onNewOrderSingle ob
        (order clOrdID symbol side orderQty ordType price)).1 =
        .error { field := FIELD_Price } ∧
      ordType = OrdType_LIMIT ∧ price = none ∧ ¬ ob.NoMarket symbol) := by
  by_cases h : ob.NoMarket symbol
  · exact Or.inr (Or.inl (eval_noMarket ob clOrdID symbol side orderQty ordType price h))
  · by_cases hmk : ordType = OrdType_MARKET
    · subst hmk
      exact Or.inl ⟨_, eval_market ob clOrdID symbol side orderQty price h⟩
    · by_cases hl : ordType = OrdType_LIMIT
      · subst hl
        cases price with
        | none =>
          exact Or.inr (Or.inr (Or.inr
            ⟨eval_limit_none ob clOrdID symbol side orderQty h, rfl, rfl, h⟩))
        | some p =>
          by_cases hm : ob.Marketable symbol side p
          · exact Or.inl ⟨_, eval_limit_fill ob clOrdID symbol side orderQty p h hm⟩
          · exact Or.inr (Or.inr (Or.inl
              (eval_limit_reject ob clOrdID symbol side orderQty p h hm)))
      · exact Or.inl ⟨_, eval_other ob clOrdID symbol side orderQty ordType price h hmk hl⟩

theorem filled_ne_rejected : OrdStatus_FILLED ≠ OrdStatus_REJECTED := by decide

theorem rejected_ne_filled : OrdStatus_REJECTED ≠ OrdStatus_FILLED := by decide

theorem sell_ne_buy : ¬ Side_SELL = Side_BUY := by decide

theorem market_ne_limit : ¬ OrdType_MARKET = OrdType_LIMIT := by decide

theorem scenarioA_read :
    (OrderBook.empty.updateMarketData "AAPL" 170 (17002 / 100)).read "AAPL" =
      { bid := 170, ask := 17002 / 100, mid := 17001 / 100 } := by
  rw [read_update_same]
  norm_num

theorem scenarioA_usable :
    ¬ (OrderBook.empty.updateMarketData "AAPL" 170 (17002 / 100)).NoMarket "AAPL" := by
  unfold OrderBook.NoMarket
  rw [scenarioA_read]
  norm_num

/-! ## Malformed orders and the text of a rejection -/

/-- C11, as the claim states it, fails: on the book of scenario A a market sell of the
quantity -5 gets a report with status Filled, not Rejected, filled quantity -5, at the
bid 170. -/
theorem nonpositive_quantity_counterexample :
    ∃ r : ExecutionReport,
      (StrategyEngine.onNewOrderSingle (OrderBook.empty.updateMarketData "AAPL" 170 (17002 / 100))
        (order "CLIENT-ORDER-5" "AAPL" Side_SELL ((-5 : Int) : ℚ) OrdType_MARKET none)).1 =
          .ok r ∧
      r.ordStatus = OrdStatus_FILLED ∧ r.ordStatus ≠ OrdStatus_REJECTED ∧
      r.cumQty = -5 ∧ r.leavesQty = 0 ∧ r.avgPx = 170 := by
  refine ⟨_, eval_market _ "CLIENT-ORDER-5" "AAPL" Side_SELL _ none scenarioA_usable,
    rfl, filled_ne_rejected, ?_, rfl, ?_⟩
  · exact staticCastInt_intCast (-5) (by decide) (by decide)
  · show (if Side_SELL = Side_BUY then
        ((OrderBook.empty.updateMarketData "AAPL" 170 (17002 / 100)).read "AAPL").ask
      else ((OrderBook.empty.updateMarketData "AAPL" 170 (17002 / 100)).read "AAPL").bid) = 170
    rw [if_neg sell_ne_buy, scenarioA_read]

/-- C11, amended. The quantity is not validated: on every book, a Market or Limit order
with a zero or negative integer quantity `q` that a 32-bit `int` holds, so from
-2147483648 to 0 (any side character, a price when it is Limit), raises nothing and
gets one report; its status is Rejected exactly when the symbol has no usable market or
the order is a Limit order that fails the touch test, with filled quantity 0 and leaves
quantity `q`; otherwise it is Filled, with filled quantity `q` and leaves quantity 0. -/
theorem quantity_not_validated (ob : OrderBook) (clOrdID symbol : String) (side : Char)
    (q : Int) (ordType : Char) (price : Option ℚ) (hq : q ≤ 0) (hlo : INT_MIN ≤ q)
    (hkind : ordType = OrdType_MARKET ∨ ordType = OrdType_LIMIT)
    (hprice : ordType = OrdType_LIMIT → price ≠ none) :
    ∃ r : ExecutionReport,
      (StrategyEngine.onNewOrderSingle ob
        (order clOrdID symbol side q ordType price)).1 = .ok r ∧
      (r.ordStatus = OrdStatus_REJECTED ↔
        ob.NoMarket symbol ∨
          (ordType = OrdType_LIMIT ∧ ∃ p, price = some p ∧ ¬ ob.Marketable symbol side p)) ∧
      (r.ordStatus = OrdStatus_REJECTED ∨ r.ordStatus = OrdStatus_FILLED) ∧
      (r.ordStatus = OrdStatus_REJECTED → r.cumQty = 0 ∧ r.leavesQty = q) ∧
      (r.ordStatus = OrdStatus_FILLED → r.cumQty = q ∧ r.leavesQty = 0) := by
  have hcast := staticCastInt_intCast q hlo (le_trans hq (by decide))
  by_cases h : ob.NoMarket symbol
  · refine ⟨_, eval_noMarket ob clOrdID symbol side q ordType price h, ?_, Or.inl rfl, ?_, ?_⟩
    · exact ⟨fun _ => Or.inl h, fun _ => rfl⟩
    · exact fun _ => ⟨rfl, hcast⟩
    · intro hf
      exact absurd hf rejected_ne_filled
  · rcases hkind with hk | hk
    · subst hk
      refine ⟨_, eval_market ob clOrdID symbol side q price h, ?_, Or.inr rfl, ?_, ?_⟩
      · constructor
        · intro hf
          exact absurd hf filled_ne_rejected
        · rintro (hn | ⟨hl, _⟩)
          · exact absurd hn h
          · exact absurd hl market_ne_limit
      · intro hf
        exact absurd hf filled_ne_rejected
      · exact fun _ => ⟨hcast, rfl⟩
    · subst hk
      obtain ⟨p, hp⟩ := Option.ne_none_iff_exists'.mp (hprice rfl)
      subst hp
      by_cases hm : ob.Marketable symbol side p
      · refine ⟨_, eval_limit_fill ob clOrdID symbol side q p h hm, ?_, Or.inr rfl, ?_, ?_⟩
        · constructor
          · intro hf
            exact absurd hf filled_ne_rejected
          · rintro (hn | ⟨_, p', hp', hnm⟩)
            · exact absurd hn h
            · cases hp'
              exact absurd hm hnm
        · intro hf
          exact absurd hf filled_ne_rejected
        · exact fun _ => ⟨hcast, rfl⟩
      · refine ⟨_, eval_limit_reject ob clOrdID symbol side q p h hm, ?_, Or.inl rfl, ?_, ?_⟩
        · exact ⟨fun _ => Or.inr ⟨rfl, p, rfl, hm⟩, fun _ => rfl⟩
        · exact fun _ => ⟨rfl, hcast⟩
        · intro hf
          exact absurd hf rejected_ne_filled

/-- C11 amended, at concrete orders on the book of scenario A: a market sell of -5 is
Filled for -5, and a buy limit of 0 at 169.90, below the ask, is Rejected. -/
theorem quantity_not_validated_witness :
    (∃ r : ExecutionReport,
      (StrategyEngine.onNewOrderSingle (OrderBook.empty.updateMarketData "AAPL" 170 (17002 / 100))
        (order "CLIENT-ORDER-5" "AAPL" Side_SELL ((-5 : Int) : ℚ) OrdType_MARKET none)).1 =
          .ok r ∧
      r.ordStatus = OrdStatus_FILLED ∧ r.cumQty = -5 ∧ r.leavesQty = 0) ∧
    (∃ r : ExecutionReport,
      (StrategyEngine.onNewOrderSingle (OrderBook.empty.updateMarketData "AAPL" 170 (17002 / 100))
        (order "CLIENT-ORDER-6" "AAPL" Side_BUY ((0 : Int) : ℚ) OrdType_LIMIT
          (some (16990 / 100)))).1 = .ok r ∧
      r.ordStatus = OrdStatus_REJECTED ∧ r.cumQty = 0 ∧ r.leavesQty = 0) := by
  obtain ⟨r1, h1, hiff1, hor1, _, hf1⟩ :=
    quantity_not_validated (OrderBook.empty.updateMarketData "AAPL" 170 (17002 / 100))
      "CLIENT-ORDER-5" "AAPL" Side_SELL (-5) OrdType_MARKET none (by decide) (by decide)
      (Or.inl rfl)
      (fun h => absurd h market_ne_limit)
  obtain ⟨r2, h2, hiff2, _, hr2, _⟩ :=
    quantity_not_validated (OrderBook.empty.updateMarketData "AAPL" 170 (17002 / 100))
      "CLIENT-ORDER-6" "AAPL" Side_BUY 0 OrdType_LIMIT (some (16990 / 100)) (by decide)
      (by decide) (Or.inr rfl) (fun _ => by simp)
  have hs1 : r1.ordStatus = OrdStatus_FILLED := by
    rcases hor1 with hrej | hfil
    · rcases hiff1.mp hrej with hn | ⟨hl, _⟩
      · exact absurd hn scenarioA_usable
      · exact absurd hl market_ne_limit
    · exact hfil
  have hs2 : r2.ordStatus = OrdStatus_REJECTED := by
    refine hiff2.mpr (Or.inr ⟨rfl, _, rfl, ?_⟩)
    unfold OrderBook.Marketable
    rw [scenarioA_read]
    rintro (⟨_, hp⟩ | ⟨hs, _⟩)
    · norm_num at hp
    · exact absurd hs.symm sell_ne_buy
  exact ⟨⟨r1, h1, hs1, hf1 hs1⟩, ⟨r2, h2, hs2, hr2 hs2⟩⟩

/-- C12. A rejection always carries its reason: on every book, for every order (any
side and order type character, any quantity, a price or none), the report of the call
has a text, and a non-empty one, exactly when its status is Rejected; a Filled report
has no text, and the status is one of the two. The call yields a report unless the
order is a limit order without a price on a usable market, where it raises. -/
theorem rejection_carries_reason (ob : OrderBook) (clOrdID symbol : String) (side : Char)
    (orderQty : ℚ) (ordType : Char) (price : Option ℚ) :
    match (StrategyEngine.onNewOrderSingle ob
        (order clOrdID symbol side orderQty ordType price)).1 with
    | .ok r =>
      ((∃ t : String, r.text = some t ∧ t ≠ "") ↔ r.ordStatus = OrdStatus_REJECTED) ∧
      (r.ordStatus = OrdStatus_FILLED → r.text = none) ∧
      (r.ordStatus = OrdStatus_REJECTED →
        r.text = some noMarketDataReason ∨ r.text = some notMarketableReason) ∧
      (r.ordStatus = OrdStatus_FILLED ∨ r.ordStatus = OrdStatus_REJECTED)
    | .error _ => ordType = OrdType_LIMIT ∧ price = none ∧ ¬ ob.NoMarket symbol := by
  rcases report_forms ob clOrdID symbol side orderQty ordType price with
    ⟨fp, h⟩ | h | h | ⟨h, hrest⟩
  · rw [h]
    refine ⟨⟨?_, fun hs => absurd hs filled_ne_rejected⟩, fun _ => rfl,
      fun hs => absurd hs filled_ne_rejected, Or.inl rfl⟩
    rintro ⟨t, ht, _⟩
    exact absurd ht (by simp [ExecutionReport.filled])
  · rw [h]
    exact ⟨⟨fun _ => rfl, fun _ => ⟨_, rfl, by decide⟩⟩,
      fun hs => absurd hs rejected_ne_filled, fun _ => Or.inl rfl, Or.inr rfl⟩
  · rw [h]
    exact ⟨⟨fun _ => rfl, fun _ => ⟨_, rfl, by decide⟩⟩,
      fun hs => absurd hs rejected_ne_filled, fun _ => Or.inr rfl, Or.inr rfl⟩
  · rw [h]
    exact hrest

/-! ## Isolation of the symbols of the store -/

/-- C13. Isolation of the symbols, with exact keys: on every book, for every symbol `s`
and every symbol `t` that is another string, `updateMarketData(s, bid, ask)` leaves the
read of `t`, its three projections and its entry in the map as they were. -/
theorem symbol_isolation (ob : OrderBook) (s t : String) (bid ask : ℚ) (hst : s ≠ t) :
    (ob.updateMarketData s bid ask).read t = ob.read t ∧
    ((ob.updateMarketData s bid ask).getBestBid t).1 = (ob.getBestBid t).1 ∧
    ((ob.updateMarketData s bid ask).getBestAsk t).1 = (ob.getBestAsk t).1 ∧
    ((ob.updateMarketData s bid ask).getMidPrice t).1 = (ob.getMidPrice t).1 ∧
    (ob.updateMarketData s bid ask).m_symbolData.find t = ob.m_symbolData.find t := by
  have h := read_update_other ob s t bid ask hst
  have hb : ((ob.updateMarketData s bid ask).getBestBid t).1 =
      ((ob.updateMarketData s bid ask).read t).bid := rfl
  have ha : ((ob.updateMarketData s bid ask).getBestAsk t).1 =
      ((ob.updateMarketData s bid ask).read t).ask := rfl
  have hm : ((ob.updateMarketData s bid ask).getMidPrice t).1 =
      ((ob.updateMarketData s bid ask).read t).mid := rfl
  refine ⟨h, ?_, ?_, ?_, ?_⟩
  · rw [hb, h]; rfl
  · rw [ha, h]; rfl
  · rw [hm, h]; rfl
  · exact find_assign_other _ _ _ _ hst

/-- C13 at symbols that differ in letter case only: on the book of scenario A an update
of "aapl" leaves the read of "AAPL" as it was, and "aapl" reads zero after an update
of "AAPL". -/
theorem symbol_isolation_witness :
    ((OrderBook.empty.updateMarketData "AAPL" 170 (17002 / 100)).updateMarketData
        "aapl" 1 2).read "AAPL" =
      { bid := 170, ask := 17002 / 100, mid := 17001 / 100 } ∧
    (OrderBook.empty.updateMarketData "AAPL" 170 (17002 / 100)).read "aapl" =
      { bid := 0, ask := 0, mid := 0 } := by
  constructor
  · rw [(symbol_isolation (OrderBook.empty.updateMarketData "AAPL" 170 (17002 / 100))
      "aapl" "AAPL" 1 2 (by decide)).1, scenarioA_read]
  · rw [(symbol_isolation OrderBook.empty "AAPL" "aapl" 170 (17002 / 100) (by decide)).1,
      read_empty]
    rfl

/-! ## The quote cycle -/

theorem manageQuotes_snd (ob : OrderBook) (draw : Int) :
    (StrategyEngine.manageQuotes ob draw).2 = ob := by
  unfold StrategyEngine.manageQuotes
  simp only [OrderBook.getMidPrice, getMarketData_snd]
  split <;> rfl

theorem manageQuotes_skip (ob : OrderBook) (draw : Int) (h : (ob.read "AAPL").mid = 0) :
    (StrategyEngine.manageQuotes ob draw).1 = [] := by
  simp only [OrderBook.read] at h
  simp only [StrategyEngine.manageQuotes, OrderBook.getMidPrice, if_pos h]

theorem manageQuotes_quote (ob : OrderBook) (draw : Int) (h : (ob.read "AAPL").mid ≠ 0) :
    (StrategyEngine.manageQuotes ob draw).1 =
      [{ symbol := "AAPL",
         bidPrice := stdRound (((ob.read "AAPL").mid - 4 / 100 / 2) * 100) / 100,
         askPrice := stdRound (((ob.read "AAPL").mid + 4 / 100 / 2) * 100) / 100,
         size := draw }] := by
  simp only [OrderBook.read] at h
  simp only [StrategyEngine.manageQuotes, OrderBook.getMidPrice, if_neg h, OrderBook.read]

theorem stdRound_isInt (x : ℚ) : ∃ n : Int, stdRound x = (n : ℚ) := by
  unfold stdRound
  split
  · exact ⟨_, rfl⟩
  · exact ⟨_, rfl⟩

theorem stdRound_near (x : ℚ) : |stdRound x - x| ≤ 1 / 2 := by
  unfold stdRound
  split
  · have h1 := Int.floor_le (x + 1 / 2)
    have h2 := Int.lt_floor_add_one (x + 1 / 2)
    rw [abs_le]
    constructor <;> linarith
  · have h1 := Int.le_ceil (x - 1 / 2)
    have h2 := Int.ceil_lt_add_one (x - 1 / 2)
    rw [abs_le]
    constructor <;> linarith

/-- C14. The quote cycle skips a symbol with no market: on every book, one call of
`manageQuotes` emits no quote when the mid of the quoted symbol, "AAPL", is 0, and one
quote, for "AAPL", when it is not 0; it leaves the book as it was. The mid is 0, and
the cycle emits nothing, after any run of updates from the empty book that does not
name "AAPL", and when the last update of "AAPL" had a non-positive bid or ask. -/
theorem quote_cycle_skips_no_market :
    (∀ (ob : OrderBook) (draw : Int), (ob.read "AAPL").mid = 0 →
      (StrategyEngine.manageQuotes ob draw).1 = []) ∧
    (∀ (ob : OrderBook) (draw : Int), (ob.read "AAPL").mid ≠ 0 →
      ∃ q : DesiredQuote, (StrategyEngine.manageQuotes ob draw).1 = [q] ∧
        q.symbol = "AAPL" ∧ q.size = draw) ∧
    (∀ (ob : OrderBook) (draw : Int), (StrategyEngine.manageQuotes ob draw).2 = ob) ∧
    (∀ (us : List Update) (draw : Int), (∀ u ∈ us, u.symbol ≠ "AAPL") →
      (StrategyEngine.manageQuotes (OrderBook.empty.applyUpdates us) draw).1 = []) ∧
    (∀ (ob : OrderBook) (bid ask : ℚ) (us : List Update) (draw : Int),
      (bid ≤ 0 ∨ ask ≤ 0) → (∀ u ∈ us, u.symbol ≠ "AAPL") →
      (StrategyEngine.manageQuotes
        ((ob.updateMarketData "AAPL" bid ask).applyUpdates us) draw).1 = []) := by
  refine ⟨manageQuotes_skip, ?_, manageQuotes_snd, ?_, ?_⟩
  · intro ob draw h
    exact ⟨_, manageQuotes_quote ob draw h, rfl, rfl⟩
  · intro us draw hus
    apply manageQuotes_skip
    rw [read_applyUpdates_other us _ "AAPL" hus, read_empty]
    rfl
  · intro ob bid ask us draw hneg hus
    apply manageQuotes_skip
    rw [read_applyUpdates_other us _ "AAPL" hus, read_update_same]
    exact written_mid_zero { symbol := "AAPL", bid := bid, ask := ask } hneg

/-- C14 at concrete books: the cycle emits nothing on the empty book and after
`update("AAPL", -1, 5)`, and one quote on the book of scenario A. -/
theorem quote_cycle_skips_no_market_witness :
    (StrategyEngine.manageQuotes (OrderBook.empty.applyUpdates []) 300).1 = [] ∧
    (StrategyEngine.manageQuotes
      ((OrderBook.empty.updateMarketData "AAPL" (-1) 5).applyUpdates []) 300).1 = [] ∧
    (∃ q : DesiredQuote,
      (StrategyEngine.manageQuotes
        (OrderBook.empty.updateMarketData "AAPL" 170 (17002 / 100)) 300).1 = [q] ∧
      q.symbol = "AAPL" ∧ q.size = 300) :=
  ⟨quote_cycle_skips_no_market.2.2.2.1 [] 300 (by decide),
   quote_cycle_skips_no_market.2.2.2.2 OrderBook.empty (-1) 5 [] 300
     (Or.inl (by norm_num)) (by decide),
   quote_cycle_skips_no_market.2.1 _ 300 (by rw [scenarioA_read]; norm_num)⟩

theorem roundHalfEven_tie : roundHalfEven (33997 / 2) = 16998 := by
  have h : ⌊(33997 / 2 : ℚ)⌋ = 16998 := by
    rw [Int.floor_eq_iff]
    constructor <;> norm_num
  unfold roundHalfEven
  rw [h, if_pos (by norm_num), if_pos (by decide)]
  norm_num

theorem roundHalfUp_tie : roundHalfUp (-3 / 2) = -1 := by
  have h : ⌊(-3 / 2 : ℚ) + 1 / 2⌋ = -1 := by
    rw [Int.floor_eq_iff]
    constructor <;> norm_num
  unfold roundHalfUp
  rw [h]
  norm_num

/-! ## Updates that interleave with a call -/

theorem read_holding (symbol : String) (d : MarketData) :
    ((OrderBook.holding symbol d).getMarketData symbol).1 = d := by
  simp [OrderBook.holding, OrderBook.getMarketData, SymbolMap.find]

theorem interleaved_nil (ob : OrderBook) (message : NewOrderSingle) :
    StrategyEngine.onNewOrderSingleInterleaved ob [] [] message =
      StrategyEngine.onNewOrderSingle ob message := rfl

theorem interleaved_snd (ob : OrderBook) (between1 between2 : List Update)
    (clOrdID symbol : String) (side : Char) (orderQty : ℚ) (ordType : Char)
    (price : Option ℚ) :
    (StrategyEngine.onNewOrderSingleInterleaved ob between1 between2
      (order clOrdID symbol side orderQty ordType price)).2 =
      (ob.applyUpdates between1).applyUpdates between2 := by
  simp only [StrategyEngine.onNewOrderSingleInterleaved, order, NewOrderSingle.get,
    OrderBook.getBestBid, OrderBook.getBestAsk, OrderBook.getMidPrice, bind, Except.bind, pure,
    Except.pure, getMarketData_snd]
  split <;> rfl

theorem interleaved_eq (ob : OrderBook) (between1 between2 : List Update)
    (clOrdID symbol : String) (side : Char) (orderQty : ℚ) (ordType : Char)
    (price : Option ℚ) :
    (StrategyEngine.onNewOrderSingleInterleaved ob between1 between2
      (order clOrdID symbol side orderQty ordType price)).1 =
    (StrategyEngine.onNewOrderSingle
      (OrderBook.holding symbol (StrategyEngine.valuesRead ob between1 between2 symbol))
      (order clOrdID symbol side orderQty ordType price)).1 := by
  simp only [StrategyEngine.onNewOrderSingleInterleaved, StrategyEngine.onNewOrderSingle, order,
    NewOrderSingle.get, OrderBook.getBestBid, OrderBook.getBestAsk, OrderBook.getMidPrice, bind,
    Except.bind, pure, Except.pure, getMarketData_snd, read_holding, StrategyEngine.valuesRead,
    OrderBook.read]
  split <;> rfl

theorem onNewOrderSingle_congr (ob ob' : OrderBook) (clOrdID symbol : String) (side : Char)
    (orderQty : ℚ) (ordType : Char) (price : Option ℚ)
    (h : ob.read symbol = ob'.read symbol) :
    (StrategyEngine.onNewOrderSingle ob
      (order clOrdID symbol side orderQty ordType price)).1 =
    (StrategyEngine.onNewOrderSingle ob'
      (order clOrdID symbol side orderQty ordType price)).1 := by
  simp only [OrderBook.read] at h
  simp only [StrategyEngine.onNewOrderSingle, order, NewOrderSingle.get, OrderBook.getBestBid,
    OrderBook.getBestAsk, OrderBook.getMidPrice, bind, Except.bind, pure, Except.pure,
    getMarketData_snd, h]
  split <;> rfl

theorem tornBook_read :
    (OrderBook.empty.updateMarketData "AAPL" 170 0).read "AAPL" =
      { bid := 170, ask := 0, mid := 0 } := by
  rw [read_update_same]
  norm_num

theorem tornBook_read_after :
    ((OrderBook.empty.updateMarketData "AAPL" 170 0).applyUpdates
      [{ symbol := "AAPL", bid := 100, ask := 10002 / 100 }]).read "AAPL" =
      { bid := 100, ask := 10002 / 100, mid := 10001 / 100 } := by
  have step : (OrderBook.empty.updateMarketData "AAPL" 170 0).applyUpdates
      [{ symbol := "AAPL", bid := 100, ask := 10002 / 100 }] =
      (OrderBook.empty.updateMarketData "AAPL" 170 0).updateMarketData "AAPL" 100
        (10002 / 100) := rfl
  rw [step, read_update_same]
  norm_num

theorem tornBook_valuesRead :
    StrategyEngine.valuesRead (OrderBook.empty.updateMarketData "AAPL" 170 0)
      [{ symbol := "AAPL", bid := 100, ask := 10002 / 100 }] [] "AAPL" =
      { bid := 170, ask := 10002 / 100, mid := 10001 / 100 } := by
  have e : ((OrderBook.empty.updateMarketData "AAPL" 170 0).applyUpdates
      [{ symbol := "AAPL", bid := 100, ask := 10002 / 100 }]).applyUpdates [] =
      (OrderBook.empty.updateMarketData "AAPL" 170 0).applyUpdates
        [{ symbol := "AAPL", bid := 100, ask := 10002 / 100 }] := rfl
  unfold StrategyEngine.valuesRead
  rw [e, tornBook_read, tornBook_read_after]

theorem written_pos (u : Update) (h : 0 < u.bid ∧ 0 < u.ask) :
    0 < u.written.bid ∧ 0 < u.written.ask ∧ 0 < u.written.mid := by
  refine ⟨h.1, h.2, ?_⟩
  show 0 < (if u.bid > 0 ∧ u.ask > 0 then (u.bid + u.ask) / 2 else 0)
  rw [if_pos h]
  linarith [h.1, h.2]

/-- Writes with a positive bid and a positive ask keep a record positive. -/
theorem read_pos_applyUpdates (us : List Update) (hus : ∀ u ∈ us, 0 < u.bid ∧ 0 < u.ask)
    (ob : OrderBook) (t : String)
    (h : 0 < (ob.read t).bid ∧ 0 < (ob.read t).ask ∧ 0 < (ob.read t).mid) :
    0 < ((ob.applyUpdates us).read t).bid ∧ 0 < ((ob.applyUpdates us).read t).ask ∧
      0 < ((ob.applyUpdates us).read t).mid := by
  rcases read_applyUpdates_cases us ob t with e | ⟨u, hu, _, e⟩
  · rw [e]
    exact h
  · rw [e]
    exact written_pos u (hus u hu)

/-- On a book written by such writes alone a record is the default one or positive. -/
theorem read_default_or_pos (us : List Update) (hus : ∀ u ∈ us, 0 < u.bid ∧ 0 < u.ask)
    (t : String) :
    (OrderBook.empty.applyUpdates us).read t = MarketData.default ∨
      (0 < ((OrderBook.empty.applyUpdates us).read t).bid ∧
        0 < ((OrderBook.empty.applyUpdates us).read t).ask ∧
        0 < ((OrderBook.empty.applyUpdates us).read t).mid) := by
  rcases read_applyUpdates_cases us OrderBook.empty t with e | ⟨u, hu, _, e⟩
  · left
    rw [e, read_empty]
  · right
    rw [e]
    exact written_pos u (hus u hu)

theorem noMarket_of_default (ob : OrderBook) (t : String)
    (h : ob.read t = MarketData.default) : ob.NoMarket t := by
  unfold OrderBook.NoMarket
  rw [h]
  exact Or.inl rfl

theorem usable_of_pos (ob : OrderBook) (t : String)
    (h : 0 < (ob.read t).bid ∧ 0 < (ob.read t).ask ∧ 0 < (ob.read t).mid) :
    ¬ ob.NoMarket t := by
  rintro (e | e | e)
  · exact ne_of_gt h.2.2 e
  · exact ne_of_gt h.1 e
  · exact ne_of_gt h.2.1 e

/-- The decision of a call depends on the book through three things only: whether the
symbol has a usable market, and on a usable market the ask for a Buy and the bid for
every other side. -/
theorem onNewOrderSingle_congr_touch (A B : OrderBook) (clOrdID symbol : String) (side : Char)
    (orderQty : ℚ) (ordType : Char) (price : Option ℚ)
    (hno : A.NoMarket symbol ↔ B.NoMarket symbol)
    (hbuy : ¬ A.NoMarket symbol → side = Side_BUY →
      (A.read symbol).ask = (B.read symbol).ask)
    (hsell : ¬ A.NoMarket symbol → side ≠ Side_BUY →
      (A.read symbol).bid = (B.read symbol).bid) :
    (StrategyEngine.onNewOrderSingle A
      (order clOrdID symbol side orderQty ordType price)).1 =
    (StrategyEngine.onNewOrderSingle B
      (order clOrdID symbol side orderQty ordType price)).1 := by
  by_cases hA : A.NoMarket symbol
  · rw [eval_noMarket A _ _ _ _ _ _ hA, eval_noMarket B _ _ _ _ _ _ (hno.mp hA)]
  · have hB : ¬ B.NoMarket symbol := fun h => hA (hno.mpr h)
    have htouch : (if side = Side_BUY then (A.read symbol).ask else (A.read symbol).bid) =
        (if side = Side_BUY then (B.read symbol).ask else (B.read symbol).bid) := by
      by_cases hs : side = Side_BUY
      · rw [if_pos hs, if_pos hs, hbuy hA hs]
      · rw [if_neg hs, if_neg hs, hsell hA hs]
    by_cases hmk : ordType = OrdType_MARKET
    · rw [hmk, eval_market A _ _ _ _ _ hA, eval_market B _ _ _ _ _ hB, htouch]
    · by_cases hl : ordType = OrdType_LIMIT
      · rw [hl]
        cases price with
        | none => rw [eval_limit_none A _ _ _ _ hA, eval_limit_none B _ _ _ _ hB]
        | some p =>
          have hiff : A.Marketable symbol side p ↔ B.Marketable symbol side p := by
            unfold OrderBook.Marketable
            by_cases hs : side = Side_BUY
            · rw [hbuy hA hs]
              have hns : side ≠ Side_SELL := fun e => sell_ne_buy (e.symm.trans hs)
              simp only [hns, false_and, or_false]
            · have hbid := hsell hA hs
              rw [hbid]
              simp only [hs, false_and, false_or]
          by_cases hm : A.Marketable symbol side p
          · rw [eval_limit_fill A _ _ _ _ _ hA hm, eval_limit_fill B _ _ _ _ _ hB (hiff.mp hm),
              htouch]
          · rw [eval_limit_reject A _ _ _ _ _ hA hm,
              eval_limit_reject B _ _ _ _ _ hB (fun h => hm (hiff.mpr h))]
      · rw [eval_other A _ _ _ _ _ _ hA hmk hl, eval_other B _ _ _ _ _ _ hB hmk hl]

theorem crossBook_read_after :
    ((OrderBook.empty.updateMarketData "AAPL" 170 (17002 / 100)).applyUpdates
      [{ symbol := "AAPL", bid := 100, ask := 10002 / 100 }]).read "AAPL" =
      { bid := 100, ask := 10002 / 100, mid := 10001 / 100 } := by
  have step : (OrderBook.empty.updateMarketData "AAPL" 170 (17002 / 100)).applyUpdates
      [{ symbol := "AAPL", bid := 100, ask := 10002 / 100 }] =
      (OrderBook.empty.updateMarketData "AAPL" 170 (17002 / 100)).updateMarketData "AAPL" 100
        (10002 / 100) := rfl
  rw [step, read_update_same]
  norm_num

theorem crossBook_valuesRead :
    StrategyEngine.valuesRead (OrderBook.empty.updateMarketData "AAPL" 170 (17002 / 100))
      [{ symbol := "AAPL", bid := 100, ask := 10002 / 100 }] [] "AAPL" =
      { bid := 170, ask := 10002 / 100, mid := 10001 / 100 } := by
  have e : ((OrderBook.empty.updateMarketData "AAPL" 170 (17002 / 100)).applyUpdates
      [{ symbol := "AAPL", bid := 100, ask := 10002 / 100 }]).applyUpdates [] =
      (OrderBook.empty.updateMarketData "AAPL" 170 (17002 / 100)).applyUpdates
        [{ symbol := "AAPL", bid := 100, ask := 10002 / 100 }] := rfl
  unfold StrategyEngine.valuesRead
  rw [e, scenarioA_read, crossBook_read_after]

/-- C17, as the claim states it, fails. First, with writes of positive prices only: the
book holds bid 170, ask 170.02, mid 170.01 for "AAPL" and `update("AAPL", 100.00,
100.02)` runs between the read of the bid and the read of the ask: the call uses bid
170, ask 100.02 and mid 100.01, which come from two writes and are neither the record
held before the update nor the one held after it. Second, when a write with a
non-positive price is stored, bid 170, ask 0, mid 0, the same update between the same
reads makes a market sell of 10 fill at 170, while the rule on the record held before
the update rejects for absent market data and on the record held after it fills at
100. -/
theorem torn_read_counterexample :
    (StrategyEngine.valuesRead (OrderBook.empty.updateMarketData "AAPL" 170 (17002 / 100))
        [{ symbol := "AAPL", bid := 100, ask := 10002 / 100 }] [] "AAPL" =
        { bid := 170, ask := 10002 / 100, mid := 10001 / 100 } ∧
      (OrderBook.empty.updateMarketData "AAPL" 170 (17002 / 100)).read "AAPL" =
        { bid := 170, ask := 17002 / 100, mid := 17001 / 100 } ∧
      ((OrderBook.empty.updateMarketData "AAPL" 170 (17002 / 100)).applyUpdates
        [{ symbol := "AAPL", bid := 100, ask := 10002 / 100 }]).read "AAPL" =
        { bid := 100, ask := 10002 / 100, mid := 10001 / 100 } ∧
      StrategyEngine.valuesRead (OrderBook.empty.updateMarketData "AAPL" 170 (17002 / 100))
        [{ symbol := "AAPL", bid := 100, ask := 10002 / 100 }] [] "AAPL" ≠
        (OrderBook.empty.updateMarketData "AAPL" 170 (17002 / 100)).read "AAPL" ∧
      StrategyEngine.valuesRead (OrderBook.empty.updateMarketData "AAPL" 170 (17002 / 100))
        [{ symbol := "AAPL", bid := 100, ask := 10002 / 100 }] [] "AAPL" ≠
        ((OrderBook.empty.updateMarketData "AAPL" 170 (17002 / 100)).applyUpdates
          [{ symbol := "AAPL", bid := 100, ask := 10002 / 100 }]).read "AAPL") ∧
    (∃ r : ExecutionReport,
      (StrategyEngine.onNewOrderSingleInterleaved
        (OrderBook.empty.updateMarketData "AAPL" 170 0)
        [{ symbol := "AAPL", bid := 100, ask := 10002 / 100 }] []
        (order "CLIENT-ORDER-7" "AAPL" Side_SELL 10 OrdType_MARKET none)).1 = .ok r ∧
      r.ordStatus = OrdStatus_FILLED ∧ r.avgPx = 170) ∧
    IsNoMarketReject
      (StrategyEngine.onNewOrderSingle (OrderBook.empty.updateMarketData "AAPL" 170 0)
        (order "CLIENT-ORDER-7" "AAPL" Side_SELL 10 OrdType_MARKET none)).1 ∧
    (∃ r : ExecutionReport,
      (StrategyEngine.onNewOrderSingle
        ((OrderBook.empty.updateMarketData "AAPL" 170 0).applyUpdates
          [{ symbol := "AAPL", bid := 100, ask := 10002 / 100 }])
        (order "CLIENT-ORDER-7" "AAPL" Side_SELL 10 OrdType_MARKET none)).1 = .ok r ∧
      r.ordStatus = OrdStatus_FILLED ∧ r.avgPx = 100) ∧
    StrategyEngine.valuesRead (OrderBook.empty.updateMarketData "AAPL" 170 0)
      [{ symbol := "AAPL", bid := 100, ask := 10002 / 100 }] [] "AAPL" =
      { bid := 170, ask := 10002 / 100, mid := 10001 / 100 } ∧
    (OrderBook.empty.updateMarketData "AAPL" 170 0).read "AAPL" =
      { bid := 170, ask := 0, mid := 0 } ∧
    ((OrderBook.empty.updateMarketData "AAPL" 170 0).applyUpdates
      [{ symbol := "AAPL", bid := 100, ask := 10002 / 100 }]).read "AAPL" =
      { bid := 100, ask := 10002 / 100, mid := 10001 / 100 } := by
  refine ⟨⟨crossBook_valuesRead, scenarioA_read, crossBook_read_after, ?_, ?_⟩, ?_, ?_, ?_,
    tornBook_valuesRead, tornBook_read, tornBook_read_after⟩
  · rw [crossBook_valuesRead, scenarioA_read]
    intro h
    have e := congrArg MarketData.ask h
    norm_num at e
  · rw [crossBook_valuesRead, crossBook_read_after]
    intro h
    have e := congrArg MarketData.bid h
    norm_num at e
  · have hu : ¬ (OrderBook.holding "AAPL"
        { bid := 170, ask := 10002 / 100, mid := 10001 / 100 }).NoMarket "AAPL" := by
      unfold OrderBook.NoMarket
      rw [show (OrderBook.holding "AAPL"
        { bid := 170, ask := 10002 / 100, mid := 10001 / 100 }).read "AAPL" = _ from
        read_holding _ _]
      norm_num
    rw [interleaved_eq, tornBook_valuesRead, eval_market _ _ _ _ _ _ hu]
    refine ⟨_, rfl, rfl, ?_⟩
    show (if Side_SELL = Side_BUY then
        ((OrderBook.holding "AAPL"
          { bid := 170, ask := 10002 / 100, mid := 10001 / 100 }).read "AAPL").ask
      else ((OrderBook.holding "AAPL"
          { bid := 170, ask := 10002 / 100, mid := 10001 / 100 }).read "AAPL").bid) = 170
    rw [if_neg sell_ne_buy, show (OrderBook.holding "AAPL"
        { bid := 170, ask := 10002 / 100, mid := 10001 / 100 }).read "AAPL" = _ from
        read_holding _ _]
  · apply noMarket_reject
    rw [tornBook_read]
    exact Or.inl rfl
  · have hu : ¬ ((OrderBook.empty.updateMarketData "AAPL" 170 0).applyUpdates
        [{ symbol := "AAPL", bid := 100, ask := 10002 / 100 }]).NoMarket "AAPL" := by
      unfold OrderBook.NoMarket
      rw [tornBook_read_after]
      norm_num
    rw [eval_market _ _ _ _ _ _ hu]
    refine ⟨_, rfl, rfl, ?_⟩
    show (if Side_SELL = Side_BUY then
        (((OrderBook.empty.updateMarketData "AAPL" 170 0).applyUpdates
          [{ symbol := "AAPL", bid := 100, ask := 10002 / 100 }]).read "AAPL").ask
      else (((OrderBook.empty.updateMarketData "AAPL" 170 0).applyUpdates
          [{ symbol := "AAPL", bid := 100, ask := 10002 / 100 }]).read "AAPL").bid) = 100
    rw [if_neg sell_ne_buy, tornBook_read_after]

/-- C17, amended. The call reads the bid, the ask and the mid in three locked reads, and
updates of another thread may fall between them, so the three values may come from
different writes. When every write, those that made the book and those between the
reads, has a positive bid and a positive ask, as every write of the feed has, the result
is nevertheless that of the decision rule on one record that the book held during the
call: on the book held at the first read when the side is not Buy or that book has no
usable market for the symbol, and on the book held at the second read when the side is
Buy and the book held at the first read has a usable market. For these writes and for
every interleaving the result is that of the rule on the record made of the bid held at
the first read, the ask held at the second and the mid held at the third, and the call
itself leaves the book to the updates alone. -/
theorem match_reads_three_times (us between1 between2 : List Update)
    (clOrdID symbol : String) (side : Char) (orderQty : ℚ) (ordType : Char)
    (price : Option ℚ)
    (hus : ∀ u ∈ us, 0 < u.bid ∧ 0 < u.ask)
    (h1 : ∀ u ∈ between1, 0 < u.bid ∧ 0 < u.ask)
    (h2 : ∀ u ∈ between2, 0 < u.bid ∧ 0 < u.ask) :
    (side ≠ Side_BUY ∨ (OrderBook.empty.applyUpdates us).NoMarket symbol →
      (StrategyEngine.onNewOrderSingleInterleaved (OrderBook.empty.applyUpdates us)
        between1 between2 (order clOrdID symbol side orderQty ordType price)).1 =
      (StrategyEngine.onNewOrderSingle (OrderBook.empty.applyUpdates us)
        (order clOrdID symbol side orderQty ordType price)).1) ∧
    (side = Side_BUY → ¬ (OrderBook.empty.applyUpdates us).NoMarket symbol →
      (StrategyEngine.onNewOrderSingleInterleaved (OrderBook.empty.applyUpdates us)
        between1 between2 (order clOrdID symbol side orderQty ordType price)).1 =
      (StrategyEngine.onNewOrderSingle ((OrderBook.empty.applyUpdates us).applyUpdates between1)
        (order clOrdID symbol side orderQty ordType price)).1) ∧
    ((StrategyEngine.onNewOrderSingleInterleaved (OrderBook.empty.applyUpdates us)
        between1 between2 (order clOrdID symbol side orderQty ordType price)).1 =
      (StrategyEngine.onNewOrderSingle (OrderBook.empty.applyUpdates us)
        (order clOrdID symbol side orderQty ordType price)).1 ∨
     (StrategyEngine.onNewOrderSingleInterleaved (OrderBook.empty.applyUpdates us)
        between1 between2 (order clOrdID symbol side orderQty ordType price)).1 =
      (StrategyEngine.onNewOrderSingle ((OrderBook.empty.applyUpdates us).applyUpdates between1)
        (order clOrdID symbol side orderQty ordType price)).1) ∧
    (StrategyEngine.onNewOrderSingleInterleaved (OrderBook.empty.applyUpdates us)
        between1 between2 (order clOrdID symbol side orderQty ordType price)).1 =
      (StrategyEngine.onNewOrderSingle
        (OrderBook.holding symbol
          (StrategyEngine.valuesRead (OrderBook.empty.applyUpdates us) between1 between2 symbol))
        (order clOrdID symbol side orderQty ordType price)).1 ∧
    (StrategyEngine.onNewOrderSingleInterleaved (OrderBook.empty.applyUpdates us)
        between1 between2 (order clOrdID symbol side orderQty ordType price)).2 =
      ((OrderBook.empty.applyUpdates us).applyUpdates between1).applyUpdates between2 := by
  have hread : ∀ d : MarketData, (OrderBook.holding symbol d).read symbol = d :=
    fun d => read_holding symbol d
  have hvb : (StrategyEngine.valuesRead (OrderBook.empty.applyUpdates us) between1 between2
      symbol).bid = ((OrderBook.empty.applyUpdates us).read symbol).bid := rfl
  have hva : (StrategyEngine.valuesRead (OrderBook.empty.applyUpdates us) between1 between2
      symbol).ask = (((OrderBook.empty.applyUpdates us).applyUpdates between1).read symbol).ask :=
    rfl
  have hvm : (StrategyEngine.valuesRead (OrderBook.empty.applyUpdates us) between1 between2
      symbol).mid =
      ((((OrderBook.empty.applyUpdates us).applyUpdates between1).applyUpdates between2).read
        symbol).mid := rfl
  -- the record read has a usable market exactly when the book at the first read has one
  have hno : (OrderBook.holding symbol (StrategyEngine.valuesRead
      (OrderBook.empty.applyUpdates us) between1 between2 symbol)).NoMarket symbol ↔
      (OrderBook.empty.applyUpdates us).NoMarket symbol := by
    rcases read_default_or_pos us hus symbol with hd | hp
    · refine ⟨fun _ => noMarket_of_default _ _ hd, fun _ => ?_⟩
      unfold OrderBook.NoMarket
      rw [hread, hvb, hd]
      exact Or.inr (Or.inl rfl)
    · have hp1 := read_pos_applyUpdates between1 h1 _ symbol hp
      have hp2 := read_pos_applyUpdates between2 h2 _ symbol hp1
      refine ⟨fun h => absurd h ?_, fun h => absurd h (usable_of_pos _ _ hp)⟩
      apply usable_of_pos
      rw [hread, hvb, hva, hvm]
      exact ⟨hp.1, hp1.2.1, hp2.2.2⟩
  have first : side ≠ Side_BUY ∨ (OrderBook.empty.applyUpdates us).NoMarket symbol →
      (StrategyEngine.onNewOrderSingleInterleaved (OrderBook.empty.applyUpdates us)
        between1 between2 (order clOrdID symbol side orderQty ordType price)).1 =
      (StrategyEngine.onNewOrderSingle (OrderBook.empty.applyUpdates us)
        (order clOrdID symbol side orderQty ordType price)).1 := by
    intro h
    rw [interleaved_eq]
    apply onNewOrderSingle_congr_touch _ _ _ _ _ _ _ _ hno
    · intro hu hs
      rcases h with h | h
      · exact absurd hs h
      · exact absurd (hno.mpr h) hu
    · intro _ _
      rw [hread, hvb]
  have second : side = Side_BUY → ¬ (OrderBook.empty.applyUpdates us).NoMarket symbol →
      (StrategyEngine.onNewOrderSingleInterleaved (OrderBook.empty.applyUpdates us)
        between1 between2 (order clOrdID symbol side orderQty ordType price)).1 =
      (StrategyEngine.onNewOrderSingle ((OrderBook.empty.applyUpdates us).applyUpdates between1)
        (order clOrdID symbol side orderQty ordType price)).1 := by
    intro hs hu
    have hp : 0 < ((OrderBook.empty.applyUpdates us).read symbol).bid ∧
        0 < ((OrderBook.empty.applyUpdates us).read symbol).ask ∧
        0 < ((OrderBook.empty.applyUpdates us).read symbol).mid := by
      rcases read_default_or_pos us hus symbol with hd | hp
      · exact absurd (noMarket_of_default _ _ hd) hu
      · exact hp
    have hp1 := read_pos_applyUpdates between1 h1 _ symbol hp
    rw [interleaved_eq]
    apply onNewOrderSingle_congr_touch
    · exact ⟨fun h => absurd (hno.mp h) hu, fun h => absurd h (usable_of_pos _ _ hp1)⟩
    · intro _ _
      rw [hread, hva]
    · intro _ hns
      exact absurd hs hns
  refine ⟨first, second, ?_, interleaved_eq _ _ _ _ _ _ _ _ _,
    interleaved_snd _ _ _ _ _ _ _ _ _⟩
  by_cases hs : side = Side_BUY
  · by_cases hu : (OrderBook.empty.applyUpdates us).NoMarket symbol
    · exact Or.inl (first (Or.inr hu))
    · exact Or.inr (second hs hu)
  · exact Or.inl (first (Or.inl hs))

/-- The amended C17 at the interleaving of its counterexample: the book is written by
`update("AAPL", 170.00, 170.02)` and `update("AAPL", 100.00, 100.02)` runs between the
read of the bid and the read of the ask. A market sell of 10 is filled at 170, as on the
book held at the first read, and a market buy of 10 at 100.02, as on the book held at
the second read. -/
theorem match_reads_three_times_witness :
    (∃ r : ExecutionReport,
      (StrategyEngine.onNewOrderSingleInterleaved
        (OrderBook.empty.applyUpdates [{ symbol := "AAPL", bid := 170, ask := 17002 / 100 }])
        [{ symbol := "AAPL", bid := 100, ask := 10002 / 100 }] []
        (order "CLIENT-ORDER-7" "AAPL" Side_SELL 10 OrdType_MARKET none)).1 = .ok r ∧
      r.ordStatus = OrdStatus_FILLED ∧ r.avgPx = 170) ∧
    (∃ r : ExecutionReport,
      (StrategyEngine.onNewOrderSingleInterleaved
        (OrderBook.empty.applyUpdates [{ symbol := "AAPL", bid := 170, ask := 17002 / 100 }])
        [{ symbol := "AAPL", bid := 100, ask := 10002 / 100 }] []
        (order "CLIENT-ORDER-7" "AAPL" Side_BUY 10 OrdType_MARKET none)).1 = .ok r ∧
      r.ordStatus = OrdStatus_FILLED ∧ r.avgPx = 10002 / 100) := by
  have hus : ∀ u ∈ [({ symbol := "AAPL", bid := 170, ask := 17002 / 100 } : Update)],
      0 < u.bid ∧ 0 < u.ask := by
    intro u hu
    rw [List.mem_singleton] at hu
    rw [hu]
    norm_num
  have h1 : ∀ u ∈ [({ symbol := "AAPL", bid := 100, ask := 10002 / 100 } : Update)],
      0 < u.bid ∧ 0 < u.ask := by
    intro u hu
    rw [List.mem_singleton] at hu
    rw [hu]
    norm_num
  have h2 : ∀ u ∈ ([] : List Update), 0 < u.bid ∧ 0 < u.ask := fun u hu =>
    absurd hu (List.not_mem_nil u)
  have hbook : OrderBook.empty.applyUpdates
      [{ symbol := "AAPL", bid := 170, ask := 17002 / 100 }] =
      OrderBook.empty.updateMarketData "AAPL" 170 (17002 / 100) := rfl
  have hu1 : ¬ ((OrderBook.empty.updateMarketData "AAPL" 170 (17002 / 100)).applyUpdates
      [{ symbol := "AAPL", bid := 100, ask := 10002 / 100 }]).NoMarket "AAPL" := by
    unfold OrderBook.NoMarket
    rw [crossBook_read_after]
    norm_num
  constructor
  · have h := (match_reads_three_times _ _ _ "CLIENT-ORDER-7" "AAPL" Side_SELL 10
      OrdType_MARKET none hus h1 h2).1 (Or.inl sell_ne_buy)
    rw [h, hbook, eval_market _ _ _ _ _ _ scenarioA_usable]
    refine ⟨_, rfl, rfl, ?_⟩
    show (if Side_SELL = Side_BUY then
        ((OrderBook.empty.updateMarketData "AAPL" 170 (17002 / 100)).read "AAPL").ask
      else ((OrderBook.empty.updateMarketData "AAPL" 170 (17002 / 100)).read "AAPL").bid) = 170
    rw [if_neg sell_ne_buy, scenarioA_read]
  · have h := (match_reads_three_times _ _ _ "CLIENT-ORDER-7" "AAPL" Side_BUY 10
      OrdType_MARKET none hus h1 h2).2.1 rfl (by rw [hbook]; exact scenarioA_usable)
    rw [h, hbook, eval_market _ _ _ _ _ _ hu1]
    refine ⟨_, rfl, rfl, ?_⟩
    show (if Side_BUY = Side_BUY then
        (((OrderBook.empty.updateMarketData "AAPL" 170 (17002 / 100)).applyUpdates
          [{ symbol := "AAPL", bid := 100, ask := 10002 / 100 }]).read "AAPL").ask
      else (((OrderBook.empty.updateMarketData "AAPL" 170 (17002 / 100)).applyUpdates
          [{ symbol := "AAPL", bid := 100, ask := 10002 / 100 }]).read "AAPL").bid) =
      10002 / 100
    rw [if_pos rfl, crossBook_read_after]

/-! ## The market data feed -/

theorem base_ge (e : String × ℚ) (h : e ∈ MockMarketDataSource.m_symbols) : 170 ≤ e.2 := by
  simp only [MockMarketDataSource.m_symbols, List.mem_cons, List.mem_singleton,
    List.not_mem_nil, or_false] at h
  rcases h with h | h | h | h | h | h | h | h | h | h <;> (subst h; norm_num)

/-- C18. The feed honours the producer contract: for every symbol of `m_symbols`, with
base price `base`, and every two draws `d1` and `d2` from `base - 1` up to, not
including, `base + 1`, the feed passes the bid `d1` and an ask strictly above it to
`updateMarketData`; the bid is positive, so the record stored has
`mid = (bid + ask) / 2`, is a usable market, and has `bid < mid < ask`. -/
theorem feed_producer_contract (ob : OrderBook) (symbol : String) (base d1 d2 : ℚ)
    (hmem : (symbol, base) ∈ MockMarketDataSource.m_symbols)
    (h1 : base - 1 ≤ d1 ∧ d1 < base + 1) (h2 : base - 1 ≤ d2 ∧ d2 < base + 1) :
    (MockMarketDataSource.bidAsk d1 d2).1 = d1 ∧
    (MockMarketDataSource.bidAsk d1 d2).2 > (MockMarketDataSource.bidAsk d1 d2).1 ∧
    (MockMarketDataSource.bidAsk d1 d2).1 > 0 ∧
    (MockMarketDataSource.generate ob symbol d1 d2).read symbol =
      { bid := (MockMarketDataSource.bidAsk d1 d2).1,
        ask := (MockMarketDataSource.bidAsk d1 d2).2,
        mid := ((MockMarketDataSource.bidAsk d1 d2).1 +
          (MockMarketDataSource.bidAsk d1 d2).2) / 2 } ∧
    ((MockMarketDataSource.generate ob symbol d1 d2).read symbol).bid <
      ((MockMarketDataSource.generate ob symbol d1 d2).read symbol).mid ∧
    ((MockMarketDataSource.generate ob symbol d1 d2).read symbol).mid <
      ((MockMarketDataSource.generate ob symbol d1 d2).read symbol).ask ∧
    ¬ (MockMarketDataSource.generate ob symbol d1 d2).NoMarket symbol := by
  have hb := base_ge (symbol, base) hmem
  simp only at hb
  have hd1 : d1 > 0 := by linarith [h1.1]
  have hd2 : d2 > 0 := by linarith [h2.1]
  have hbid : (MockMarketDataSource.bidAsk d1 d2).1 = d1 := rfl
  have hnot : ¬ (d1 + 1 / 100 + d2 * (5 / 1000) ≤ d1) := by
    intro hle
    nlinarith
  have hask : (MockMarketDataSource.bidAsk d1 d2).2 = d1 + 1 / 100 + d2 * (5 / 1000) := by
    simp only [MockMarketDataSource.bidAsk, if_neg hnot]
  have hgt : (MockMarketDataSource.bidAsk d1 d2).2 > (MockMarketDataSource.bidAsk d1 d2).1 := by
    rw [hbid, hask]
    nlinarith
  have hpos : (MockMarketDataSource.bidAsk d1 d2).1 > 0 := by rw [hbid]; exact hd1
  have hread : (MockMarketDataSource.generate ob symbol d1 d2).read symbol =
      { bid := (MockMarketDataSource.bidAsk d1 d2).1,
        ask := (MockMarketDataSource.bidAsk d1 d2).2,
        mid := ((MockMarketDataSource.bidAsk d1 d2).1 +
          (MockMarketDataSource.bidAsk d1 d2).2) / 2 } := by
    unfold MockMarketDataSource.generate
    rw [read_update_same, if_pos ⟨hpos, lt_trans hpos hgt⟩]
  refine ⟨hbid, hgt, hpos, hread, ?_, ?_, ?_⟩
  · rw [hread]
    simp only
    linarith
  · rw [hread]
    simp only
    linarith
  · unfold OrderBook.NoMarket
    rw [hread]
    simp only
    rintro (h | h | h) <;> linarith

/-- C18 at the first symbol and the least draws: for "AAPL", base 170, and the draws 169
and 169 the feed stores bid 169 and ask 169.855. -/
theorem feed_producer_contract_witness :
    (MockMarketDataSource.generate OrderBook.empty "AAPL" 169 169).read "AAPL" =
      { bid := (MockMarketDataSource.bidAsk 169 169).1,
        ask := (MockMarketDataSource.bidAsk 169 169).2,
        mid := ((MockMarketDataSource.bidAsk 169 169).1 +
          (MockMarketDataSource.bidAsk 169 169).2) / 2 } ∧
    (MockMarketDataSource.bidAsk 169 169).2 > (MockMarketDataSource.bidAsk 169 169).1 :=
  have h := feed_producer_contract OrderBook.empty "AAPL" 170 169 169
    (by simp [MockMarketDataSource.m_symbols]) (by norm_num) (by norm_num)
  ⟨h.2.2.2.1, h.2.1⟩

/-! ## Order types that the engine does not know, and a limit order without a price -/

/-- C19, the code at the failing input, and the part of the claim that the code keeps.
On the book of scenario A a stop order, order type `3`, to buy 10 gets a report with
status Filled for the quantity 10 at the price 0. For a Market or Limit order on a
usable market a Filled report is priced at the ask when the side is Buy and at the bid
otherwise, and its price is not 0. -/
theorem stop_order_filled_at_zero :
    (∃ r : ExecutionReport,
      (StrategyEngine.onNewOrderSingle (OrderBook.empty.updateMarketData "AAPL" 170 (17002 / 100))
        (order "CLIENT-ORDER-8" "AAPL" Side_BUY ((10 : Int) : ℚ) OrdType_STOP none)).1 = .ok r ∧
      r.ordStatus = OrdStatus_FILLED ∧ r.avgPx = 0 ∧ r.lastPx = 0 ∧
      r.cumQty = 10 ∧ r.leavesQty = 0 ∧ r.text = none) ∧
    (∀ (ob : OrderBook) (clOrdID symbol : String) (side : Char) (orderQty : ℚ)
        (ordType : Char) (price : Option ℚ) (r : ExecutionReport),
      ¬ ob.NoMarket symbol → (ordType = OrdType_MARKET ∨ ordType = OrdType_LIMIT) →
      (StrategyEngine.onNewOrderSingle ob
        (order clOrdID symbol side orderQty ordType price)).1 = .ok r →
      r.ordStatus = OrdStatus_FILLED →
      r.avgPx = (if side = Side_BUY then (ob.read symbol).ask else (ob.read symbol).bid) ∧
      r.avgPx ≠ 0) := by
  constructor
  · refine ⟨_, eval_other _ "CLIENT-ORDER-8" "AAPL" Side_BUY _ OrdType_STOP none
      scenarioA_usable (by decide) (by decide), rfl, rfl, rfl, ?_, rfl, rfl⟩
    exact staticCastInt_intCast 10 (by decide) (by decide)
  · intro ob clOrdID symbol side orderQty ordType price r hu hkind hr hs
    have hne : (if side = Side_BUY then (ob.read symbol).ask else (ob.read symbol).bid) ≠ 0 := by
      split
      · exact fun e => hu (Or.inr (Or.inr e))
      · exact fun e => hu (Or.inr (Or.inl e))
    rcases hkind with hk | hk
    · subst hk
      rw [eval_market ob clOrdID symbol side orderQty price hu] at hr
      have e := Except.ok.inj hr
      subst e
      exact ⟨rfl, hne⟩
    · subst hk
      cases price with
      | none =>
        rw [eval_limit_none ob clOrdID symbol side orderQty hu] at hr
        exact absurd hr (by simp)
      | some p =>
        by_cases hm : ob.Marketable symbol side p
        · rw [eval_limit_fill ob clOrdID symbol side orderQty p hu hm] at hr
          have e := Except.ok.inj hr
          subst e
          exact ⟨rfl, hne⟩
        · rw [eval_limit_reject ob clOrdID symbol side orderQty p hu hm] at hr
          have e := Except.ok.inj hr
          subst e
          exact absurd hs rejected_ne_filled

/-- C20. A limit order that carries no limit price: on every book, when the symbol has
no usable market the call returns the rejection for absent market data, the same
report as with any price, since the price is not read on that branch; when the market
is usable the call raises `FieldNotFound` for the field Price, yields no report, and
leaves the book as it was. -/
theorem limit_without_price (ob : OrderBook) (clOrdID symbol : String) (side : Char)
    (orderQty : ℚ) :
    (ob.NoMarket symbol →
      IsNoMarketReject
        (StrategyEngine.onNewOrderSingle ob
          (order clOrdID symbol side orderQty OrdType_LIMIT none)).1 ∧
      ∀ p : ℚ,
        (StrategyEngine.onNewOrderSingle ob
          (order clOrdID symbol side orderQty OrdType_LIMIT (some p))).1 =
        (StrategyEngine.onNewOrderSingle ob
          (order clOrdID symbol side orderQty OrdType_LIMIT none)).1) ∧
    (¬ ob.NoMarket symbol →
      (StrategyEngine.onNewOrderSingle ob
        (order clOrdID symbol side orderQty OrdType_LIMIT none)).1 =
        .error { field := FIELD_Price } ∧
      (¬ ∃ r : ExecutionReport,
        (StrategyEngine.onNewOrderSingle ob
          (order clOrdID symbol side orderQty OrdType_LIMIT none)).1 = .ok r) ∧
      (StrategyEngine.onNewOrderSingle ob
        (order clOrdID symbol side orderQty OrdType_LIMIT none)).2 = ob) := by
  constructor
  · intro h
    refine ⟨noMarket_reject ob clOrdID symbol side orderQty OrdType_LIMIT none h, ?_⟩
    intro p
    rw [eval_noMarket ob clOrdID symbol side orderQty OrdType_LIMIT (some p) h,
      eval_noMarket ob clOrdID symbol side orderQty OrdType_LIMIT none h]
  · intro h
    have he := eval_limit_none ob clOrdID symbol side orderQty h
    refine ⟨he, ?_, onNewOrderSingle_snd ob _⟩
    rintro ⟨r, hr⟩
    rw [he] at hr
    exact absurd hr (by simp)

/-- C20 at concrete orders: a buy limit without a price is rejected for absent market
data on the empty book, and raises on the book of scenario A. -/
theorem limit_without_price_at_books :
    IsNoMarketReject
      (StrategyEngine.onNewOrderSingle OrderBook.empty
        (order "CLIENT-ORDER-9" "AAPL" Side_BUY 10 OrdType_LIMIT none)).1 ∧
    (StrategyEngine.onNewOrderSingle (OrderBook.empty.updateMarketData "AAPL" 170 (17002 / 100))
      (order "CLIENT-ORDER-9" "AAPL" Side_BUY 10 OrdType_LIMIT none)).1 =
      .error { field := FIELD_Price } :=
  ⟨((limit_without_price OrderBook.empty "CLIENT-ORDER-9" "AAPL" Side_BUY 10).1
      (Or.inl (by rw [read_empty]; rfl))).1,
   ((limit_without_price (OrderBook.empty.updateMarketData "AAPL" 170 (17002 / 100))
      "CLIENT-ORDER-9" "AAPL" Side_BUY 10).2 scenarioA_usable).1⟩

/-! ## The shape of the quote -/

theorem stdRound_add_four (y : ℚ) (h : 0 ≤ y) : stdRound (y + 4) = stdRound y + 4 := by
  have h4 : (0 : ℚ) ≤ y + 4 := by linarith
  have e : y + 4 + 1 / 2 = y + 1 / 2 + ((4 : Int) : ℚ) := by push_cast; ring
  unfold stdRound
  rw [if_pos h, if_pos h4, e, Int.floor_add_int]
  push_cast
  ring

/-- C21. The emitted quote strictly straddles the mid: on every book where the mid of
"AAPL" is positive, the quote that the cycle emits has `bidPrice < mid < askPrice`. -/
theorem quote_straddles_mid (ob : OrderBook) (draw : Int) (hmid : 0 < (ob.read "AAPL").mid) :
    ∃ q : DesiredQuote, (StrategyEngine.manageQuotes ob draw).1 = [q] ∧
      q.bidPrice < (ob.read "AAPL").mid ∧ (ob.read "AAPL").mid < q.askPrice := by
  refine ⟨_, manageQuotes_quote ob draw hmid.ne', ?_, ?_⟩
  · have h := stdRound_near (((ob.read "AAPL").mid - 4 / 100 / 2) * 100)
    rw [abs_le] at h
    simp only
    linarith [h.2]
  · have h := stdRound_near (((ob.read "AAPL").mid + 4 / 100 / 2) * 100)
    rw [abs_le] at h
    simp only
    linarith [h.1]

/-- C21 on the book of scenario A: the quote emitted lies on both sides of the mid
170.01. -/
theorem quote_straddles_mid_witness :
    ∃ q : DesiredQuote,
      (StrategyEngine.manageQuotes
        (OrderBook.empty.updateMarketData "AAPL" 170 (17002 / 100)) 300).1 = [q] ∧
      q.bidPrice < 17001 / 100 ∧ 17001 / 100 < q.askPrice := by
  have h := quote_straddles_mid (OrderBook.empty.updateMarketData "AAPL" 170 (17002 / 100)) 300
    (by rw [scenarioA_read]; norm_num)
  rw [scenarioA_read] at h
  exact h

/-! ## The mock client -/

theorem limit_ne_market : ¬ OrdType_LIMIT = OrdType_MARKET := by decide

theorem send_book (c : MockTradeClient) (loggedOn : Bool) (d : OrderDraws) :
    (c.sendNewOrderSingle loggedOn d).2.m_orderBook = c.m_orderBook := by
  unfold MockTradeClient.sendNewOrderSingle
  simp only [OrderBook.getMidPrice, getMarketData_snd]
  by_cases hl : loggedOn = false
  · simp only [if_pos hl]
  · by_cases he : c.m_tradeSymbols = []
    · simp only [if_neg hl, if_pos he]
    · simp only [if_neg hl, if_neg he]
      cases c.m_tradeSymbols[d.symbolIndex]? with
      | none => rfl
      | some sym =>
        by_cases hm : d.ordType = 0
        · simp only [if_pos hm, if_neg market_ne_limit]
        · simp only [if_neg hm, if_pos]
          by_cases hmid : (c.m_orderBook.getMarketData sym).1.mid ≤ 0
          · simp only [if_pos hmid]
          · simp only [if_neg hmid]

theorem send_limit_skip (c : MockTradeClient) (loggedOn : Bool) (d : OrderDraws)
    (sym : String) (hsym : c.m_tradeSymbols[d.symbolIndex]? = some sym)
    (hmid : (c.m_orderBook.read sym).mid ≤ 0) (hlimit : d.ordType ≠ 0) :
    (c.sendNewOrderSingle loggedOn d).1 = [] := by
  simp only [OrderBook.read] at hmid
  unfold MockTradeClient.sendNewOrderSingle
  simp only [OrderBook.getMidPrice, hsym, if_neg hlimit, if_pos, if_pos hmid]
  by_cases hl : loggedOn = false
  · simp only [if_pos hl]
  · by_cases he : c.m_tradeSymbols = []
    · simp only [if_neg hl, if_pos he]
    · simp only [if_neg hl, if_neg he]

theorem send_market (c : MockTradeClient) (loggedOn : Bool) (d : OrderDraws)
    (hmarket : d.ordType = 0) :
    ∀ m ∈ (c.sendNewOrderSingle loggedOn d).1,
      m.ordType = some OrdType_MARKET ∧ m.price = none := by
  unfold MockTradeClient.sendNewOrderSingle
  simp only [if_pos hmarket, if_neg market_ne_limit]
  intro m hm
  by_cases hl : loggedOn = false
  · simp only [if_pos hl] at hm
    exact absurd hm (List.not_mem_nil _)
  · by_cases he : c.m_tradeSymbols = []
    · simp only [if_neg hl, if_pos he] at hm
      exact absurd hm (List.not_mem_nil _)
    · simp only [if_neg hl, if_neg he] at hm
      cases hsym : c.m_tradeSymbols[d.symbolIndex]? with
      | none =>
        simp only [hsym] at hm
        exact absurd hm (List.not_mem_nil _)
      | some sym =>
        simp only [hsym, List.mem_singleton] at hm
        subst hm
        exact ⟨rfl, rfl⟩

theorem send_no_mid (c : MockTradeClient) (loggedOn : Bool) (d : OrderDraws)
    (hbook : ∀ sym : String, (c.m_orderBook.read sym).mid ≤ 0) :
    ∀ m ∈ (c.sendNewOrderSingle loggedOn d).1,
      m.ordType = some OrdType_MARKET ∧ m.price = none := by
  by_cases hmarket : d.ordType = 0
  · exact send_market c loggedOn d hmarket
  · intro m hm
    cases hsym : c.m_tradeSymbols[d.symbolIndex]? with
    | none =>
      unfold MockTradeClient.sendNewOrderSingle at hm
      simp only [hsym, ite_self] at hm
      exact absurd hm (List.not_mem_nil _)
    | some sym =>
      rw [send_limit_skip c loggedOn d sym hsym (hbook sym) hmarket] at hm
      exact absurd hm (List.not_mem_nil _)

theorem sendOrders_no_mid (steps : List (Bool × OrderDraws)) (c : MockTradeClient)
    (hbook : ∀ sym : String, (c.m_orderBook.read sym).mid ≤ 0) :
    (∀ m ∈ (c.sendOrders steps).1, m.ordType = some OrdType_MARKET ∧ m.price = none) ∧
      (c.sendOrders steps).2.m_orderBook = c.m_orderBook := by
  induction steps generalizing c with
  | nil => exact ⟨fun m hm => absurd hm (List.not_mem_nil _), rfl⟩
  | cons step rest ih =>
    obtain ⟨loggedOn, d⟩ := step
    have hb := send_book c loggedOn d
    have hbook2 : ∀ sym : String,
        ((c.sendNewOrderSingle loggedOn d).2.m_orderBook.read sym).mid ≤ 0 := by
      intro sym
      rw [hb]
      exact hbook sym
    obtain ⟨ih1, ih2⟩ := ih (c.sendNewOrderSingle loggedOn d).2 hbook2
    constructor
    · intro m hm
      simp only [MockTradeClient.sendOrders, List.mem_append] at hm
      rcases hm with hm | hm
      · exact send_no_mid c loggedOn d hbook m hm
      · exact ih1 m hm
    · simp only [MockTradeClient.sendOrders]
      rw [ih2, hb]

/-- C23. The mock client never sends a limit order priced off an absent market: for
every client, session state and draws, a call of `sendNewOrderSingle` that draws the
order type Limit sends nothing when the mid of the symbol it picked is <= 0 on its own
book. The book of the client of `main_mock_client` starts empty and stays so, and every
message that its sending loop sends, for any turns and draws, is a Market order without
a price. -/
theorem client_sends_market_only :
    (∀ (c : MockTradeClient) (loggedOn : Bool) (d : OrderDraws) (sym : String),
      c.m_tradeSymbols[d.symbolIndex]? = some sym → (c.m_orderBook.read sym).mid ≤ 0 →
      d.ordType ≠ 0 → (c.sendNewOrderSingle loggedOn d).1 = []) ∧
    (∀ (steps : List (Bool × OrderDraws)), ∀ m ∈ (mockClientApp.sendOrders steps).1,
      m.ordType = some OrdType_MARKET ∧ m.price = none) ∧
    (∀ (steps : List (Bool × OrderDraws)),
      (mockClientApp.sendOrders steps).2.m_orderBook = OrderBook.empty) := by
  have hempty : ∀ sym : String, (mockClientApp.m_orderBook.read sym).mid ≤ 0 := by
    intro sym
    show (OrderBook.empty.read sym).mid ≤ 0
    rw [read_empty]
    exact le_refl _
  exact ⟨send_limit_skip, fun steps => (sendOrders_no_mid steps mockClientApp hempty).1,
    fun steps => (sendOrders_no_mid steps mockClientApp hempty).2⟩

/-- C23 at concrete draws: the client of `main_mock_client`, logged on, sends nothing
when it draws a limit order for "AAPL", and the three turns market, limit, market send
two messages. -/
theorem client_sends_market_only_witness :
    (mockClientApp.sendNewOrderSingle true
      { symbolIndex := 0, side := 0, qty := 50, ordType := 1, priceFluctuation := 1 / 4 }).1 =
      [] ∧
    (mockClientApp.sendOrders
      [(true, { symbolIndex := 0, side := 0, qty := 50, ordType := 0, priceFluctuation := 0 }),
       (true, { symbolIndex := 0, side := 0, qty := 50, ordType := 1, priceFluctuation := 0 }),
       (true, { symbolIndex := 3, side := 1, qty := 20, ordType := 0,
                priceFluctuation := 0 })]).2.m_orderBook = OrderBook.empty :=
  ⟨client_sends_market_only.1 mockClientApp true _ "AAPL" rfl
      (by show (OrderBook.empty.read "AAPL").mid ≤ 0; rw [read_empty]; exact le_refl _)
      (by decide),
   client_sends_market_only.2.2 _⟩

/-! ## Quantities and the range of `int` -/

theorem bigQty_cast : staticCastInt ((3000000000 : Int) : ℚ) = -2147483648 :=
  staticCastInt_outside 3000000000 (Or.inr (by decide))

theorem usable_of_ne (ob : OrderBook) (symbol : String)
    (hbid : (ob.read symbol).bid ≠ 0) (hask : (ob.read symbol).ask ≠ 0)
    (hmid : (ob.read symbol).mid ≠ 0) : ¬ ob.NoMarket symbol := by
  rintro (h | h | h)
  · exact hmid h
  · exact hbid h
  · exact hask h

theorem touch_of_buy (ob : OrderBook) (symbol : String) (side : Char) (hs : side = Side_BUY) :
    (if side = Side_BUY then (ob.read symbol).ask else (ob.read symbol).bid) =
      (ob.read symbol).ask := by
  rw [if_pos hs]

theorem touch_of_sell (ob : OrderBook) (symbol : String) (side : Char)
    (hs : side = Side_SELL) :
    (if side = Side_BUY then (ob.read symbol).ask else (ob.read symbol).bid) =
      (ob.read symbol).bid := by
  rw [hs, if_neg sell_ne_buy]

/-- C1, as the claim states it, fails for a quantity above the range of `int`: on the
book of scenario A a market buy of 3000000000 is Filled at the ask 170.02, and the
filled quantity of the report is -2147483648, not 3000000000. -/
theorem market_order_quantity_counterexample :
    ∃ r : ExecutionReport,
      (StrategyEngine.onNewOrderSingle (OrderBook.empty.updateMarketData "AAPL" 170 (17002 / 100))
        (order "CLIENT-ORDER-10" "AAPL" Side_BUY ((3000000000 : Int) : ℚ) OrdType_MARKET
          none)).1 = .ok r ∧
      r.ordStatus = OrdStatus_FILLED ∧ r.avgPx = 17002 / 100 ∧
      r.cumQty = -2147483648 ∧ r.cumQty ≠ 3000000000 := by
  refine ⟨_, eval_market _ "CLIENT-ORDER-10" "AAPL" Side_BUY _ none scenarioA_usable,
    rfl, ?_, bigQty_cast, ?_⟩
  · show (if Side_BUY = Side_BUY then
        ((OrderBook.empty.updateMarketData "AAPL" 170 (17002 / 100)).read "AAPL").ask
      else ((OrderBook.empty.updateMarketData "AAPL" 170 (17002 / 100)).read "AAPL").bid) =
        17002 / 100
    rw [if_pos rfl, scenarioA_read]
  · show staticCastInt ((3000000000 : Int) : ℚ) ≠ 3000000000
    rw [bigQty_cast]
    decide

/-- C1, amended. A market order fills when its quantity fits the `int` that the code
casts it to: on every reachable book in which the symbol has `bid > 0` and `ask > 0`, a
market order with an integer quantity `q` from -2147483648 to 2147483647, so with every
positive quantity up to 2147483647 (any side character, a price field or none), gets a
report with status Filled, priced at the ask when the side is Buy and at the bid when it
is Sell, with filled quantity `q` and leaves quantity 0. -/
theorem market_order_always_fills (ob : OrderBook) (hob : ob.Reachable)
    (clOrdID symbol : String) (side : Char) (q : Int) (price : Option ℚ)
    (hbid : 0 < (ob.read symbol).bid) (hask : 0 < (ob.read symbol).ask)
    (hlo : INT_MIN ≤ q) (hhi : q ≤ INT_MAX) :
    ∃ r : ExecutionReport,
      (StrategyEngine.onNewOrderSingle ob
        (order clOrdID symbol side q OrdType_MARKET price)).1 = .ok r ∧
      r.ordStatus = OrdStatus_FILLED ∧ r.execType = ExecType_FILL ∧
      (side = Side_BUY → r.avgPx = (ob.read symbol).ask) ∧
      (side = Side_SELL → r.avgPx = (ob.read symbol).bid) ∧
      r.lastPx = r.avgPx ∧
      r.cumQty = q ∧ r.lastQty = q ∧ r.leavesQty = 0 := by
  have hmid := mid_pos_of_reachable ob hob symbol hbid hask
  have hu : ¬ ob.NoMarket symbol := usable_of_ne ob symbol hbid.ne' hask.ne' hmid.ne'
  have hcast := staticCastInt_intCast q hlo hhi
  exact ⟨_, eval_market ob clOrdID symbol side q price hu, rfl, rfl,
    touch_of_buy ob symbol side, touch_of_sell ob symbol side, rfl, hcast, hcast, rfl⟩

/-- Scenario A of the specification, with the amended C1 applied to it: after
`update("AAPL", 170.00, 170.02)` a market buy of 50 is filled at 170.02. -/
theorem market_order_always_fills_witness :
    ∃ r : ExecutionReport,
      (StrategyEngine.onNewOrderSingle (OrderBook.empty.updateMarketData "AAPL" 170 (17002 / 100))
        (order "CLIENT-ORDER-1" "AAPL" Side_BUY ((50 : Int) : ℚ) OrdType_MARKET none)).1 = .ok r ∧
      r.ordStatus = OrdStatus_FILLED ∧ r.avgPx = 17002 / 100 ∧ r.cumQty = 50 ∧ r.leavesQty = 0 := by
  obtain ⟨r, h, hs, _, hp, _, _, hc, _, hl⟩ :=
    market_order_always_fills (OrderBook.empty.updateMarketData "AAPL" 170 (17002 / 100))
      ⟨[{ symbol := "AAPL", bid := 170, ask := 17002 / 100 }], rfl⟩
      "CLIENT-ORDER-1" "AAPL" Side_BUY 50 none
      (by rw [read_update_same]; norm_num) (by rw [read_update_same]; norm_num)
      (by decide) (by decide)
  refine ⟨r, h, hs, ?_, hc, hl⟩
  rw [hp rfl, read_update_same]

theorem scenarioA_sell_marketable :
    (OrderBook.empty.updateMarketData "AAPL" 170 (17002 / 100)).Marketable "AAPL" Side_SELL
      (16990 / 100) := by
  unfold OrderBook.Marketable
  rw [scenarioA_read]
  exact Or.inr ⟨rfl, by norm_num⟩

theorem scenarioA_buy_not_marketable :
    ¬ (OrderBook.empty.updateMarketData "AAPL" 170 (17002 / 100)).Marketable "AAPL" Side_BUY
      (16990 / 100) := by
  unfold OrderBook.Marketable
  rw [scenarioA_read]
  rintro (⟨_, hp⟩ | ⟨hs, _⟩)
  · norm_num at hp
  · exact absurd hs.symm sell_ne_buy

/-- C2, as the claim states it, fails for a quantity above the range of `int`: on the
book of scenario A a sell limit of 3000000000 at 169.90 is marketable and Filled at the
bid 170, and the filled quantity of the report is -2147483648, not 3000000000. -/
theorem limit_fill_quantity_counterexample :
    ∃ r : ExecutionReport,
      (StrategyEngine.onNewOrderSingle (OrderBook.empty.updateMarketData "AAPL" 170 (17002 / 100))
        (order "CLIENT-ORDER-11" "AAPL" Side_SELL ((3000000000 : Int) : ℚ) OrdType_LIMIT
          (some (16990 / 100)))).1 = .ok r ∧
      r.ordStatus = OrdStatus_FILLED ∧ r.avgPx = 170 ∧
      r.cumQty = -2147483648 ∧ r.cumQty ≠ 3000000000 := by
  refine ⟨_, eval_limit_fill _ "CLIENT-ORDER-11" "AAPL" Side_SELL _ _ scenarioA_usable
    scenarioA_sell_marketable, rfl, ?_, bigQty_cast, ?_⟩
  · show (if Side_SELL = Side_BUY then
        ((OrderBook.empty.updateMarketData "AAPL" 170 (17002 / 100)).read "AAPL").ask
      else ((OrderBook.empty.updateMarketData "AAPL" 170 (17002 / 100)).read "AAPL").bid) = 170
    rw [if_neg sell_ne_buy, scenarioA_read]
  · show staticCastInt ((3000000000 : Int) : ℚ) ≠ 3000000000
    rw [bigQty_cast]
    decide

/-- C2, amended. Limit marketability is the inclusive touch test, and a fill is for the
whole quantity when the quantity fits the `int` that the code casts it to: on every book
in which the symbol has `bid`, `ask` and `mid` all non-zero, a limit order with limit
price `limitPrice` (any side character) and an integer quantity `q` from -2147483648 to
2147483647 gets a report, and its status is Filled exactly when the side is Buy and
`limitPrice >= ask` or the side is Sell and `limitPrice <= bid`; a Filled report is
priced at the ask for Buy and at the bid for Sell, with filled quantity `q` and leaves
quantity 0. The ties `limitPrice = ask` for Buy and `limitPrice = bid` for Sell are
Filled. -/
theorem limit_fills_iff_touch (ob : OrderBook) (clOrdID symbol : String) (side : Char)
    (q : Int) (limitPrice : ℚ)
    (hbid : (ob.read symbol).bid ≠ 0) (hask : (ob.read symbol).ask ≠ 0)
    (hmid : (ob.read symbol).mid ≠ 0) (hlo : INT_MIN ≤ q) (hhi : q ≤ INT_MAX) :
    ∃ r : ExecutionReport,
      (StrategyEngine.onNewOrderSingle ob
        (order clOrdID symbol side q OrdType_LIMIT (some limitPrice))).1 = .ok r ∧
      (r.ordStatus = OrdStatus_FILLED ↔
        (side = Side_BUY ∧ limitPrice ≥ (ob.read symbol).ask) ∨
        (side = Side_SELL ∧ limitPrice ≤ (ob.read symbol).bid)) ∧
      (r.ordStatus = OrdStatus_FILLED →
        (side = Side_BUY → r.avgPx = (ob.read symbol).ask) ∧
        (side = Side_SELL → r.avgPx = (ob.read symbol).bid) ∧
        r.lastPx = r.avgPx ∧ r.cumQty = q ∧ r.lastQty = q ∧ r.leavesQty = 0) ∧
      (side = Side_BUY → limitPrice = (ob.read symbol).ask → r.ordStatus = OrdStatus_FILLED) ∧
      (side = Side_SELL → limitPrice = (ob.read symbol).bid → r.ordStatus = OrdStatus_FILLED) := by
  have hu : ¬ ob.NoMarket symbol := usable_of_ne ob symbol hbid hask hmid
  have hcast := staticCastInt_intCast q hlo hhi
  by_cases hm : ob.Marketable symbol side limitPrice
  · exact ⟨_, eval_limit_fill ob clOrdID symbol side q limitPrice hu hm,
      ⟨fun _ => hm, fun _ => rfl⟩,
      fun _ => ⟨touch_of_buy ob symbol side, touch_of_sell ob symbol side, rfl, hcast, hcast,
        rfl⟩,
      fun _ _ => rfl, fun _ _ => rfl⟩
  · refine ⟨_, eval_limit_reject ob clOrdID symbol side q limitPrice hu hm,
      ⟨fun hs => absurd hs rejected_ne_filled, fun h => absurd h hm⟩,
      fun hs => absurd hs rejected_ne_filled, ?_, ?_⟩
    · intro hs hp
      exact absurd (Or.inl ⟨hs, le_of_eq hp.symm⟩) hm
    · intro hs hp
      exact absurd (Or.inr ⟨hs, le_of_eq hp⟩) hm

/-- Scenario B of the specification, with the amended C2 applied to it: on the book of
scenario A a sell limit of 30 at 169.90 is filled at the bid 170.00. -/
theorem limit_fills_iff_touch_witness :
    ∃ r : ExecutionReport,
      (StrategyEngine.onNewOrderSingle (OrderBook.empty.updateMarketData "AAPL" 170 (17002 / 100))
        (order "CLIENT-ORDER-2" "AAPL" Side_SELL ((30 : Int) : ℚ) OrdType_LIMIT
          (some (16990 / 100)))).1 = .ok r ∧
      r.ordStatus = OrdStatus_FILLED ∧ r.avgPx = 170 ∧ r.cumQty = 30 ∧ r.leavesQty = 0 := by
  obtain ⟨r, h, hiff, hfill, _, _⟩ :=
    limit_fills_iff_touch (OrderBook.empty.updateMarketData "AAPL" 170 (17002 / 100))
      "CLIENT-ORDER-2" "AAPL" Side_SELL 30 (16990 / 100)
      (by rw [read_update_same]; norm_num) (by rw [read_update_same]; norm_num)
      (by rw [read_update_same]; norm_num) (by decide) (by decide)
  have hs : r.ordStatus = OrdStatus_FILLED :=
    hiff.mpr (Or.inr ⟨rfl, by rw [read_update_same]; norm_num⟩)
  obtain ⟨_, hp, _, hc, _, hl⟩ := hfill hs
  refine ⟨r, h, hs, ?_, hc, hl⟩
  rw [hp rfl, read_update_same]

/-- C3, as the claim states it, fails for a quantity above the range of `int`: on the
book of scenario A a buy limit of 3000000000 at 169.90, below the ask, is Rejected as
not marketable, and the leaves quantity of the report is -2147483648, not
3000000000. -/
theorem limit_reject_quantity_counterexample :
    ∃ r : ExecutionReport,
      (StrategyEngine.onNewOrderSingle (OrderBook.empty.updateMarketData "AAPL" 170 (17002 / 100))
        (order "CLIENT-ORDER-12" "AAPL" Side_BUY ((3000000000 : Int) : ℚ) OrdType_LIMIT
          (some (16990 / 100)))).1 = .ok r ∧
      r.ordStatus = OrdStatus_REJECTED ∧ r.text = some notMarketableReason ∧
      r.leavesQty = -2147483648 ∧ r.leavesQty ≠ 3000000000 := by
  refine ⟨_, eval_limit_reject _ "CLIENT-ORDER-12" "AAPL" Side_BUY _ _ scenarioA_usable
    scenarioA_buy_not_marketable, rfl, rfl, bigQty_cast, ?_⟩
  show staticCastInt ((3000000000 : Int) : ℚ) ≠ 3000000000
  rw [bigQty_cast]
  decide

/-- C3, amended. Non-marketable limit orders are rejected in full, with the whole
quantity left when it fits the `int` that the code casts it to: on every book in which
the symbol has `bid`, `ask` and `mid` all non-zero, a limit order that is a Buy with
`limitPrice < ask` or a Sell with `limitPrice > bid`, with an integer quantity `q` from
-2147483648 to 2147483647, gets a report with status Rejected, filled quantity 0, leaves
quantity `q` and the reason that the limit order is not immediately marketable, which is
not the reason for absent market data. -/
theorem non_marketable_limit_rejected (ob : OrderBook) (clOrdID symbol : String) (side : Char)
    (q : Int) (limitPrice : ℚ)
    (hbid : (ob.read symbol).bid ≠ 0) (hask : (ob.read symbol).ask ≠ 0)
    (hmid : (ob.read symbol).mid ≠ 0)
    (hnot : (side = Side_BUY ∧ limitPrice < (ob.read symbol).ask) ∨
      (side = Side_SELL ∧ limitPrice > (ob.read symbol).bid))
    (hlo : INT_MIN ≤ q) (hhi : q ≤ INT_MAX) :
    ∃ r : ExecutionReport,
      (StrategyEngine.onNewOrderSingle ob
        (order clOrdID symbol side q OrdType_LIMIT (some limitPrice))).1 = .ok r ∧
      r.ordStatus = OrdStatus_REJECTED ∧ r.execType = ExecType_REJECTED ∧
      r.cumQty = 0 ∧ r.lastQty = 0 ∧ r.leavesQty = q ∧
      r.avgPx = 0 ∧ r.lastPx = 0 ∧
      r.text = some notMarketableReason ∧ r.text ≠ some noMarketDataReason := by
  have hu : ¬ ob.NoMarket symbol := usable_of_ne ob symbol hbid hask hmid
  have hm : ¬ ob.Marketable symbol side limitPrice := by
    rintro (⟨hs, hp⟩ | ⟨hs, hp⟩)
    · rcases hnot with ⟨_, hlt⟩ | ⟨hs2, _⟩
      · exact absurd hp (not_le.mpr hlt)
      · rw [hs] at hs2
        exact absurd hs2.symm sell_ne_buy
    · rcases hnot with ⟨hs2, _⟩ | ⟨_, hgt⟩
      · rw [hs] at hs2
        exact absurd hs2 sell_ne_buy
      · exact absurd hp (not_le.mpr hgt)
  refine ⟨_, eval_limit_reject ob clOrdID symbol side q limitPrice hu hm, rfl, rfl, rfl, rfl,
    staticCastInt_intCast q hlo hhi, rfl, rfl, rfl, ?_⟩
  show some notMarketableReason ≠ some noMarketDataReason
  decide

/-- The amended C3 at a concrete order: on the book of scenario A a buy limit of 30 at
169.90, below the ask 170.02, is rejected in full as not marketable. -/
theorem non_marketable_limit_rejected_witness :
    ∃ r : ExecutionReport,
      (StrategyEngine.onNewOrderSingle (OrderBook.empty.updateMarketData "AAPL" 170 (17002 / 100))
        (order "CLIENT-ORDER-3" "AAPL" Side_BUY ((30 : Int) : ℚ) OrdType_LIMIT
          (some (16990 / 100)))).1 = .ok r ∧
      r.ordStatus = OrdStatus_REJECTED ∧ r.cumQty = 0 ∧ r.leavesQty = 30 ∧
      r.text = some notMarketableReason := by
  obtain ⟨r, h, hs, _, hc, _, hl, _, _, ht, _⟩ :=
    non_marketable_limit_rejected (OrderBook.empty.updateMarketData "AAPL" 170 (17002 / 100))
      "CLIENT-ORDER-3" "AAPL" Side_BUY 30 (16990 / 100)
      (by rw [read_update_same]; norm_num) (by rw [read_update_same]; norm_num)
      (by rw [read_update_same]; norm_num)
      (Or.inl ⟨rfl, by rw [read_update_same]; norm_num⟩) (by decide) (by decide)
  exact ⟨r, h, hs, hc, hl, ht⟩

/-- C9, as the claim states it, fails for a quantity above the range of `int`: on the
book of scenario A a market sell of the positive quantity 3000000000 is Filled with
filled quantity -2147483648 and leaves quantity 0, which is neither the whole quantity
filled nor the whole quantity left, and the two do not add up to 3000000000. -/
theorem fill_quantity_counterexample :
    ∃ r : ExecutionReport,
      (StrategyEngine.onNewOrderSingle (OrderBook.empty.updateMarketData "AAPL" 170 (17002 / 100))
        (order "CLIENT-ORDER-13" "AAPL" Side_SELL ((3000000000 : Int) : ℚ) OrdType_MARKET
          none)).1 = .ok r ∧
      r.ordStatus = OrdStatus_FILLED ∧ r.cumQty = -2147483648 ∧ r.leavesQty = 0 ∧
      ¬ (r.cumQty = 3000000000 ∧ r.leavesQty = 0) ∧
      ¬ (r.cumQty = 0 ∧ r.leavesQty = 3000000000) ∧
      r.cumQty + r.leavesQty ≠ 3000000000 := by
  refine ⟨_, eval_market _ "CLIENT-ORDER-13" "AAPL" Side_SELL _ none scenarioA_usable,
    rfl, bigQty_cast, rfl, ?_, ?_, ?_⟩
  · show ¬ (staticCastInt ((3000000000 : Int) : ℚ) = 3000000000 ∧ (0 : Int) = 0)
    rw [bigQty_cast]
    decide
  · show ¬ (staticCastInt ((3000000000 : Int) : ℚ) = 0 ∧ (0 : Int) = 3000000000)
    rw [bigQty_cast]
    decide
  · show staticCastInt ((3000000000 : Int) : ℚ) + 0 ≠ 3000000000
    rw [bigQty_cast]
    decide

/-- C9, amended. No fill in part, for a quantity that fits the `int` that the code casts
it to: on every book, for every order with a positive integer quantity `q` of at most
2147483647 (any side character, any order type, a price or none), the report of the
call has either filled quantity `q` and leaves quantity 0, or filled quantity 0 and
leaves quantity `q`; the first holds exactly when its status is Filled, and filled plus
leaves is `q` in both. The call yields a report unless the order is a limit order
without a price on a usable market, where it raises `FieldNotFound`. -/
theorem fill_all_or_nothing (ob : OrderBook) (clOrdID symbol : String) (side : Char)
    (q : Int) (ordType : Char) (price : Option ℚ) (hq : 0 < q) (hhi : q ≤ INT_MAX) :
    match (StrategyEngine.onNewOrderSingle ob
        (order clOrdID symbol side q ordType price)).1 with
    | .ok r =>
      ((r.cumQty = q ∧ r.leavesQty = 0) ∨ (r.cumQty = 0 ∧ r.leavesQty = q)) ∧
      ((r.cumQty = q ∧ r.leavesQty = 0) ↔ r.ordStatus = OrdStatus_FILLED) ∧
      r.cumQty + r.leavesQty = q
    | .error _ =>
      ordType = OrdType_LIMIT ∧ price = none ∧
      (ob.read symbol).mid ≠ 0 ∧ (ob.read symbol).bid ≠ 0 ∧ (ob.read symbol).ask ≠ 0 := by
  have hcast := staticCastInt_intCast q (le_trans (by decide) hq.le) hhi
  rcases report_cases ob clOrdID symbol side q ordType price with
    ⟨r, hr, hs, hc, _, hl, _⟩ | ⟨r, hr, hs, hc, _, hl, _, _⟩ | ⟨he, h⟩
  · rw [hr]
    rw [hcast] at hc
    simp only [hc, hl, hs]
    simp
  · rw [hr]
    rw [hcast] at hl
    have hne : ¬ (0 : Int) = q := fun h => by omega
    simp only [hc, hl, hs]
    simp [hne, fixValues]
  · rw [he]
    exact h

/-- The amended C9 at concrete orders on the book of scenario A: the market buy of 50 is
filled whole, and a buy limit of 30 below the ask is left whole. -/
theorem fill_all_or_nothing_witness :
    (∃ r : ExecutionReport,
      (StrategyEngine.onNewOrderSingle (OrderBook.empty.updateMarketData "AAPL" 170 (17002 / 100))
        (order "CLIENT-ORDER-1" "AAPL" Side_BUY ((50 : Int) : ℚ) OrdType_MARKET none)).1 =
          .ok r ∧
      r.ordStatus = OrdStatus_FILLED ∧ r.cumQty + r.leavesQty = 50) ∧
    (∃ r : ExecutionReport,
      (StrategyEngine.onNewOrderSingle (OrderBook.empty.updateMarketData "AAPL" 170 (17002 / 100))
        (order "CLIENT-ORDER-3" "AAPL" Side_BUY ((30 : Int) : ℚ) OrdType_LIMIT
          (some (16990 / 100)))).1 = .ok r ∧
      r.ordStatus = OrdStatus_REJECTED ∧ r.cumQty + r.leavesQty = 30) := by
  have h1 := fill_all_or_nothing (OrderBook.empty.updateMarketData "AAPL" 170 (17002 / 100))
    "CLIENT-ORDER-1" "AAPL" Side_BUY 50 OrdType_MARKET none (by decide) (by decide)
  have h2 := fill_all_or_nothing (OrderBook.empty.updateMarketData "AAPL" 170 (17002 / 100))
    "CLIENT-ORDER-3" "AAPL" Side_BUY 30 OrdType_LIMIT (some (16990 / 100)) (by decide)
    (by decide)
  rw [scenarioA_report] at h1
  rw [limitAway_report] at h2
  exact ⟨⟨_, scenarioA_report, rfl, h1.2.2⟩, ⟨_, limitAway_report, rfl, h2.2.2⟩⟩

/-! ## Quotes in the arithmetic of `double` -/

theorem roundHalfEven_near (z : ℚ) : |roundHalfEven z - z| ≤ 1 / 2 := by
  unfold roundHalfEven
  rw [abs_le]
  split
  · split
    · constructor <;> linarith
    · push_cast
      constructor <;> linarith
  · have h1 := Int.floor_le (z + 1 / 2)
    have h2 := Int.lt_floor_add_one (z + 1 / 2)
    constructor <;> linarith

theorem roundHalfEven_eq_of_mem (z : ℚ) (n : Int) (h1 : (n : ℚ) - 1 / 2 < z)
    (h2 : z < (n : ℚ) + 1 / 2) : roundHalfEven z = (n : ℚ) := by
  have hf : ⌊z + 1 / 2⌋ = n := by
    rw [Int.floor_eq_iff]
    constructor <;> linarith
  unfold roundHalfEven
  split
  · exfalso
    have h3 := Int.floor_le z
    have h4 := Int.lt_floor_add_one z
    have h5 : ((⌊z⌋ : Int) : ℚ) < (n : ℚ) := by linarith
    have h6 : ((n : Int) : ℚ) < ((⌊z⌋ : Int) : ℚ) + 1 := by linarith
    have h7 : ⌊z⌋ < n := by exact_mod_cast h5
    have h8 : n < ⌊z⌋ + 1 := by exact_mod_cast h6
    omega
  · rw [hf]

theorem roundHalfUp_eq_of_mem (z : ℚ) (n : Int) (h1 : (n : ℚ) - 1 / 2 ≤ z)
    (h2 : z < (n : ℚ) + 1 / 2) : roundHalfUp z = (n : ℚ) := by
  have hf : ⌊z + 1 / 2⌋ = n := by
    rw [Int.floor_eq_iff]
    constructor <;> linarith
  unfold roundHalfUp
  rw [hf]

theorem stdRound_eq_of_mem (z : ℚ) (n : Int) (h1 : (n : ℚ) - 1 / 2 < z)
    (h2 : z < (n : ℚ) + 1 / 2) : stdRound z = (n : ℚ) := by
  unfold stdRound
  split
  · have hf : ⌊z + 1 / 2⌋ = n := by
      rw [Int.floor_eq_iff]
      constructor <;> linarith
    rw [hf]
  · have hc : ⌈z - 1 / 2⌉ = n := by
      rw [Int.ceil_eq_iff]
      constructor <;> linarith
    rw [hc]

theorem toDouble_zero : toDouble 0 = 0 := by
  unfold toDouble
  rw [zero_div]
  have h : roundHalfEven 0 = ((0 : Int) : ℚ) :=
    roundHalfEven_eq_of_mem 0 0 (by norm_num) (by norm_num)
  rw [h]
  simp

theorem log_le_of_abs_le (x : ℚ) (k : Int) (hx0 : x ≠ 0) (hx : |x| ≤ 2 ^ k) :
    Int.log 2 |x| ≤ k := by
  have hpos : 0 < |x| := abs_pos.mpr hx0
  have h : |x| < ((2 : ℕ) : ℚ) ^ (k + 1) := by
    have : (2 : ℚ) ^ k < 2 ^ (k + 1) := zpow_lt_zpow_right₀ (by norm_num) (by omega)
    push_cast
    linarith
  have := (Int.lt_zpow_iff_log_lt (by norm_num : 1 < 2) hpos).mp h
  omega

/-- The rounding error of one operation on doubles whose exact result is at most
`2 ^ k` in size: half the spacing of the doubles below `2 ^ k`. -/
theorem toDouble_err (x : ℚ) (k : Int) (hk : -1022 ≤ k) (hx : |x| ≤ 2 ^ k) :
    |toDouble x - x| ≤ 2 ^ (k - 53) := by
  by_cases hx0 : x = 0
  · rw [hx0, toDouble_zero]
    simp only [sub_zero, abs_zero]
    positivity
  · have he : max (Int.log 2 |x|) (-1022) ≤ k := max_le (log_le_of_abs_le x k hx0 hx) hk
    unfold toDouble
    generalize max (Int.log 2 |x|) (-1022) = e at he
    have hu : (0 : ℚ) < 2 ^ (e - 52) := by positivity
    have hn := roundHalfEven_near (x / 2 ^ (e - 52))
    have e1 : roundHalfEven (x / 2 ^ (e - 52)) * 2 ^ (e - 52) - x =
        (roundHalfEven (x / 2 ^ (e - 52)) - x / 2 ^ (e - 52)) * 2 ^ (e - 52) := by
      field_simp
    rw [e1, abs_mul, abs_of_pos hu]
    have h2 : (1 / 2 : ℚ) * 2 ^ (e - 52) = 2 ^ (e - 53) := by
      have : e - 52 = (e - 53) + 1 := by ring
      rw [this, zpow_add₀ (by norm_num : (2 : ℚ) ≠ 0)]
      simp
      ring
    calc |roundHalfEven (x / 2 ^ (e - 52)) - x / 2 ^ (e - 52)| * 2 ^ (e - 52)
        ≤ 1 / 2 * 2 ^ (e - 52) := by
          apply mul_le_mul_of_nonneg_right hn hu.le
      _ = 2 ^ (e - 53) := h2
      _ ≤ 2 ^ (k - 53) := zpow_le_zpow_right₀ (by norm_num) (by omega)

/-- The tie of `roundHalfEven`: a half goes to the even neighbour. -/
theorem roundHalfEven_of_tie (z : ℚ) (n : Int) (hn : n % 2 = 0)
    (h : z = (n : ℚ) - 1 / 2 ∨ z = (n : ℚ) + 1 / 2) : roundHalfEven z = (n : ℚ) := by
  rcases h with h | h
  · have hf : ⌊z⌋ = n - 1 := by
      rw [Int.floor_eq_iff, h]
      push_cast
      constructor <;> linarith
    unfold roundHalfEven
    rw [hf, if_pos (by rw [h]; push_cast; ring), if_neg (by omega)]
    push_cast
    ring
  · have hf : ⌊z⌋ = n := by
      rw [Int.floor_eq_iff, h]
      constructor <;> linarith
    unfold roundHalfEven
    rw [hf, if_pos (by rw [h]; ring), if_pos hn]

theorem stdRound_of_nonneg_mem (z : ℚ) (n : Int) (h0 : 0 ≤ z) (h1 : (n : ℚ) - 1 / 2 ≤ z)
    (h2 : z < (n : ℚ) + 1 / 2) : stdRound z = (n : ℚ) := by
  have hf : ⌊z + 1 / 2⌋ = n := by
    rw [Int.floor_eq_iff]
    constructor <;> linarith
  unfold stdRound
  rw [if_pos h0, hf]

theorem stdRound_of_neg_mem (z : ℚ) (n : Int) (h0 : z < 0) (h1 : (n : ℚ) - 1 / 2 < z)
    (h2 : z ≤ (n : ℚ) + 1 / 2) : stdRound z = (n : ℚ) := by
  have hc : ⌈z - 1 / 2⌉ = n := by
    rw [Int.ceil_eq_iff]
    constructor <;> linarith
  unfold stdRound
  rw [if_neg (not_le.mpr h0), hc]

/-- The value of `toDouble` at a number of the binade `e` whose significand rounds to
`n`. -/
theorem toDouble_eq_round (x y : ℚ) (e n : Int) (he : -1022 ≤ e)
    (hlo : 2 ^ e ≤ x ∧ x < 2 ^ (e + 1) ∨ 2 ^ e ≤ -x ∧ -x < 2 ^ (e + 1))
    (hr : roundHalfEven (x / 2 ^ (e - 52)) = (n : ℚ)) (hy : y = (n : ℚ) * 2 ^ (e - 52)) :
    toDouble x = y := by
  have habs : 2 ^ e ≤ |x| ∧ |x| < 2 ^ (e + 1) := by
    rcases hlo with ⟨h1, h2⟩ | ⟨h1, h2⟩
    · have hpos : 0 < x := lt_of_lt_of_le (by positivity) h1
      rw [abs_of_pos hpos]
      exact ⟨h1, h2⟩
    · have hpos : 0 < -x := lt_of_lt_of_le (by positivity) h1
      rw [abs_of_neg (by linarith)]
      exact ⟨h1, h2⟩
  have hpos : 0 < |x| := lt_of_lt_of_le (by positivity) habs.1
  have hlog : Int.log 2 |x| = e := by
    have a := (Int.zpow_le_iff_le_log (by norm_num : 1 < 2) hpos).mp
      (by push_cast; exact habs.1 : ((2 : ℕ) : ℚ) ^ e ≤ |x|)
    have b := (Int.lt_zpow_iff_log_lt (by norm_num : 1 < 2) hpos).mp
      (by push_cast; exact habs.2 : |x| < ((2 : ℕ) : ℚ) ^ (e + 1))
    omega
  unfold toDouble
  rw [hlog, max_eq_left he, hr, hy]

/-- The double `spread / 2.0` of `manageQuotes`: the double nearest to 0.04, halved. -/
theorem halfSpread_eq :
    toDouble (toDouble (4 / 100) / 2) = (5764607523034235 / 288230376151711744) := by
  have h : toDouble (4 / 100) = (5764607523034235 / 144115188075855872) :=
    toDouble_eq_round _ _ (-5) 5764607523034235 (by norm_num) (Or.inl (by norm_num))
      (roundHalfEven_eq_of_mem _ _ (by norm_num) (by norm_num)) (by norm_num)
  rw [h]
  exact toDouble_eq_round _ _ (-6) 5764607523034235 (by norm_num) (Or.inl (by norm_num))
    (roundHalfEven_eq_of_mem _ _ (by norm_num) (by norm_num)) (by norm_num)

theorem halfSpread_close : |toDouble (toDouble (4 / 100) / 2) - 1 / 50| ≤ 1 / 2 ^ 59 := by
  rw [halfSpread_eq]
  norm_num [abs_le]

/-- The price in cents that the code hands to `std::round`, for the mid `m` and the
double `c` that stands for the exact offset `c0`: two rounded operations away from the
exact `(m + c0) * 100`. -/
theorem cents_close (m c c0 : ℚ) (hm : |m| ≤ 1000000000) (hc0 : |c0| ≤ 1)
    (hc : |c - c0| ≤ 1 / 2 ^ 59) :
    |toDouble (toDouble (m + c) * 100) - (m + c0) * 100| ≤ 1 / 20000 := by
  rw [abs_le] at hm hc0 hc
  have hx1 : |m + c| ≤ 2 ^ (30 : Int) := by
    rw [abs_le]
    norm_num
    constructor <;> linarith [hm.1, hm.2, hc0.1, hc0.2, hc.1, hc.2]
  have e1 := toDouble_err (m + c) 30 (by norm_num) hx1
  rw [abs_le] at e1 hx1
  norm_num at e1 hx1
  have hx2 : |toDouble (m + c) * 100| ≤ 2 ^ (37 : Int) := by
    rw [abs_le]
    norm_num
    constructor <;> linarith [e1.1, e1.2, hx1.1, hx1.2]
  have e2 := toDouble_err (toDouble (m + c) * 100) 37 (by norm_num) hx2
  rw [abs_le] at e2
  norm_num at e2
  rw [abs_le]
  norm_num at hc
  constructor <;> linarith [e1.1, e1.2, e2.1, e2.2, hc.1, hc.2]

/-- A whole number of cents survives the division by `100.0` and the print at two
decimals. -/
theorem print_cents (n : Int) (hn : |(n : ℚ)| ≤ 200000000000) :
    fixedTwo (toDouble ((n : ℚ) / 100)) = (n : ℚ) / 100 := by
  rw [abs_le] at hn
  have hx : |(n : ℚ) / 100| ≤ 2 ^ (31 : Int) := by
    rw [abs_le]
    norm_num
    constructor <;> linarith [hn.1, hn.2]
  have e := toDouble_err ((n : ℚ) / 100) 31 (by norm_num) hx
  rw [abs_le] at e
  norm_num at e
  unfold fixedTwo atTwoDecimals
  rw [roundHalfEven_eq_of_mem _ n (by linarith [e.1]) (by linarith [e.2])]

theorem read_updateDouble_same (ob : OrderBook) (s : String) (bid ask : ℚ) :
    (ob.updateMarketDataDouble s bid ask).read s =
      { bid := toDouble bid, ask := toDouble ask,
        mid := if toDouble bid > 0 ∧ toDouble ask > 0 then
          toDouble (toDouble (toDouble bid + toDouble ask) / 2) else 0 } := by
  simp only [OrderBook.read, OrderBook.getMarketData, OrderBook.updateMarketDataDouble,
    find_assign_same]
  split <;> rfl

theorem manageQuotesDouble_quote (ob : OrderBook) (draw : Int)
    (h : (ob.read "AAPL").mid ≠ 0) :
    (StrategyEngine.manageQuotesDouble ob draw).1 =
      [{ symbol := "AAPL",
         bidPrice := fixedTwo (toDouble (stdRound (toDouble (toDouble
           ((ob.read "AAPL").mid - toDouble (toDouble (4 / 100) / 2)) * 100)) / 100)),
         askPrice := fixedTwo (toDouble (stdRound (toDouble (toDouble
           ((ob.read "AAPL").mid + toDouble (toDouble (4 / 100) / 2)) * 100)) / 100)),
         size := draw }] := by
  simp only [OrderBook.read] at h
  simp only [StrategyEngine.manageQuotesDouble, OrderBook.getMidPrice, if_neg h, OrderBook.read]

/-- One side of the quote, always: the price emitted is a whole number of cents, the one
that `std::round` gives, and it is within half a cent and the rounding errors of the
exact price `m + c0`. -/
theorem side_cents (m c c0 : ℚ) (hm : |m| ≤ 1000000000) (hc0 : |c0| ≤ 1)
    (hc : |c - c0| ≤ 1 / 2 ^ 59) :
    ∃ n : Int, stdRound (toDouble (toDouble (m + c) * 100)) = (n : ℚ) ∧
      |(n : ℚ) - (m + c0) * 100| ≤ 1 / 2 + 1 / 20000 ∧
      fixedTwo (toDouble (stdRound (toDouble (toDouble (m + c) * 100)) / 100)) =
        (n : ℚ) / 100 := by
  obtain ⟨n, hn⟩ := stdRound_isInt (toDouble (toDouble (m + c) * 100))
  have hnear := stdRound_near (toDouble (toDouble (m + c) * 100))
  have hclose := cents_close m c c0 hm hc0 hc
  rw [hn] at hnear
  rw [abs_le] at hnear hclose hm hc0
  have hb : |(n : ℚ) - (m + c0) * 100| ≤ 1 / 2 + 1 / 20000 := by
    rw [abs_le]
    constructor <;> linarith [hnear.1, hnear.2, hclose.1, hclose.2]
  refine ⟨n, hn, hb, ?_⟩
  rw [hn]
  apply print_cents
  rw [abs_le] at hb ⊢
  constructor <;> linarith [hb.1, hb.2, hm.1, hm.2, hc0.1, hc0.2]

/-- The three roundings agree on a number that is not a half-integer. -/
theorem rounds_agree (y : ℚ) (hoff : ∀ k : Int, y ≠ (k : ℚ) + 1 / 2) :
    roundHalfEven y = stdRound y ∧ roundHalfUp y = stdRound y := by
  obtain ⟨n, hn⟩ := stdRound_isInt y
  have hnear := stdRound_near y
  rw [hn, abs_le] at hnear
  have h1 : (n : ℚ) - 1 / 2 < y := by
    rcases lt_or_eq_of_le (by linarith [hnear.2] : (n : ℚ) - 1 / 2 ≤ y) with h | h
    · exact h
    · exact absurd (by rw [← h]; push_cast; ring : y = ((n - 1 : Int) : ℚ) + 1 / 2)
        (hoff (n - 1))
  have h2 : y < (n : ℚ) + 1 / 2 := by
    rcases lt_or_eq_of_le (by linarith [hnear.1] : y ≤ (n : ℚ) + 1 / 2) with h | h
    · exact h
    · exact absurd h (hoff n)
  rw [hn]
  exact ⟨roundHalfEven_eq_of_mem y n h1 h2, roundHalfUp_eq_of_mem y n h1.le h2⟩

/-- One side of the quote, away from the half-cents: when the exact price in cents is at
least a thousandth of a cent away from every half-integer, the rounding errors of the
double operations do not reach `std::round`, and the cents emitted are those of the
exact price, on which the three roundings agree. -/
theorem side_off_tie (m c c0 : ℚ) (hm : |m| ≤ 1000000000) (hc0 : |c0| ≤ 1)
    (hc : |c - c0| ≤ 1 / 2 ^ 59)
    (hoff : ∀ k : Int, 1 / 1000 ≤ |(m + c0) * 100 - ((k : ℚ) + 1 / 2)|) :
    stdRound (toDouble (toDouble (m + c) * 100)) = stdRound ((m + c0) * 100) ∧
      roundHalfEven ((m + c0) * 100) = stdRound ((m + c0) * 100) ∧
      roundHalfUp ((m + c0) * 100) = stdRound ((m + c0) * 100) := by
  obtain ⟨n, hn⟩ := stdRound_isInt ((m + c0) * 100)
  have hnear := stdRound_near ((m + c0) * 100)
  have hclose := cents_close m c c0 hm hc0 hc
  rw [hn, abs_le] at hnear
  rw [abs_le] at hclose
  have hk1 := hoff n
  have hk2 := hoff (n - 1)
  rw [le_abs] at hk1 hk2
  push_cast at hk2
  have h1 : (n : ℚ) - 1 / 2 + 1 / 1000 ≤ (m + c0) * 100 := by
    rcases hk2 with h | h
    · linarith
    · linarith [hnear.2]
  have h2 : (m + c0) * 100 ≤ (n : ℚ) + 1 / 2 - 1 / 1000 := by
    rcases hk1 with h | h
    · linarith [hnear.1]
    · linarith
  have hne : ∀ k : Int, (m + c0) * 100 ≠ (k : ℚ) + 1 / 2 := by
    intro k hk
    have := hoff k
    rw [hk, sub_self, abs_zero] at this
    norm_num at this
  refine ⟨?_, rounds_agree _ hne⟩
  rw [hn]
  exact stdRound_eq_of_mem _ n (by linarith [hclose.1]) (by linarith [hclose.2])

theorem off_tie_of_mem (y : ℚ) (n : Int) (h1 : (n : ℚ) - 1 / 2 + 1 / 1000 ≤ y)
    (h2 : y ≤ (n : ℚ) + 1 / 2 - 1 / 1000) :
    ∀ k : Int, 1 / 1000 ≤ |y - ((k : ℚ) + 1 / 2)| := by
  intro k
  rw [le_abs]
  rcases le_or_lt n k with h | h
  · right
    have : (n : ℚ) ≤ (k : ℚ) := by exact_mod_cast h
    linarith
  · left
    have : (k : ℚ) + 1 ≤ (n : ℚ) := by exact_mod_cast h
    linarith


/-- The record that `update("AAPL", 169.01, 169.02)` stores in the arithmetic of `double`. -/
theorem widthBook_read :
    (OrderBook.empty.updateMarketDataDouble "AAPL" (16901 / 100) (16902 / 100)).read "AAPL" =
      { bid := (743313840841687 / 4398046511104), ask := (5946862570454385 / 35184372088832),
        mid := (1486671662148485 / 8796093022208) } := by
  have hB : toDouble (16901 / 100) = (743313840841687 / 4398046511104) :=
    toDouble_eq_round _ _ (7) (5946510726733496) (by norm_num) (Or.inl (by norm_num))
      (roundHalfEven_eq_of_mem _ _ (by norm_num) (by norm_num)) (by norm_num)
  have hA : toDouble (16902 / 100) = (5946862570454385 / 35184372088832) :=
    toDouble_eq_round _ _ (7) (5946862570454385) (by norm_num) (Or.inl (by norm_num))
      (roundHalfEven_eq_of_mem _ _ (by norm_num) (by norm_num)) (by norm_num)
  have hS : toDouble ((743313840841687 / 4398046511104) + (5946862570454385 / 35184372088832)) = (1486671662148485 / 4398046511104) :=
    toDouble_eq_round _ _ (8) (5946686648593940) (by norm_num) (Or.inl (by norm_num))
      (roundHalfEven_of_tie _ (5946686648593940) (by decide) (Or.inr (by norm_num))) (by norm_num)
  have hM : toDouble ((1486671662148485 / 4398046511104) / 2) = (1486671662148485 / 8796093022208) :=
    toDouble_eq_round _ _ (7) (5946686648593940) (by norm_num) (Or.inl (by norm_num))
      (roundHalfEven_eq_of_mem _ _ (by norm_num) (by norm_num)) (by norm_num)
  rw [read_updateDouble_same, hB, hA, if_pos (by norm_num), hS, hM]

/-- The quote of a cycle after `update("AAPL", 169.01, 169.02)` in the arithmetic of `double`. -/
theorem widthBook_quote :
    (StrategyEngine.manageQuotesDouble (OrderBook.empty.updateMarketDataDouble "AAPL" (16901 / 100) (16902 / 100)) 300).1 =
      [{ symbol := "AAPL", bidPrice := (16899 / 100), askPrice := (16904 / 100), size := 300 }] := by
  have hXb : toDouble ((1486671662148485 / 8796093022208) - (5764607523034235 / 288230376151711744)) = (5945982961152163 / 35184372088832) :=
    toDouble_eq_round _ _ (7) (5945982961152163) (by norm_num) (Or.inl (by norm_num))
      (roundHalfEven_eq_of_mem _ _ (by norm_num) (by norm_num)) (by norm_num)
  have hYb : toDouble ((5945982961152163 / 35184372088832) * 100) = (4645299188400127 / 274877906944) :=
    toDouble_eq_round _ _ (14) (4645299188400127) (by norm_num) (Or.inl (by norm_num))
      (roundHalfEven_eq_of_mem _ _ (by norm_num) (by norm_num)) (by norm_num)
  have hXa : toDouble ((1486671662148485 / 8796093022208) + (5764607523034235 / 288230376151711744)) = (5947390336035717 / 35184372088832) :=
    toDouble_eq_round _ _ (7) (5947390336035717) (by norm_num) (Or.inl (by norm_num))
      (roundHalfEven_eq_of_mem _ _ (by norm_num) (by norm_num)) (by norm_num)
  have hYa : toDouble ((5947390336035717 / 35184372088832) * 100) = (33807 / 2) :=
    toDouble_eq_round _ _ (14) (4646398700027904) (by norm_num) (Or.inl (by norm_num))
      (roundHalfEven_eq_of_mem _ _ (by norm_num) (by norm_num)) (by norm_num)
  have hnb : stdRound (4645299188400127 / 274877906944) = ((16899 : Int) : ℚ) :=
    stdRound_of_nonneg_mem _ (16899) (by norm_num) (by norm_num) (by norm_num)
  have hna : stdRound (33807 / 2) = ((16904 : Int) : ℚ) :=
    stdRound_of_nonneg_mem _ (16904) (by norm_num) (by norm_num) (by norm_num)
  have hne : ((OrderBook.empty.updateMarketDataDouble "AAPL" (16901 / 100) (16902 / 100)).read "AAPL").mid ≠ 0 := by
    rw [widthBook_read]
    norm_num
  rw [manageQuotesDouble_quote _ 300 hne, widthBook_read]
  simp only []
  rw [halfSpread_eq, hXb, hYb, hXa, hYa, hnb, hna,
    print_cents (16899) (by norm_num [abs_le]), print_cents (16904) (by norm_num [abs_le])]
  norm_num

/-- The record that `update("AAPL", 170.00, 170.01)` stores in the arithmetic of `double`. -/
theorem halfCentBook_read :
    (OrderBook.empty.updateMarketDataDouble "AAPL" 170 (17001 / 100)).read "AAPL" =
      { bid := 170, ask := (747711887352791 / 4398046511104),
        mid := (1495379794240471 / 8796093022208) } := by
  have hB : toDouble 170 = 170 :=
    toDouble_eq_round _ _ (7) (5981343255101440) (by norm_num) (Or.inl (by norm_num))
      (roundHalfEven_eq_of_mem _ _ (by norm_num) (by norm_num)) (by norm_num)
  have hA : toDouble (17001 / 100) = (747711887352791 / 4398046511104) :=
    toDouble_eq_round _ _ (7) (5981695098822328) (by norm_num) (Or.inl (by norm_num))
      (roundHalfEven_eq_of_mem _ _ (by norm_num) (by norm_num)) (by norm_num)
  have hS : toDouble (170 + (747711887352791 / 4398046511104)) = (1495379794240471 / 4398046511104) :=
    toDouble_eq_round _ _ (8) (5981519176961884) (by norm_num) (Or.inl (by norm_num))
      (roundHalfEven_eq_of_mem _ _ (by norm_num) (by norm_num)) (by norm_num)
  have hM : toDouble ((1495379794240471 / 4398046511104) / 2) = (1495379794240471 / 8796093022208) :=
    toDouble_eq_round _ _ (7) (5981519176961884) (by norm_num) (Or.inl (by norm_num))
      (roundHalfEven_eq_of_mem _ _ (by norm_num) (by norm_num)) (by norm_num)
  rw [read_updateDouble_same, hB, hA, if_pos (by norm_num), hS, hM]

/-- The quote of a cycle after `update("AAPL", 170.00, 170.01)` in the arithmetic of `double`. -/
theorem halfCentBook_quote :
    (StrategyEngine.manageQuotesDouble (OrderBook.empty.updateMarketDataDouble "AAPL" 170 (17001 / 100)) 300).1 =
      [{ symbol := "AAPL", bidPrice := (16999 / 100), askPrice := (17003 / 100), size := 300 }] := by
  have hXb : toDouble ((1495379794240471 / 8796093022208) - (5764607523034235 / 288230376151711744)) = (5980815489520107 / 35184372088832) :=
    toDouble_eq_round _ _ (7) (5980815489520107) (by norm_num) (Or.inl (by norm_num))
      (roundHalfEven_eq_of_mem _ _ (by norm_num) (by norm_num)) (by norm_num)
  have hYb : toDouble ((5980815489520107 / 35184372088832) * 100) = (33997 / 2) :=
    toDouble_eq_round _ _ (14) (4672512101187584) (by norm_num) (Or.inl (by norm_num))
      (roundHalfEven_eq_of_mem _ _ (by norm_num) (by norm_num)) (by norm_num)
  have hXa : toDouble ((1495379794240471 / 8796093022208) + (5764607523034235 / 288230376151711744)) = (5982222864403661 / 35184372088832) :=
    toDouble_eq_round _ _ (7) (5982222864403661) (by norm_num) (Or.inl (by norm_num))
      (roundHalfEven_eq_of_mem _ _ (by norm_num) (by norm_num)) (by norm_num)
  have hYa : toDouble ((5982222864403661 / 35184372088832) * 100) = (34005 / 2) :=
    toDouble_eq_round _ _ (14) (4673611612815360) (by norm_num) (Or.inl (by norm_num))
      (roundHalfEven_eq_of_mem _ _ (by norm_num) (by norm_num)) (by norm_num)
  have hnb : stdRound (33997 / 2) = ((16999 : Int) : ℚ) :=
    stdRound_of_nonneg_mem _ (16999) (by norm_num) (by norm_num) (by norm_num)
  have hna : stdRound (34005 / 2) = ((17003 : Int) : ℚ) :=
    stdRound_of_nonneg_mem _ (17003) (by norm_num) (by norm_num) (by norm_num)
  have hne : ((OrderBook.empty.updateMarketDataDouble "AAPL" 170 (17001 / 100)).read "AAPL").mid ≠ 0 := by
    rw [halfCentBook_read]
    norm_num
  rw [manageQuotesDouble_quote _ 300 hne, halfCentBook_read]
  simp only []
  rw [halfSpread_eq, hXb, hYb, hXa, hYa, hnb, hna,
    print_cents (16999) (by norm_num [abs_le]), print_cents (17003) (by norm_num [abs_le])]
  norm_num

/-- The record that `update("AAPL", 0.004, 0.006)` stores in the arithmetic of `double`. -/
theorem smallBook_read :
    (OrderBook.empty.updateMarketDataDouble "AAPL" (4 / 1000) (6 / 1000)).read "AAPL" =
      { bid := (1152921504606847 / 288230376151711744), ask := (3458764513820541 / 576460752303423488),
        mid := (5764607523034235 / 1152921504606846976) } := by
  have hB : toDouble (4 / 1000) = (1152921504606847 / 288230376151711744) :=
    toDouble_eq_round _ _ (-8) (4611686018427388) (by norm_num) (Or.inl (by norm_num))
      (roundHalfEven_eq_of_mem _ _ (by norm_num) (by norm_num)) (by norm_num)
  have hA : toDouble (6 / 1000) = (3458764513820541 / 576460752303423488) :=
    toDouble_eq_round _ _ (-8) (6917529027641082) (by norm_num) (Or.inl (by norm_num))
      (roundHalfEven_eq_of_mem _ _ (by norm_num) (by norm_num)) (by norm_num)
  have hS : toDouble ((1152921504606847 / 288230376151711744) + (3458764513820541 / 576460752303423488)) = (5764607523034235 / 576460752303423488) :=
    toDouble_eq_round _ _ (-7) (5764607523034235) (by norm_num) (Or.inl (by norm_num))
      (roundHalfEven_eq_of_mem _ _ (by norm_num) (by norm_num)) (by norm_num)
  have hM : toDouble ((5764607523034235 / 576460752303423488) / 2) = (5764607523034235 / 1152921504606846976) :=
    toDouble_eq_round _ _ (-8) (5764607523034235) (by norm_num) (Or.inl (by norm_num))
      (roundHalfEven_eq_of_mem _ _ (by norm_num) (by norm_num)) (by norm_num)
  rw [read_updateDouble_same, hB, hA, if_pos (by norm_num), hS, hM]

/-- The quote of a cycle after `update("AAPL", 0.004, 0.006)` in the arithmetic of `double`. -/
theorem smallBook_quote :
    (StrategyEngine.manageQuotesDouble (OrderBook.empty.updateMarketDataDouble "AAPL" (4 / 1000) (6 / 1000)) 300).1 =
      [{ symbol := "AAPL", bidPrice := (-2 / 100), askPrice := (3 / 100), size := 300 }] := by
  have hXb : toDouble ((5764607523034235 / 1152921504606846976) - (5764607523034235 / 288230376151711744)) = (-1080863910568919 / 72057594037927936) :=
    toDouble_eq_round _ _ (-7) (-8646911284551352) (by norm_num) (Or.inr (by norm_num))
      (roundHalfEven_of_tie _ (-8646911284551352) (by decide) (Or.inl (by norm_num))) (by norm_num)
  have hYb : toDouble ((-1080863910568919 / 72057594037927936) * 100) = (-3 / 2) :=
    toDouble_eq_round _ _ (0) (-6755399441055744) (by norm_num) (Or.inr (by norm_num))
      (roundHalfEven_eq_of_mem _ _ (by norm_num) (by norm_num)) (by norm_num)
  have hXa : toDouble ((5764607523034235 / 1152921504606846976) + (5764607523034235 / 288230376151711744)) = (3602879701896397 / 144115188075855872) :=
    toDouble_eq_round _ _ (-6) (7205759403792794) (by norm_num) (Or.inl (by norm_num))
      (roundHalfEven_eq_of_mem _ _ (by norm_num) (by norm_num)) (by norm_num)
  have hYa : toDouble ((3602879701896397 / 144115188075855872) * 100) = (5 / 2) :=
    toDouble_eq_round _ _ (1) (5629499534213120) (by norm_num) (Or.inl (by norm_num))
      (roundHalfEven_eq_of_mem _ _ (by norm_num) (by norm_num)) (by norm_num)
  have hnb : stdRound (-3 / 2) = ((-2 : Int) : ℚ) :=
    stdRound_of_neg_mem _ (-2) (by norm_num) (by norm_num) (by norm_num)
  have hna : stdRound (5 / 2) = ((3 : Int) : ℚ) :=
    stdRound_of_nonneg_mem _ (3) (by norm_num) (by norm_num) (by norm_num)
  have hne : ((OrderBook.empty.updateMarketDataDouble "AAPL" (4 / 1000) (6 / 1000)).read "AAPL").mid ≠ 0 := by
    rw [smallBook_read]
    norm_num
  rw [manageQuotesDouble_quote _ 300 hne, smallBook_read]
  simp only []
  rw [halfSpread_eq, hXb, hYb, hXa, hYa, hnb, hna,
    print_cents (-2) (by norm_num [abs_le]), print_cents (3) (by norm_num [abs_le])]
  norm_num

/-- The record that `update("AAPL", 170.00, 170.02)` stores in the arithmetic of `double`. -/
theorem scenarioD_read :
    (OrderBook.empty.updateMarketDataDouble "AAPL" 170 (17002 / 100)).read "AAPL" =
      { bid := 170, ask := (5982046942543217 / 35184372088832),
        mid := (747711887352791 / 4398046511104) } := by
  have hB : toDouble 170 = 170 :=
    toDouble_eq_round _ _ (7) (5981343255101440) (by norm_num) (Or.inl (by norm_num))
      (roundHalfEven_eq_of_mem _ _ (by norm_num) (by norm_num)) (by norm_num)
  have hA : toDouble (17002 / 100) = (5982046942543217 / 35184372088832) :=
    toDouble_eq_round _ _ (7) (5982046942543217) (by norm_num) (Or.inl (by norm_num))
      (roundHalfEven_eq_of_mem _ _ (by norm_num) (by norm_num)) (by norm_num)
  have hS : toDouble (170 + (5982046942543217 / 35184372088832)) = (747711887352791 / 2199023255552) :=
    toDouble_eq_round _ _ (8) (5981695098822328) (by norm_num) (Or.inl (by norm_num))
      (roundHalfEven_of_tie _ (5981695098822328) (by decide) (Or.inr (by norm_num))) (by norm_num)
  have hM : toDouble ((747711887352791 / 2199023255552) / 2) = (747711887352791 / 4398046511104) :=
    toDouble_eq_round _ _ (7) (5981695098822328) (by norm_num) (Or.inl (by norm_num))
      (roundHalfEven_eq_of_mem _ _ (by norm_num) (by norm_num)) (by norm_num)
  rw [read_updateDouble_same, hB, hA, if_pos (by norm_num), hS, hM]

/-- The bid side of a cycle in the arithmetic of `double`, for a mid of size at most
1000000000: the cents emitted, how far they are from the exact `mid - 0.02`, and what
they are when that price is away from the half-cents. -/
theorem bid_side (m : ℚ) (hm : |m| ≤ 1000000000) :
    ∃ n : Int,
      fixedTwo (toDouble (stdRound (toDouble (toDouble
        (m - toDouble (toDouble (4 / 100) / 2)) * 100)) / 100)) = (n : ℚ) / 100 ∧
      |(n : ℚ) - (m - 2 / 100) * 100| ≤ 1 / 2 + 1 / 20000 ∧
      ((∀ k : Int, 1 / 1000 ≤ |(m - 2 / 100) * 100 - ((k : ℚ) + 1 / 2)|) →
        (n : ℚ) = stdRound ((m - 2 / 100) * 100) ∧
        (n : ℚ) = roundHalfEven ((m - 2 / 100) * 100) ∧
        (n : ℚ) = roundHalfUp ((m - 2 / 100) * 100)) := by
  have hc : |(-toDouble (toDouble (4 / 100) / 2)) - (-(1 / 50))| ≤ 1 / 2 ^ 59 := by
    have h := halfSpread_close
    rw [abs_sub_comm] at h
    have e : -toDouble (toDouble (4 / 100) / 2) - -(1 / 50) =
        1 / 50 - toDouble (toDouble (4 / 100) / 2) := by ring
    rw [e]
    exact h
  have hc0 : |(-(1 / 50) : ℚ)| ≤ 1 := by norm_num [abs_le]
  have e0 : m + -(1 / 50) = m - 2 / 100 := by ring
  obtain ⟨n, hn, hb, hp⟩ := side_cents m _ _ hm hc0 hc
  rw [← sub_eq_add_neg m (toDouble (toDouble (4 / 100) / 2))] at hn hp
  rw [e0] at hb
  refine ⟨n, hp, hb, ?_⟩
  intro hoff
  have h := side_off_tie m _ _ hm hc0 hc (by rw [e0]; exact hoff)
  rw [← sub_eq_add_neg m (toDouble (toDouble (4 / 100) / 2)), e0, hn] at h
  exact ⟨h.1, by rw [h.2.1, h.1], by rw [h.2.2, h.1]⟩

/-- The ask side of a cycle in the arithmetic of `double`, as `bid_side`. -/
theorem ask_side (m : ℚ) (hm : |m| ≤ 1000000000) :
    ∃ n : Int,
      fixedTwo (toDouble (stdRound (toDouble (toDouble
        (m + toDouble (toDouble (4 / 100) / 2)) * 100)) / 100)) = (n : ℚ) / 100 ∧
      |(n : ℚ) - (m + 2 / 100) * 100| ≤ 1 / 2 + 1 / 20000 ∧
      ((∀ k : Int, 1 / 1000 ≤ |(m + 2 / 100) * 100 - ((k : ℚ) + 1 / 2)|) →
        (n : ℚ) = stdRound ((m + 2 / 100) * 100) ∧
        (n : ℚ) = roundHalfEven ((m + 2 / 100) * 100) ∧
        (n : ℚ) = roundHalfUp ((m + 2 / 100) * 100)) := by
  have hc : |toDouble (toDouble (4 / 100) / 2) - 1 / 50| ≤ 1 / 2 ^ 59 := halfSpread_close
  have hc0 : |(1 / 50 : ℚ)| ≤ 1 := by norm_num [abs_le]
  have e0 : m + 1 / 50 = m + 2 / 100 := by ring
  obtain ⟨n, hn, hb, hp⟩ := side_cents m _ _ hm hc0 hc
  rw [e0] at hb
  refine ⟨n, hp, hb, ?_⟩
  intro hoff
  have h := side_off_tie m _ _ hm hc0 hc (by rw [e0]; exact hoff)
  rw [e0, hn] at h
  exact ⟨h.1, by rw [h.2.1, h.1], by rw [h.2.2, h.1]⟩

/-- C16, as the claim states it, fails for both rules. After `update("AAPL", 170.00,
170.01)` the bid price emitted is 169.99, where round-half-to-even gives 169.98 for the
mid 170.005; after `update("AAPL", 0.004, 0.006)` the bid price emitted is -0.02, where
round-half-up gives -0.01 for the mid 0.005. With the mid taken as the double that the
book holds, a little off 170.005 and 0.005, both rules give 169.98 and both give
-0.01. -/
theorem rounding_rule_counterexample :
    (∃ q : DesiredQuote,
      (StrategyEngine.manageQuotesDouble
        (OrderBook.empty.updateMarketDataDouble "AAPL" 170 (17001 / 100)) 300).1 = [q] ∧
      q.bidPrice = 16999 / 100 ∧
      atTwoDecimals roundHalfEven ((170 + 17001 / 100) / 2 - 2 / 100) = 16998 / 100 ∧
      atTwoDecimals roundHalfEven
        (((OrderBook.empty.updateMarketDataDouble "AAPL" 170 (17001 / 100)).read "AAPL").mid -
          2 / 100) = 16998 / 100 ∧
      atTwoDecimals roundHalfUp
        (((OrderBook.empty.updateMarketDataDouble "AAPL" 170 (17001 / 100)).read "AAPL").mid -
          2 / 100) = 16998 / 100 ∧
      q.bidPrice ≠ 16998 / 100) ∧
    (∃ q : DesiredQuote,
      (StrategyEngine.manageQuotesDouble
        (OrderBook.empty.updateMarketDataDouble "AAPL" (4 / 1000) (6 / 1000)) 300).1 = [q] ∧
      q.bidPrice = -2 / 100 ∧
      atTwoDecimals roundHalfUp ((4 / 1000 + 6 / 1000) / 2 - 2 / 100) = -1 / 100 ∧
      atTwoDecimals roundHalfUp
        (((OrderBook.empty.updateMarketDataDouble "AAPL" (4 / 1000) (6 / 1000)).read
          "AAPL").mid - 2 / 100) = -1 / 100 ∧
      atTwoDecimals roundHalfEven
        (((OrderBook.empty.updateMarketDataDouble "AAPL" (4 / 1000) (6 / 1000)).read
          "AAPL").mid - 2 / 100) = -1 / 100 ∧
      q.bidPrice ≠ -1 / 100) := by
  have e1 : atTwoDecimals roundHalfEven ((170 + 17001 / 100) / 2 - 2 / 100) = 16998 / 100 := by
    have e : ((170 + 17001 / 100) / 2 - 2 / 100 : ℚ) * 100 = 33997 / 2 := by norm_num
    unfold atTwoDecimals
    rw [e, roundHalfEven_tie]
  have e2 : atTwoDecimals roundHalfUp ((4 / 1000 + 6 / 1000) / 2 - 2 / 100) = -1 / 100 := by
    have e : ((4 / 1000 + 6 / 1000) / 2 - 2 / 100 : ℚ) * 100 = -3 / 2 := by norm_num
    unfold atTwoDecimals
    rw [e, roundHalfUp_tie]
  constructor
  · refine ⟨_, halfCentBook_quote, by norm_num, e1, ?_, ?_, by norm_num⟩
    · rw [halfCentBook_read]
      unfold atTwoDecimals
      rw [roundHalfEven_eq_of_mem _ 16998 (by norm_num) (by norm_num)]
      norm_num
    · rw [halfCentBook_read]
      unfold atTwoDecimals
      rw [roundHalfUp_eq_of_mem _ 16998 (by norm_num) (by norm_num)]
      norm_num
  · refine ⟨_, smallBook_quote, by norm_num, e2, ?_, ?_, by norm_num⟩
    · rw [smallBook_read]
      unfold atTwoDecimals
      rw [roundHalfUp_eq_of_mem _ (-1) (by norm_num) (by norm_num)]
      norm_num
    · rw [smallBook_read]
      unfold atTwoDecimals
      rw [roundHalfEven_eq_of_mem _ (-1) (by norm_num) (by norm_num)]
      norm_num

/-- C16, amended. The quote rounding is `std::round` on the price in cents, computed on
`double`s: it rounds to the nearest cent and keeps neither tie rule. On every book whose
mid of "AAPL" is not zero and at most 1000000000 in size, the cycle emits one quote;
whenever `mid - 0.02` is at least 0.00001 away from every half-cent, the bid price
emitted is round-half-to-even and round-half-up of `mid - 0.02` at 2 decimals, which
agree there, and the same holds of the ask price and `mid + 0.02`. At every mid the two
prices are whole numbers of cents within 0.00501 of `mid - 0.02` and of `mid + 0.02`:
nearer to a half-cent the price emitted is one of the two neighbouring cents, and the
rounding of the double operations decides which. -/
theorem quote_rounding_nearest_cent (ob : OrderBook) (draw : Int)
    (hmid : (ob.read "AAPL").mid ≠ 0) (hsize : |(ob.read "AAPL").mid| ≤ 1000000000) :
    ∃ q : DesiredQuote, (StrategyEngine.manageQuotesDouble ob draw).1 = [q] ∧
      ((∀ k : Int,
          1 / 1000 ≤ |((ob.read "AAPL").mid - 2 / 100) * 100 - ((k : ℚ) + 1 / 2)|) →
        q.bidPrice = atTwoDecimals roundHalfEven ((ob.read "AAPL").mid - 2 / 100) ∧
        q.bidPrice = atTwoDecimals roundHalfUp ((ob.read "AAPL").mid - 2 / 100)) ∧
      ((∀ k : Int,
          1 / 1000 ≤ |((ob.read "AAPL").mid + 2 / 100) * 100 - ((k : ℚ) + 1 / 2)|) →
        q.askPrice = atTwoDecimals roundHalfEven ((ob.read "AAPL").mid + 2 / 100) ∧
        q.askPrice = atTwoDecimals roundHalfUp ((ob.read "AAPL").mid + 2 / 100)) ∧
      (∃ n : Int, q.bidPrice = (n : ℚ) / 100 ∧
        |q.bidPrice - ((ob.read "AAPL").mid - 2 / 100)| ≤ 501 / 100000) ∧
      (∃ n : Int, q.askPrice = (n : ℚ) / 100 ∧
        |q.askPrice - ((ob.read "AAPL").mid + 2 / 100)| ≤ 501 / 100000) := by
  obtain ⟨nb, hpb, hbb, hob⟩ := bid_side (ob.read "AAPL").mid hsize
  obtain ⟨na, hpa, hba, hoa⟩ := ask_side (ob.read "AAPL").mid hsize
  refine ⟨_, manageQuotesDouble_quote ob draw hmid, ?_, ?_, ⟨nb, hpb, ?_⟩, ⟨na, hpa, ?_⟩⟩
  · intro hoff
    obtain ⟨_, he, hu⟩ := hob hoff
    simp only [atTwoDecimals]
    rw [hpb, ← he, ← hu]
    exact ⟨rfl, rfl⟩
  · intro hoff
    obtain ⟨_, he, hu⟩ := hoa hoff
    simp only [atTwoDecimals]
    rw [hpa, ← he, ← hu]
    exact ⟨rfl, rfl⟩
  · simp only
    rw [hpb]
    rw [abs_le] at hbb ⊢
    constructor <;> linarith [hbb.1, hbb.2]
  · simp only
    rw [hpa]
    rw [abs_le] at hba ⊢
    constructor <;> linarith [hba.1, hba.2]

theorem scenarioD_off_tie_bid :
    ∀ k : Int, 1 / 1000 ≤
      |(((OrderBook.empty.updateMarketDataDouble "AAPL" 170 (17002 / 100)).read "AAPL").mid -
        2 / 100) * 100 - ((k : ℚ) + 1 / 2)| := by
  rw [scenarioD_read]
  exact off_tie_of_mem _ 16999 (by norm_num) (by norm_num)

theorem scenarioD_off_tie_ask :
    ∀ k : Int, 1 / 1000 ≤
      |(((OrderBook.empty.updateMarketDataDouble "AAPL" 170 (17002 / 100)).read "AAPL").mid +
        2 / 100) * 100 - ((k : ℚ) + 1 / 2)| := by
  rw [scenarioD_read]
  exact off_tie_of_mem _ 17003 (by norm_num) (by norm_num)

/-- Scenario D of the specification, with the amended C16 applied to it: after
`update("AAPL", 170.00, 170.02)` the mid is away from the half-cents and the cycle emits
169.99 and 170.03, the two rules applied to `mid - 0.02` and `mid + 0.02`. -/
theorem quote_rounding_nearest_cent_witness :
    ∃ q : DesiredQuote,
      (StrategyEngine.manageQuotesDouble
        (OrderBook.empty.updateMarketDataDouble "AAPL" 170 (17002 / 100)) 300).1 = [q] ∧
      q.bidPrice = 16999 / 100 ∧ q.askPrice = 17003 / 100 := by
  have hne : ((OrderBook.empty.updateMarketDataDouble "AAPL" 170 (17002 / 100)).read
      "AAPL").mid ≠ 0 := by
    rw [scenarioD_read]
    norm_num
  have hsz : |((OrderBook.empty.updateMarketDataDouble "AAPL" 170 (17002 / 100)).read
      "AAPL").mid| ≤ 1000000000 := by
    rw [scenarioD_read]
    norm_num [abs_le]
  obtain ⟨q, hq, hb, ha, _, _⟩ := quote_rounding_nearest_cent
    (OrderBook.empty.updateMarketDataDouble "AAPL" 170 (17002 / 100)) 300 hne hsz
  refine ⟨q, hq, ?_, ?_⟩
  · rw [(hb scenarioD_off_tie_bid).2, scenarioD_read]
    unfold atTwoDecimals
    rw [roundHalfUp_eq_of_mem _ 16999 (by norm_num) (by norm_num)]
    norm_num
  · rw [(ha scenarioD_off_tie_ask).2, scenarioD_read]
    unfold atTwoDecimals
    rw [roundHalfUp_eq_of_mem _ 17003 (by norm_num) (by norm_num)]
    norm_num

/-- C22, as the claim states it, fails on the code, which computes on `double`s. After
`update("AAPL", 169.01, 169.02)` the book holds a mid with `mid - 0.02 >= 0`, and the
cycle emits the bid price 168.99 and the ask price 169.04: the quote is 0.05 wide, not
0.04. -/
theorem quote_width_counterexample :
    ∃ q : DesiredQuote,
      (StrategyEngine.manageQuotesDouble
        (OrderBook.empty.updateMarketDataDouble "AAPL" (16901 / 100) (16902 / 100)) 300).1 =
        [q] ∧
      ((OrderBook.empty.updateMarketDataDouble "AAPL" (16901 / 100) (16902 / 100)).read
        "AAPL").mid - 2 / 100 ≥ 0 ∧
      q.bidPrice = 16899 / 100 ∧ q.askPrice = 16904 / 100 ∧
      q.askPrice - q.bidPrice = 5 / 100 ∧ q.askPrice - q.bidPrice ≠ 4 / 100 := by
  refine ⟨_, widthBook_quote, ?_, by norm_num, by norm_num, by norm_num, by norm_num⟩
  rw [widthBook_read]
  norm_num

/-- C22, amended. In the `double` arithmetic of the code rounding preserves the quoted
width away from the half-cents, and moves it by at most a cent: on every book whose mid
of "AAPL" has `mid - 0.02 >= 0` and is at most 1000000000, the cycle emits one quote;
its `askPrice - bidPrice` is 0.03, 0.04 or 0.05, and it is the spread 0.04 whenever
`mid - 0.02` is at least 0.00001 away from every half-cent. -/
theorem quote_width_preserved (ob : OrderBook) (draw : Int)
    (hmid : (ob.read "AAPL").mid - 2 / 100 ≥ 0) (hsize : (ob.read "AAPL").mid ≤ 1000000000) :
    ∃ q : DesiredQuote, (StrategyEngine.manageQuotesDouble ob draw).1 = [q] ∧
      (q.askPrice - q.bidPrice = 3 / 100 ∨ q.askPrice - q.bidPrice = 4 / 100 ∨
        q.askPrice - q.bidPrice = 5 / 100) ∧
      ((∀ k : Int,
          1 / 1000 ≤ |((ob.read "AAPL").mid - 2 / 100) * 100 - ((k : ℚ) + 1 / 2)|) →
        q.askPrice - q.bidPrice = 4 / 100) := by
  have hne : (ob.read "AAPL").mid ≠ 0 := by
    intro h
    rw [h] at hmid
    norm_num at hmid
  have habs : |(ob.read "AAPL").mid| ≤ 1000000000 := by
    rw [abs_le]
    constructor <;> linarith
  obtain ⟨nb, hpb, hbb, hob⟩ := bid_side (ob.read "AAPL").mid habs
  obtain ⟨na, hpa, hba, hoa⟩ := ask_side (ob.read "AAPL").mid habs
  have e4 : ((ob.read "AAPL").mid + 2 / 100) * 100 =
      ((ob.read "AAPL").mid - 2 / 100) * 100 + 4 := by ring
  refine ⟨_, manageQuotesDouble_quote ob draw hne, ?_, ?_⟩
  · simp only
    rw [hpb, hpa]
    rw [abs_le] at hbb hba
    have h1 : ((2 : Int) : ℚ) < ((na - nb : Int) : ℚ) := by
      push_cast
      linarith [hbb.1, hbb.2, hba.1, hba.2]
    have h2 : ((na - nb : Int) : ℚ) < ((6 : Int) : ℚ) := by
      push_cast
      linarith [hbb.1, hbb.2, hba.1, hba.2]
    have h3 : 2 < na - nb := by exact_mod_cast h1
    have h4 : na - nb < 6 := by exact_mod_cast h2
    have h5 : na - nb = 3 ∨ na - nb = 4 ∨ na - nb = 5 := by omega
    have e : (na : ℚ) / 100 - (nb : ℚ) / 100 = ((na - nb : Int) : ℚ) / 100 := by
      push_cast
      ring
    rw [e]
    rcases h5 with h | h | h
    · left
      rw [h]
      norm_num
    · right
      left
      rw [h]
      norm_num
    · right
      right
      rw [h]
      norm_num
  · intro hoff
    have hoffa : ∀ k : Int,
        1 / 1000 ≤ |((ob.read "AAPL").mid + 2 / 100) * 100 - ((k : ℚ) + 1 / 2)| := by
      intro k
      have h := hoff (k - 4)
      have e : ((ob.read "AAPL").mid + 2 / 100) * 100 - ((k : ℚ) + 1 / 2) =
          ((ob.read "AAPL").mid - 2 / 100) * 100 - (((k - 4 : Int) : ℚ) + 1 / 2) := by
        push_cast
        ring
      rw [e]
      exact h
    obtain ⟨hsb, _, _⟩ := hob hoff
    obtain ⟨hsa, _, _⟩ := hoa hoffa
    have hy : (0 : ℚ) ≤ ((ob.read "AAPL").mid - 2 / 100) * 100 := by linarith
    simp only
    rw [hpb, hpa, hsb, hsa, e4, stdRound_add_four _ hy]
    ring

/-- Scenario D of the specification, with the amended C22 applied to it: after
`update("AAPL", 170.00, 170.02)` the mid is away from the half-cents and the quote
emitted is 0.04 wide. -/
theorem quote_width_preserved_witness :
    ∃ q : DesiredQuote,
      (StrategyEngine.manageQuotesDouble
        (OrderBook.empty.updateMarketDataDouble "AAPL" 170 (17002 / 100)) 300).1 = [q] ∧
      q.askPrice - q.bidPrice = 4 / 100 := by
  have hlo : ((OrderBook.empty.updateMarketDataDouble "AAPL" 170 (17002 / 100)).read
      "AAPL").mid - 2 / 100 ≥ 0 := by
    rw [scenarioD_read]
    norm_num
  have hsz : ((OrderBook.empty.updateMarketDataDouble "AAPL" 170 (17002 / 100)).read
      "AAPL").mid ≤ 1000000000 := by
    rw [scenarioD_read]
    norm_num
  obtain ⟨q, hq, _, hw⟩ := quote_width_preserved
    (OrderBook.empty.updateMarketDataDouble "AAPL" 170 (17002 / 100)) 300 hlo hsz
  exact ⟨q, hq, hw scenarioD_off_tie_bid⟩


end HFT
